import Mathlib

/-!
# Smart-hostel: the dashboard statistics aggregator, the stores and the route handlers

A shallow embedding of `updateStats`, `handleStudentSubmit`, `handleLogin`,
`renderRecentActivity`, `MongoDBService` and the admin functions (src/app.js) and of the
route handlers of src/server.js and src/api/index.js.

Records are typed structures carrying the fields the front end creates.  JavaScript
numbers are IEEE-754 binary64: counts are integers (exact below `2 ^ 53`) and are kept as
`Nat`; the operations that round, `/`, `*` and the `+` of the ratings, are modelled by
`roundDouble`, the round-to-nearest, ties-to-even rounding of the exact result to a 53-bit
significand.
-/

namespace SmartHostel

/-! ## JavaScript numbers -/

/-- A finite non-negative JavaScript Number, held as the exact fraction `num / den`. -/
structure JsNum where
  num : Nat
  den : Nat
deriving DecidableEq, Repr

/-- The Number of an integer count (exact for counts below `2 ^ 53`). -/
def JsNum.ofNat (k : Nat) : JsNum := ⟨k, 1⟩

/-- The rational value of a Number. -/
def JsNum.val (x : JsNum) : ℚ := (x.num : ℚ) / (x.den : ℚ)

/-- Integer nearest to `n / d`, a tie going to the even neighbour. -/
def roundHalfEven (n d : Nat) : Nat :=
  let q := n / d
  let r := n % d
  if 2 * r < d then q
  else if d < 2 * r then q + 1
  else if q % 2 = 0 then q else q + 1

/-- Worker of `lg`: halve until below 2. -/
def lgAux : Nat → Nat → Nat
  | 0, _ => 0
  | fuel + 1, n => if n < 2 then 0 else lgAux fuel (n / 2) + 1

/-- Position of the leading bit: `⌊log₂ n⌋` for `n ≥ 1`. -/
def lg (n : Nat) : Nat := lgAux n n

/-- Exponents `(up, dn)` of the power-of-two scaling that brings `n / d` into
`[2 ^ 52, 2 ^ 53)`, that is `2 ^ 52 ≤ (n * 2 ^ up) / (d * 2 ^ dn) < 2 ^ 53`: a first guess
from the leading bits, moved by one when the scaled quotient reaches `2 ^ 53`. -/
def scaling (n d : Nat) : Nat × Nat :=
  let up0 := lg d + 53 - lg n
  let dn0 := lg n - (lg d + 53)
  if 2 ^ 53 * (d * 2 ^ dn0) ≤ n * 2 ^ up0 then
    if up0 = 0 then (0, dn0 + 1) else (up0 - 1, dn0)
  else (up0, dn0)

/-- The binary64 value nearest to the exact quotient `n / d` (round to nearest, ties to
even): the quotient is scaled by a power of two into `[2 ^ 52, 2 ^ 53)`, rounded to an
integer significand and scaled back.  The exponent range (overflow, subnormals) is not
modelled. -/
def roundDouble (n d : Nat) : JsNum :=
  if n = 0 then ⟨0, 1⟩ else
  let up := (scaling n d).1
  let dn := (scaling n d).2
  ⟨roundHalfEven (n * 2 ^ up) (d * 2 ^ dn) * 2 ^ dn, 2 ^ up⟩

/-- JavaScript `a / b`.  `none` records that the divisor was zero (where JavaScript
yields `NaN` or `Infinity`). -/
def jsDiv (a b : JsNum) : Option JsNum :=
  if b.num = 0 then none else some (roundDouble (a.num * b.den) (a.den * b.num))

/-- JavaScript `a * b`. -/
def jsMul (a b : JsNum) : JsNum := roundDouble (a.num * b.num) (a.den * b.den)

/-- Source: `Math.round(x)`: the integer nearest to `x`, a tie going up. -/
def mathRound (x : JsNum) : Nat := (2 * x.num + x.den) / (2 * x.den)

/-- Source: `x.toFixed(1)`: with `n` the integer for which `n / 10 - x` is closest to
zero (the larger one on a tie), the digits of `n` with a point before the last one. -/
def toFixed1 (x : JsNum) : String :=
  let n := (20 * x.num + x.den) / (2 * x.den)
  toString (n / 10) ++ "." ++ toString (n % 10)

/-- JavaScript `a + b` on Numbers. -/
def jsAdd (a b : JsNum) : JsNum := roundDouble (a.num * b.den + b.num * a.den) (a.den * b.den)

/-- A JavaScript Number as an operand of `+` and `/`: a finite Number `x` (`num`), the
negative `-x` of one (`neg`), or `NaN`, which is also what `undefined` converts to. -/
inductive Operand where
  | num (x : JsNum)
  | neg (x : JsNum)
  | nan
deriving DecidableEq, Repr

/-- JavaScript `a - b` on non-negative Numbers: the exact difference, rounded, with its
sign. -/
def jsSub (a b : JsNum) : Operand :=
  if b.num * a.den ≤ a.num * b.den then
    .num (roundDouble (a.num * b.den - b.num * a.den) (a.den * b.den))
  else .neg (roundDouble (b.num * a.den - a.num * b.den) (a.den * b.den))

/-- JavaScript `a + b` on operands; `NaN` absorbs. -/
def jsPlus (a b : Operand) : Operand :=
  match a, b with
  | .num x, .num y => .num (jsAdd x y)
  | .neg x, .neg y => .neg (jsAdd x y)
  | .num x, .neg y => jsSub x y
  | .neg x, .num y => jsSub y x
  | _, _ => .nan

/-- JavaScript `a / b` for a count `b`; `none` records that the divisor was zero. -/
def Operand.div (a : Operand) (b : JsNum) : Option Operand :=
  match a with
  | .num x => (jsDiv x b).map Operand.num
  | .neg x => (jsDiv x b).map Operand.neg
  | .nan => if b.num = 0 then none else some .nan

/-- Source: `x.toFixed(1)` on operands: "NaN" for `NaN`, a minus sign before the digits
of a Number below zero. -/
def Operand.toFixed1 (a : Operand) : String :=
  match a with
  | .num x => SmartHostel.toFixed1 x
  | .neg x => if x.num = 0 then SmartHostel.toFixed1 x else "-" ++ SmartHostel.toFixed1 x
  | .nan => "NaN"

/-! ## Records (src/app.js, the objects built by the form handlers) -/

/-- Leave request, as built by `handleLeaveSubmit` (`from`/`to` are `fromDate`/`toDate`). -/
structure Leave where
  _id : String
  user : String
  email : String
  type : String
  fromDate : String
  toDate : String
  reason : String
  status : String
  date : String
deriving DecidableEq, Repr

/-- Feedback, as built by `handleFeedbackSubmit` or read from the store.  `foodRating` is
the property as `sum + feedback.foodRating` reads it: a Number (`parseInt` of the checked
radio value in the form handler, a star count), `nan` for a record without one. -/
structure Feedback where
  _id : String
  user : String
  email : String
  mealType : String
  foodRating : Operand
  comments : String
  date : String
  response : Option String
deriving DecidableEq, Repr

/-- Issue report, as built by `handleReportSubmit`. -/
structure Report where
  _id : String
  user : String
  email : String
  category : String
  location : String
  description : String
  urgency : String
  status : String
  date : String
deriving DecidableEq, Repr

/-- Room allocation, as built by `handleRoomAllocation`. -/
structure RoomAllocation where
  _id : String
  studentId : String
  studentName : String
  roomNumber : String
  hostelName : String
  allocationDate : String
  status : String
deriving DecidableEq, Repr

/-- Attendance record, as built by `handleSaveAttendance`. -/
structure Attendance where
  _id : String
  studentId : String
  studentName : String
  date : String
  status : String
  type : String
  recordedBy : String
deriving DecidableEq, Repr

/-- Student, as built by `handleStudentSubmit` and stored by the `Student` model. -/
structure Student where
  _id : String
  name : String
  roll : String
  email : String
  room : String
  department : String
  phone : String
deriving DecidableEq, Repr

/-- Payment, as built by `handlePaymentSubmission`; `amount` is kept as the entered text. -/
structure Payment where
  _id : String
  studentId : String
  studentName : String
  amount : String
  type : String
  method : String
  date : String
  status : String
deriving DecidableEq, Repr

/-! ## Front-end state (src/app.js, the globals and the dashboard elements) -/

/-- The `textContent` of the dashboard elements that `updateStats` writes. -/
structure Dom where
  pendingLeavesEl : String
  totalFeedbackEl : String
  totalReportsEl : String
  roomOccupancyEl : String
  todayAttendanceEl : String
  feeStatusEl : String
  totalStudentsEl : String
  messRatingEl : String
  roomOccupancyDashboardEl : String
  attendanceRateEl : String
deriving DecidableEq, Repr

/-- The in-memory arrays mirroring the store, and the dashboard. -/
structure AppState where
  feedbackData : List Feedback
  leaveData : List Leave
  studentData : List Student
  reportData : List Report
  roomAllocations : List RoomAllocation
  attendanceData : List Attendance
  paymentData : List Payment
  dom : Dom
deriving DecidableEq, Repr

/-! ## `updateStats` (src/app.js) -/

/-- Source: `leaveData.filter(leave => leave.status === 'pending').length` -/
def pendingLeaves (leaveData : List Leave) : Nat :=
  (leaveData.filter (fun leave => leave.status == "pending")).length

/-- Source: `const totalRooms = 30` -/
def totalRooms : Nat := 30

/-- Source: `roomAllocations.filter(room => room.status === 'occupied').length` -/
def occupiedRooms (roomAllocations : List RoomAllocation) : Nat :=
  (roomAllocations.filter (fun room => room.status == "occupied")).length

/-- Source: `Math.round((occupiedRooms / totalRooms) * 100)` -/
def roomOccupancy (roomAllocations : List RoomAllocation) : Option Nat := do
  let q ← jsDiv (JsNum.ofNat (occupiedRooms roomAllocations)) (JsNum.ofNat totalRooms)
  pure (mathRound (jsMul q (JsNum.ofNat 100)))

/-- Source: `attendanceData.filter(a => a.date === today && a.status === 'present').length` -/
def todayAttendance (attendanceData : List Attendance) (today : String) : Nat :=
  (attendanceData.filter (fun a => a.date == today && a.status == "present")).length

/-- Source:
`studentData.length > 0 ? Math.round((todayAttendance / studentData.length) * 100) : 0` -/
def attendanceRate (attendanceData : List Attendance) (studentData : List Student)
    (today : String) : Option Nat :=
  if studentData.length > 0 then do
    let q ← jsDiv (JsNum.ofNat (todayAttendance attendanceData today))
      (JsNum.ofNat studentData.length)
    pure (mathRound (jsMul q (JsNum.ofNat 100)))
  else pure 0

/-- Source: `paymentData.filter(p => p.status === 'paid').length` -/
def paidPayments (paymentData : List Payment) : Nat :=
  (paymentData.filter (fun p => p.status == "paid")).length

/-- Source: `paidPayments > 0 ? 'Paid' : 'Pending'` -/
def feeStatus (paymentData : List Payment) : String :=
  if paidPayments paymentData > 0 then "Paid" else "Pending"

/-- Source: `feedbackData.reduce((sum, feedback) => sum + feedback.foodRating, 0)`: the
ratings are added one by one in binary64, from the left. -/
def ratingSum (feedbackData : List Feedback) : Operand :=
  feedbackData.foldl (fun sum feedback => jsPlus sum feedback.foodRating)
    (.num (JsNum.ofNat 0))

/-- The mean before formatting: `ratingSum / feedbackData.length`. -/
def meanRating (feedbackData : List Feedback) : Option Operand :=
  (ratingSum feedbackData).div (JsNum.ofNat feedbackData.length)

/-- Source: `feedbackData.length > 0 ? (sum / feedbackData.length).toFixed(1) : '0.0'` -/
def avgRating (feedbackData : List Feedback) : Option String :=
  if feedbackData.length > 0 then do
    let m ← meanRating feedbackData
    pure m.toFixed1
  else pure "0.0"

/-- The values `updateStats` computes, under the names of its constants
(`totalStudents` is the `studentData.length` it displays). -/
structure Stats where
  pendingLeaves : Nat
  totalFeedback : Nat
  totalReports : Nat
  roomOccupancy : Nat
  attendanceRate : Nat
  feeStatus : String
  totalStudents : Nat
  avgRating : String
deriving DecidableEq, Repr

/-- The computations of `updateStats`; `today` is `new Date().toISOString().split('T')[0]`.
The result is `none` when a division by zero is reached. -/
def computeStats (s : AppState) (today : String) : Option Stats := do
  let roomOccupancy ← roomOccupancy s.roomAllocations
  let attendanceRate ← attendanceRate s.attendanceData s.studentData today
  let avgRating ← avgRating s.feedbackData
  pure {
    pendingLeaves := pendingLeaves s.leaveData
    totalFeedback := s.feedbackData.length
    totalReports := s.reportData.length
    roomOccupancy := roomOccupancy
    attendanceRate := attendanceRate
    feeStatus := feeStatus s.paymentData
    totalStudents := s.studentData.length
    avgRating := avgRating }

/-- The assignments to `textContent` made by `updateStats`. -/
def render (st : Stats) : Dom where
  pendingLeavesEl := toString st.pendingLeaves
  totalFeedbackEl := toString st.totalFeedback
  totalReportsEl := toString st.totalReports
  roomOccupancyEl := toString st.roomOccupancy ++ "%"
  todayAttendanceEl := toString st.attendanceRate ++ "%"
  feeStatusEl := st.feeStatus
  totalStudentsEl := toString st.totalStudents
  messRatingEl := st.avgRating ++ "/5"
  roomOccupancyDashboardEl := toString st.roomOccupancy ++ "%"
  attendanceRateEl := toString st.attendanceRate ++ "%"

/-- Source: `updateStats()`: reads the arrays and the date, writes the dashboard elements. -/
def updateStats (s : AppState) (today : String) : Option AppState := do
  let st ← computeStats s today
  pure { s with dom := render st }

/-! ## Student creation (src/app.js `handleStudentSubmit`, `POST /api/students`) -/

/-- The values of the inputs of the student form. -/
structure StudentForm where
  studentName : String
  studentRoll : String
  studentEmail : String
  studentRoom : String
  studentDepartment : String
  studentPhone : String
deriving DecidableEq, Repr

/-- Body of a `POST /api/students` request; a field absent from the JSON is `none`. -/
structure StudentBody where
  name : Option String
  roll : Option String
  email : Option String
  room : Option String
  department : Option String
  phone : Option String
deriving DecidableEq, Repr

/-- What `handleStudentSubmit` does after reading the form: it either shows an error
notification and returns, or goes on to `MongoDBService.createStudent(student)` (followed
by the reload of `studentData`, `updateStats`, `renderStudents` and the success
notification). -/
inductive SubmitStep where
  | notifyError (message : String)
  | createStudent (student : StudentBody)
deriving DecidableEq, Repr

/-- Source: `handleStudentSubmit(e)`: the two guards and the student object it builds. -/
def handleStudentSubmit (studentData : List Student) (f : StudentForm) : SubmitStep :=
  if f.studentName = "" ∨ f.studentRoll = "" ∨ f.studentEmail = "" ∨ f.studentRoom = ""
      ∨ f.studentDepartment = "" then
    .notifyError "Please fill in all required fields"
  else if (studentData.find? (fun s => s.roll == f.studentRoll)).isSome then
    .notifyError "Student with this roll number already exists"
  else
    .createStudent {
      name := some f.studentName
      roll := some f.studentRoll
      email := some f.studentEmail
      room := some f.studentRoom
      department := some f.studentDepartment
      phone := some f.studentPhone }

/-- The two route modules that serve `POST /api/students`. -/
inductive RouteModule where
  | server
  | apiIndex
deriving DecidableEq, Repr

/-- The error thrown by `student.save()`: a Mongoose ValidationError (it has no `code`) or
the store's duplicate-key error (`code` 11000). -/
inductive SaveError where
  | validation
  | duplicateKey
deriving DecidableEq, Repr

/-- Source: `error.code` -/
def SaveError.code : SaveError → Option Nat
  | .validation => none
  | .duplicateKey => some 11000

/-- Source: `error.message` (the wording is the library's; only its presence matters here). -/
def SaveError.message : SaveError → String
  | .validation => "Student validation failed"
  | .duplicateKey => "E11000 duplicate key error"

/-- Mongoose `required: true` on a String path: the value is present and not empty. -/
def required (v : Option String) : Bool :=
  match v with
  | some x => x != ""
  | none => false

/-- The `required` validators of `studentSchema` (the same five paths in both modules). -/
def validateStudent (b : StudentBody) : Bool :=
  required b.name && required b.roll && required b.email && required b.room
    && required b.department

/-- The `unique: true` indexes of `studentSchema`: `roll` in both modules, and also
`email` in src/server.js. -/
def violatesUnique (m : RouteModule) (store : List Student) (b : StudentBody) : Bool :=
  store.any (fun d => some d.roll == b.roll)
    || (m == .server && store.any (fun d => some d.email == b.email))

/-- Modelled from the spec: the Record Store's insert, here `new Student(req.body)`
followed by `student.save()` under `studentSchema` (create validates required-field
presence; `roll` uniquely identifies a student; the store generates the identifier).
Mongoose runs the `required` validators before the insert reaches the unique index.
`newId` is the identifier the store generates. -/
def save (m : RouteModule) (store : List Student) (b : StudentBody) (newId : String) :
    Except SaveError (Student × List Student) :=
  if !validateStudent b then .error .validation
  else if violatesUnique m store b then .error .duplicateKey
  else
    let student : Student := {
      _id := newId
      name := b.name.getD ""
      roll := b.roll.getD ""
      email := b.email.getD ""
      room := b.room.getD ""
      department := b.department.getD ""
      phone := b.phone.getD "" }
    .ok (student, store ++ [student])

/-- The response of a route handler: HTTP status and the JSON envelope. -/
structure Response where
  status : Nat
  success : Bool
  data : Option Student
  error : Option String
deriving DecidableEq, Repr

/-- Source: `app.post('/api/students', ...)` of src/server.js and of src/api/index.js: the
response and the Student collection afterwards. -/
def postStudent (m : RouteModule) (store : List Student) (b : StudentBody) (newId : String) :
    Response × List Student :=
  match save m store b newId with
  | .ok (student, store') =>
    match m with
    | .server => ({ status := 201, success := true, data := some student, error := none }, store')
    | .apiIndex => ({ status := 200, success := true, data := some student, error := none }, store')
  | .error error =>
    match m with
    | .server =>
      if error.code = some 11000 then
        ({ status := 400, success := false, data := none,
           error := some "Student with this roll number or email already exists" }, store)
      else
        ({ status := 500, success := false, data := none, error := some error.message }, store)
    | .apiIndex =>
      ({ status := 400, success := false, data := none, error := some error.message }, store)

/-! ## Sample data -/

/-- Three leave requests, two of them pending. -/
def sampleLeaves : List Leave :=
  [ { _id := "l1", user := "Arun", email := "arun@drngpit.ac.in", type := "Home",
      fromDate := "2024-01-20", toDate := "2024-01-22", reason := "Festival",
      status := "pending", date := "2024-01-15T08:00:00.000Z" },
    { _id := "l2", user := "Divya", email := "divya@drngpit.ac.in", type := "Medical",
      fromDate := "2024-01-10", toDate := "2024-01-11", reason := "Fever",
      status := "approved", date := "2024-01-09T08:00:00.000Z" },
    { _id := "l3", user := "Kavin", email := "kavin@drngpit.ac.in", type := "Home",
      fromDate := "2024-02-01", toDate := "2024-02-03", reason := "Family function",
      status := "pending", date := "2024-01-15T09:00:00.000Z" } ]

/-- A feedback record with the given rating. -/
def sampleFeedbackOf (id : String) (rating : Nat) : Feedback :=
  { _id := id, user := "Arun", email := "arun@drngpit.ac.in", mealType := "lunch",
    foodRating := .num (JsNum.ofNat rating), comments := "",
    date := "2024-01-15T12:30:00.000Z", response := none }

/-- A feedback record whose rating is the Number written `n / d` in decimal (the binary64
value nearest to it). -/
def sampleFeedbackRated (id : String) (n d : Nat) : Feedback :=
  { sampleFeedbackOf id 0 with foodRating := .num (roundDouble n d) }

/-- One report. -/
def sampleReports : List Report :=
  [ { _id := "r1", user := "Arun", email := "arun@drngpit.ac.in", category := "Electrical",
      location := "Room 101", description := "Fan not working", urgency := "medium",
      status := "pending", date := "2024-01-15T10:00:00.000Z" } ]

/-- The allocation of room `i` with the given status. -/
def sampleRoomOf (status : String) (i : Nat) : RoomAllocation :=
  { _id := "a" ++ toString i, studentId := "s" ++ toString i,
    studentName := "Student " ++ toString i, roomNumber := toString (101 + i),
    hostelName := "Marutham Hostel", allocationDate := "2024-01-02", status := status }

/-- Student number `i`. -/
def sampleStudentOf (i : Nat) : Student :=
  { _id := "s" ++ toString i, name := "Student " ++ toString i, roll := "R" ++ toString i,
    email := "student" ++ toString i ++ "@drngpit.ac.in", room := toString (101 + i),
    department := "CSE", phone := "" }

/-- Student number `i` marked present on the given date. -/
def samplePresentOf (date : String) (i : Nat) : Attendance :=
  { _id := "p" ++ toString i, studentId := "s" ++ toString i,
    studentName := "Student " ++ toString i, date := date, status := "present",
    type := "morning", recordedBy := "Admin" }

/-- A payment with the given status. -/
def samplePaymentOf (id : String) (status : String) : Payment :=
  { _id := id, studentId := "s0", studentName := "Student 0", amount := "25000",
    type := "hostel", method := "upi", date := "2024-01-05", status := status }

/-- A dashboard showing nothing yet. -/
def blankDom : Dom :=
  { pendingLeavesEl := "", totalFeedbackEl := "", totalReportsEl := "", roomOccupancyEl := "",
    todayAttendanceEl := "", feeStatusEl := "", totalStudentsEl := "", messRatingEl := "",
    roomOccupancyDashboardEl := "", attendanceRateEl := "" }

/-- A snapshot with 40 students, 23 of them present on 2024-01-15, 15 occupied rooms and 2
vacated ones, ratings 5 and 3, and one paid payment among pending ones. -/
def sampleState : AppState :=
  { feedbackData := [sampleFeedbackOf "f1" 5, sampleFeedbackOf "f2" 3]
    leaveData := sampleLeaves
    studentData := (List.range 40).map sampleStudentOf
    reportData := sampleReports
    roomAllocations := (List.range 15).map (sampleRoomOf "occupied")
      ++ [sampleRoomOf "vacated" 15, sampleRoomOf "vacated" 16]
    attendanceData := (List.range 23).map (samplePresentOf "2024-01-15")
      ++ [samplePresentOf "2024-01-14" 0]
    paymentData := [samplePaymentOf "y1" "pending", samplePaymentOf "y2" "paid",
      samplePaymentOf "y3" "pending"]
    dom := blankDom }

/-- The same snapshot with every array reversed. -/
def sampleStateReversed : AppState :=
  { feedbackData := sampleState.feedbackData.reverse
    leaveData := sampleState.leaveData.reverse
    studentData := sampleState.studentData.reverse
    reportData := sampleState.reportData.reverse
    roomAllocations := sampleState.roomAllocations.reverse
    attendanceData := sampleState.attendanceData.reverse
    paymentData := sampleState.paymentData.reverse
    dom := blankDom }

/-- The sample snapshot with a dashboard already filled in. -/
def sampleStateShown : AppState :=
  { sampleState with dom := { blankDom with feeStatusEl := "Pending", messRatingEl := "0.0/5" } }

/-- A request for a new student whose roll `R3` is already taken. -/
def sampleBodyTaken : StudentBody :=
  { name := some "Nila", roll := some "R3", email := some "nila@drngpit.ac.in",
    room := some "204", department := some "ECE", phone := some "" }

/-- The same request with an empty name. -/
def sampleBodyTakenNoName : StudentBody :=
  { sampleBodyTaken with name := some "" }

/-- The student form filled in with the roll `R3`. -/
def sampleFormTaken : StudentForm :=
  { studentName := "Nila", studentRoll := "R3", studentEmail := "nila@drngpit.ac.in",
    studentRoom := "204", studentDepartment := "ECE", studentPhone := "" }

/-! ## Documents and the local-storage store (src/app.js `localStorageFallback`) -/

/-- JSON values held in the fields of a document.  Numbers are the non-negative integers
the application stores; nested objects and arrays do not occur in its records. -/
inductive Json where
  | null
  | bool (b : Bool)
  | num (n : Nat)
  | str (s : String)
deriving DecidableEq, Repr

/-- A record as a JavaScript object: its properties in insertion order. -/
abbrev Doc := List (String × Json)

/-- Property read `d[k]`; `none` is `undefined`. -/
def Doc.get (d : Doc) (k : String) : Option Json := d.lookup k

/-- Object spread `{...item, ...data}`: the properties of `item`, each overridden by the
property of `data` with the same name, followed by the remaining properties of `data`. -/
def Doc.spread (item data : Doc) : Doc :=
  item.map (fun kv => (kv.1, (data.lookup kv.1).getD kv.2))
    ++ data.filter (fun kv => (item.lookup kv.1).isNone)

/-- A keyed store of arrays of documents: `localStorage` (a key maps to the array whose
JSON text it holds) and, on the server, the collections by name. -/
abbrev Store := List (String × List Doc)

/-- Source: `getItem(key)`, parsed; `none` when the key is absent. -/
def Store.getItem (st : Store) (key : String) : Option (List Doc) := st.lookup key

/-- Source: `setItem(key, JSON.stringify(items))` -/
def Store.setItem (st : Store) (key : String) (items : List Doc) : Store :=
  (key, items) :: st.filter (fun kv => kv.1 != key)

/-- The request methods `makeAPIRequest` is called with. -/
inductive HttpMethod where
  | GET
  | POST
  | PUT
  | DELETE
deriving DecidableEq, Repr

/-- The `data` property of a response body. -/
inductive Payload where
  | doc (d : Doc)
  | docs (items : List Doc)
  | null
deriving DecidableEq, Repr

/-- A parsed response body `{ success, data }`, as `makeAPIRequest` returns it. -/
structure ApiResult where
  success : Bool
  data : Option Payload
deriving DecidableEq, Repr

/-- Source: `MongoDBService.localStorageFallback(endpoint, method, data)`.  `now` is
`Date.now()`; `data` is not read by GET. -/
def localStorageFallback (ls : Store) (endpoint : String) (method : HttpMethod) (data : Doc)
    (now : Nat) : ApiResult × Store :=
  let key := "db_" ++ endpoint
  match method with
  | .GET =>
    ({ success := true, data := some (.docs ((ls.getItem key).getD [])) }, ls)
  | .POST =>
    let items := (ls.getItem key).getD []
    let newItem := Doc.spread data [("_id", .str (toString now))]
    ({ success := true, data := some (.doc newItem) }, ls.setItem key (items ++ [newItem]))
  | .PUT =>
    let allItems := (ls.getItem key).getD []
    let updatedItems := allItems.map
      (fun item => if item.get "_id" = data.get "_id" then Doc.spread item data else item)
    ({ success := true, data := some (.doc [("modifiedCount", .num 1)]) },
      ls.setItem key updatedItems)
  | .DELETE =>
    let currentItems := (ls.getItem key).getD []
    let filteredItems := currentItems.filter (fun item => item.get "_id" != data.get "_id")
    ({ success := true, data := some (.doc [("deletedCount", .num 1)]) },
      ls.setItem key filteredItems)

/-! ## The Record Store (Mongoose models of src/server.js and src/api/index.js) -/

/-- The `type` of a schema path. -/
inductive Kind where
  | string
  | number
  | date
  | boolean
deriving DecidableEq, Repr

/-- One path of a Mongoose schema with the options the two modules use.  `enum` empty
means no enum validator; `defaultNow` is `default: Date.now`. -/
structure SchemaPath where
  name : String
  kind : Kind
  required : Bool := false
  unique : Bool := false
  enum : List String := []
  min : Option Nat := none
  max : Option Nat := none
  default : Option Json := none
  defaultNow : Bool := false
deriving DecidableEq, Repr

/-- A Mongoose schema: its paths and the `timestamps` option. -/
structure Schema where
  paths : List SchemaPath
  timestamps : Bool := false
deriving DecidableEq, Repr

/-- Path `{ type: String, required: true }`. -/
def reqString (name : String) : SchemaPath := { name := name, kind := .string, required := true }

/-- Path `{ type: String, default: value }`. -/
def optString (name : String) (value : Json) : SchemaPath :=
  { name := name, kind := .string, default := some value }

/-- Path `{ type: Date, required: true }`. -/
def reqDate (name : String) : SchemaPath := { name := name, kind := .date, required := true }

/-- Path `{ type: Date, default: Date.now }`. -/
def dateNow (name : String) : SchemaPath := { name := name, kind := .date, defaultNow := true }

/-- Path `{ type: Date, default: null }`. -/
def dateNull (name : String) : SchemaPath :=
  { name := name, kind := .date, default := some .null }

/-- Path `{ type: Number, required: true, min: 1, max: 5 }`. -/
def rating (name : String) : SchemaPath :=
  { name := name, kind := .number, required := true, min := some 1, max := some 5 }

namespace ServerJs

/-- Source: `userSchema` of src/server.js. -/
def userSchema : Schema := { paths := [
  { name := "email", kind := .string, required := true, unique := true },
  reqString "password", reqString "name", reqString "room", reqString "hostelType",
  reqString "hostelName", optString "avatar" (.str ""), optString "theme" (.str "light"),
  { name := "isAdmin", kind := .boolean, default := some (.bool false) },
  dateNow "createdAt"] }

/-- Source: `feedbackSchema` of src/server.js. -/
def feedbackSchema : Schema := { paths := [
  reqString "user", reqString "email", reqString "mealType", rating "foodRating",
  rating "menuRating", optString "comments" (.str ""), dateNow "date",
  optString "response" .null, dateNull "respondedAt"] }

/-- Source: `leaveSchema` of src/server.js. -/
def leaveSchema : Schema := { paths := [
  reqString "user", reqString "email", reqString "type", reqString "from", reqString "to",
  reqString "reason",
  { name := "status", kind := .string, default := some (.str "pending"),
    enum := ["pending", "approved", "rejected"] },
  dateNow "date", optString "approvedBy" .null, dateNull "approvedAt"] }

/-- Source: `studentSchema` of src/server.js. -/
def studentSchema : Schema := { paths := [
  reqString "name",
  { name := "roll", kind := .string, required := true, unique := true },
  { name := "email", kind := .string, required := true, unique := true },
  reqString "room", reqString "department", optString "phone" (.str ""), dateNow "date"] }

/-- Source: `reportSchema` of src/server.js. -/
def reportSchema : Schema := { paths := [
  reqString "user", reqString "email", reqString "category", reqString "location",
  reqString "description",
  { name := "urgency", kind := .string, required := true,
    enum := ["low", "medium", "high", "critical"] },
  { name := "status", kind := .string, default := some (.str "pending"),
    enum := ["pending", "in-progress", "resolved"] },
  dateNow "date", optString "resolvedBy" .null, dateNull "resolvedAt"] }

/-- Source: `announcementSchema` of src/server.js. -/
def announcementSchema : Schema := { paths := [
  reqString "title", reqString "content",
  { name := "type", kind := .string, default := some (.str "info"),
    enum := ["info", "warning", "important"] },
  reqString "date", optString "createdBy" (.str "Admin"), dateNow "createdAt"] }

end ServerJs

namespace ApiIndex

/-- Source: `userSchema` of src/api/index.js. -/
def userSchema : Schema := { timestamps := true, paths := [
  { name := "email", kind := .string, required := true, unique := true },
  reqString "password", reqString "name", reqString "room", reqString "hostelType",
  reqString "hostelName", optString "avatar" (.str ""), optString "theme" (.str "light"),
  { name := "isAdmin", kind := .boolean, default := some (.bool false) }] }

/-- Source: `feedbackSchema` of src/api/index.js. -/
def feedbackSchema : Schema := { timestamps := true, paths := [
  reqString "user", reqString "email", reqString "mealType", rating "foodRating",
  reqString "comments", optString "response" .null, dateNow "date"] }

/-- Source: `leaveSchema` of src/api/index.js. -/
def leaveSchema : Schema := { timestamps := true, paths := [
  reqString "user", reqString "email", reqString "type", reqDate "from", reqDate "to",
  reqString "reason", optString "status" (.str "pending"), dateNow "date"] }

/-- Source: `studentSchema` of src/api/index.js. -/
def studentSchema : Schema := { timestamps := true, paths := [
  reqString "name",
  { name := "roll", kind := .string, required := true, unique := true },
  reqString "email", reqString "room", reqString "department",
  optString "phone" (.str "")] }

/-- Source: `reportSchema` of src/api/index.js. -/
def reportSchema : Schema := { timestamps := true, paths := [
  reqString "user", reqString "email", reqString "category", reqString "location",
  reqString "description", reqString "urgency", optString "status" (.str "pending"),
  dateNow "date"] }

/-- Source: `roomAllocationSchema` of src/api/index.js. -/
def roomAllocationSchema : Schema := { timestamps := true, paths := [
  reqString "studentId", reqString "studentName", reqString "roomNumber",
  reqString "hostelName", reqDate "allocationDate", optString "status" (.str "occupied")] }

/-- Source: `attendanceSchema` of src/api/index.js. -/
def attendanceSchema : Schema := { timestamps := true, paths := [
  reqString "studentId", reqString "studentName", reqDate "date", reqString "status",
  reqString "type", reqString "recordedBy"] }

/-- Source: `visitorSchema` of src/api/index.js. -/
def visitorSchema : Schema := { timestamps := true, paths := [
  reqString "name", reqString "phone", reqString "purpose", reqString "studentVisiting",
  dateNow "entryTime", dateNull "exitTime", optString "status" (.str "visiting"),
  { name := "expectedDuration", kind := .number, required := true }] }

/-- Source: `paymentSchema` of src/api/index.js. -/
def paymentSchema : Schema := { timestamps := true, paths := [
  reqString "studentId", reqString "studentName",
  { name := "amount", kind := .number, required := true },
  reqString "type", reqString "method", reqDate "date", optString "status" (.str "paid")] }

end ApiIndex

/-- The model behind each collection of src/server.js. -/
def serverSchema (endpoint : String) : Option Schema :=
  if endpoint = "users" then some ServerJs.userSchema
  else if endpoint = "feedback" then some ServerJs.feedbackSchema
  else if endpoint = "leaves" then some ServerJs.leaveSchema
  else if endpoint = "students" then some ServerJs.studentSchema
  else if endpoint = "reports" then some ServerJs.reportSchema
  else if endpoint = "announcements" then some ServerJs.announcementSchema
  else none

/-- The model behind each collection of src/api/index.js. -/
def apiSchema (endpoint : String) : Option Schema :=
  if endpoint = "users" then some ApiIndex.userSchema
  else if endpoint = "feedback" then some ApiIndex.feedbackSchema
  else if endpoint = "leaves" then some ApiIndex.leaveSchema
  else if endpoint = "students" then some ApiIndex.studentSchema
  else if endpoint = "reports" then some ApiIndex.reportSchema
  else if endpoint = "room-allocations" then some ApiIndex.roomAllocationSchema
  else if endpoint = "attendance" then some ApiIndex.attendanceSchema
  else if endpoint = "visitors" then some ApiIndex.visitorSchema
  else if endpoint = "payments" then some ApiIndex.paymentSchema
  else none

/-- The schema of a collection in a route module; `none` when the module has no such
model. -/
def schemaOf (m : RouteModule) (endpoint : String) : Option Schema :=
  match m with
  | .server => serverSchema endpoint
  | .apiIndex => apiSchema endpoint

/-- An error thrown by a Mongoose call: the id cannot be cast to an ObjectId, a validator
failed, a unique index refused the write (`code` 11000), or the store is unavailable. -/
inductive DbError where
  | cast
  | validation
  | duplicateKey
  | unavailable
deriving DecidableEq, Repr

/-- Source: `error.name` -/
def DbError.name : DbError → String
  | .cast => "CastError"
  | .validation => "ValidationError"
  | .duplicateKey => "MongoServerError"
  | .unavailable => "MongooseError"

/-- Source: `error.code` -/
def DbError.code : DbError → Option Nat
  | .duplicateKey => some 11000
  | _ => none

/-- Source: `error.message` (the wording is the library's). -/
def DbError.message : DbError → String
  | .cast => "Cast to ObjectId failed"
  | .validation => "Validation failed"
  | .duplicateKey => "E11000 duplicate key error"
  | .unavailable => "Operation failed"

/-- The identifier format of the store: `isValid` is `mongoose.Types.ObjectId.isValid`,
`casts` tells whether a query by this id can be cast (a CastError is thrown otherwise).
Both belong to the library and are parameters here. -/
structure IdFormat where
  isValid : String → Bool
  casts : String → Bool

/-- What a request brings from outside the program: `Date.now()`, the text of
`new Date().toISOString()`, and the identifier the store generates for a new document. -/
structure Env where
  now : Nat
  iso : String
  newId : String
deriving DecidableEq, Repr

/-- The validators of a path applied to a value being written: `required` (an empty text
fails it on a String path), `enum`, `min` and `max`.  Values are taken as sent; the casting
of a value to the type of its path is not represented. -/
def SchemaPath.validates (p : SchemaPath) (v : Option Json) : Bool :=
  match v with
  | none => !p.required
  | some .null => !p.required
  | some (.str s) =>
    !(p.required && p.kind == .string && s == "") && (p.enum.isEmpty || p.enum.contains s)
  | some (.num n) =>
    (match p.min with | some lo => decide (lo ≤ n) | none => true)
      && (match p.max with | some hi => decide (n ≤ hi) | none => true)
  | some (.bool _) => true

/-- Strict mode: only the properties that are paths of the schema are kept. -/
def Schema.strict (schema : Schema) (body : Doc) : Doc :=
  body.filter (fun kv => schema.paths.any (fun p => p.name == kv.1))

/-- The value a new document gets for a path: the value sent, else the default. -/
def SchemaPath.initial (p : SchemaPath) (body : Doc) (env : Env) : Option Json :=
  match body.get p.name with
  | some v => some v
  | none => if p.defaultNow then some (.str env.iso) else p.default

/-- The paths of `new Model(body)`, in schema order. -/
def Schema.build (schema : Schema) (body : Doc) (env : Env) : Doc :=
  schema.paths.filterMap (fun p => (p.initial body env).map (fun v => (p.name, v)))

/-- The unique indexes: some other stored document has the value that `doc` writes on a
unique path. -/
def Schema.clashes (schema : Schema) (others : List Doc) (doc : Doc) : Bool :=
  schema.paths.any (fun p => p.unique &&
    match doc.get p.name with
    | some v => others.any (fun d => d.get p.name == some v)
    | none => false)

/-- Modelled from the spec: the Record Store's insert, `new Model(body)` followed by
`save()`.  The validators run first (a ValidationError), then the unique indexes are
checked by the store (error 11000); the stored document gets a generated `_id` and, with
`timestamps`, `createdAt` and `updatedAt`. -/
def dbSave (schema : Schema) (docs : List Doc) (body : Doc) (env : Env) :
    Except DbError (Doc × List Doc) :=
  let doc := schema.build body env
  if !(schema.paths.all (fun p => p.validates (doc.get p.name))) then .error .validation
  else if schema.clashes docs doc then .error .duplicateKey
  else
    let stamps : Doc :=
      if schema.timestamps then [("createdAt", .str env.iso), ("updatedAt", .str env.iso)]
      else []
    let stored : Doc := ("_id", .str env.newId) :: doc ++ stamps
    .ok (stored, docs ++ [stored])

/-- Replace the first document with the given `_id`. -/
def replaceById (id : String) (doc : Doc) : List Doc → List Doc
  | [] => []
  | d :: ds => if d.get "_id" = some (.str id) then doc :: ds else d :: replaceById id doc ds

/-- Remove the first document with the given `_id`. -/
def removeById (id : String) : List Doc → List Doc
  | [] => []
  | d :: ds => if d.get "_id" = some (.str id) then ds else d :: removeById id ds

/-- Modelled from the spec: the Record Store's update-by-id,
`Model.findByIdAndUpdate(id, updates, { new: true, runValidators })`: a partial-field merge
that returns the updated document, or `null` (`none`) when no document has this id.  With
`runValidators` the validators of the paths being set run first. -/
def dbFindByIdAndUpdate (fmt : IdFormat) (schema : Schema) (runValidators : Bool)
    (docs : List Doc) (id : String) (updates : Doc) (env : Env) :
    Except DbError (Option Doc × List Doc) :=
  if !fmt.casts id then .error .cast
  else
    let set := schema.strict updates
    if runValidators && !(schema.paths.all
        (fun p => match set.get p.name with
          | some v => p.validates (some v)
          | none => true)) then .error .validation
    else
      match docs.find? (fun d => d.get "_id" == some (.str id)) with
      | none => .ok (none, docs)
      | some d =>
        let stamps : Doc := if schema.timestamps then [("updatedAt", .str env.iso)] else []
        let updated := Doc.spread d (set ++ stamps)
        if schema.clashes (removeById id docs) set then .error .duplicateKey
        else .ok (some updated, replaceById id updated docs)

/-- Modelled from the spec: the Record Store's delete-by-id, `Model.findByIdAndDelete(id)`:
returns the removed document, or `null` (`none`) when no document has this id. -/
def dbFindByIdAndDelete (fmt : IdFormat) (docs : List Doc) (id : String) :
    Except DbError (Option Doc × List Doc) :=
  if !fmt.casts id then .error .cast
  else
    match docs.find? (fun d => d.get "_id" == some (.str id)) with
    | none => .ok (none, docs)
    | some d => .ok (some d, removeById id docs)

/-- Lexicographic order on texts, by character code. -/
def lexLt : List Char → List Char → Bool
  | _, [] => false
  | [], _ :: _ => true
  | a :: as, b :: bs => decide (a.toNat < b.toNat) || (a == b && lexLt as bs)

/-- Order of two sort keys: a missing or `null` key is lowest, then numbers, then texts,
then booleans. -/
def keyLt (a b : Option Json) : Bool :=
  match a, b with
  | some (.num x), some (.num y) => decide (x < y)
  | some (.str x), some (.str y) => lexLt x.toList y.toList
  | some (.bool x), some (.bool y) => !x && y
  | some (.bool _), _ => false
  | _, some (.bool _) => true
  | some (.str _), _ => false
  | _, some (.str _) => true
  | some (.num _), _ => false
  | _, some (.num _) => true
  | _, _ => false

/-- Insert a document into a list sorted by decreasing `key`, before the first document
that does not exceed it. -/
def insertDesc (key : String) (d : Doc) : List Doc → List Doc
  | [] => [d]
  | x :: xs =>
    if keyLt (d.get key) (x.get key) then x :: insertDesc key d xs else d :: x :: xs

/-- Modelled from the spec: the Record Store's find-all, `Model.find()` followed, when a
key is given, by `.sort({ key: -1 })` (newest first). -/
def dbFind (docs : List Doc) (sortKey : Option String) : List Doc :=
  match sortKey with
  | none => docs
  | some key => docs.foldr (insertDesc key) []

/-! ## Route handlers (src/server.js, src/api/index.js) -/

/-- A JSON response: the HTTP status and the properties of the body that the handlers
set (`none`: the body has no such property). -/
structure Reply where
  status : Nat
  success : Bool
  data : Option Payload := none
  error : Option String := none
  message : Option String := none
deriving DecidableEq, Repr

/-- What the server sends back: a JSON body, or something else (a page of the framework or
`index.html`) with only its status of interest. -/
inductive Answer where
  | json (reply : Reply)
  | other (status : Nat)
deriving DecidableEq, Repr

/-- A request to `/api/<endpoint>` or, with an id, to `/api/<endpoint>/<id>`. -/
structure Request where
  method : HttpMethod
  endpoint : String
  id : Option String
  body : Doc
deriving DecidableEq, Repr

/-- The server: the route module it runs, whether its store answers, and the collections
by name. -/
structure Server where
  module : RouteModule
  dbUp : Bool
  db : Store
deriving DecidableEq, Repr

/-- The four kinds of CRUD route. -/
inductive Op where
  | list
  | create
  | update
  | delete
deriving DecidableEq, Repr

/-- The routes each module registers: `app.get('/api/E')`, `app.post('/api/E')`,
`app.put('/api/E/:id')`, `app.delete('/api/E/:id')`. -/
def hasRoute (m : RouteModule) (endpoint : String) (op : Op) : Bool :=
  match m, op with
  | .server, .list =>
    ["users", "feedback", "leaves", "students", "reports", "announcements"].contains endpoint
  | .server, .create =>
    ["users", "feedback", "leaves", "students", "reports", "announcements"].contains endpoint
  | .server, .update =>
    ["users", "feedback", "leaves", "students", "reports"].contains endpoint
  | .server, .delete =>
    ["users", "feedback", "leaves", "students", "reports"].contains endpoint
  | .apiIndex, .list =>
    ["users", "feedback", "leaves", "students", "reports", "room-allocations", "attendance",
      "visitors", "payments"].contains endpoint
  | .apiIndex, .create =>
    ["users", "feedback", "leaves", "students", "reports", "room-allocations", "attendance",
      "visitors", "payments"].contains endpoint
  | .apiIndex, .update =>
    ["users", "feedback", "leaves", "students", "reports", "room-allocations",
      "visitors"].contains endpoint
  | .apiIndex, .delete => endpoint = "students"

/-- The kind of route a request path and method can match. -/
def Request.op (req : Request) : Option Op :=
  match req.method, req.id with
  | .GET, none => some .list
  | .POST, none => some .create
  | .PUT, some _ => some .update
  | .DELETE, some _ => some .delete
  | _, _ => none

/-- The key of `.sort({ key: -1 })` in each list route. -/
def sortKeyOf (m : RouteModule) (endpoint : String) : Option String :=
  match m with
  | .server =>
    if endpoint = "users" ∨ endpoint = "announcements" then some "createdAt" else some "date"
  | .apiIndex => if endpoint = "users" then none else some "createdAt"

/-- The name used in the messages of src/server.js (`'Leave not found'`). -/
def entityName (endpoint : String) : String :=
  if endpoint = "users" then "User"
  else if endpoint = "feedback" then "Feedback"
  else if endpoint = "leaves" then "Leave"
  else if endpoint = "students" then "Student"
  else if endpoint = "reports" then "Report"
  else endpoint

/-- The reply of a `catch` block: `res.status(status).json({ success: false, error })`. -/
def failure (status : Nat) (error : String) : Reply :=
  { status := status, success := false, error := some error }

/-- The list routes: `find().sort(...)`, status 200; `catch`: 500. -/
def listHandler (srv : Server) (endpoint : String) : Reply :=
  if !srv.dbUp then failure 500 DbError.unavailable.message
  else
    let docs := dbFind ((srv.db.getItem endpoint).getD []) (sortKeyOf srv.module endpoint)
    { status := 200, success := true, data := some (.docs docs) }

/-- The create routes: `new Model(req.body)`, `save()`.  In src/server.js the status is
201, the `catch` answers 400 for `error.code === 11000` on users and students and 500
otherwise; in src/api/index.js the status is 200 and the `catch` answers 400. -/
def createHandler (srv : Server) (schema : Schema) (endpoint : String) (body : Doc) (env : Env) :
    Reply × Server :=
  let result : Except DbError (Doc × List Doc) :=
    if !srv.dbUp then .error .unavailable
    else dbSave schema ((srv.db.getItem endpoint).getD []) body env
  match result with
  | .ok (doc, docs) =>
    ({ status := if srv.module = .server then 201 else 200, success := true,
       data := some (.doc doc) },
     { srv with db := srv.db.setItem endpoint docs })
  | .error error =>
    match srv.module with
    | .server =>
      if (endpoint = "users" ∨ endpoint = "students") ∧ error.code = some 11000 then
        (failure 400 (if endpoint = "users" then "User with this email already exists"
          else "Student with this roll number or email already exists"), srv)
      else (failure 500 error.message, srv)
    | .apiIndex => (failure 400 error.message, srv)

/-- The additions src/server.js makes to the updates of a leave (`approvedBy`,
`approvedAt`) or of a report (`resolvedBy`, `resolvedAt`). -/
def stampUpdates (endpoint : String) (updates : Doc) (env : Env) : Doc :=
  if endpoint = "leaves" ∧ (updates.get "status" = some (.str "approved")
      ∨ updates.get "status" = some (.str "rejected")) then
    Doc.spread updates [("approvedBy", .str "Admin"), ("approvedAt", .str env.iso)]
  else if endpoint = "reports" ∧ updates.get "status" = some (.str "resolved") then
    Doc.spread updates [("resolvedBy", .str "Admin"), ("resolvedAt", .str env.iso)]
  else updates

/-- The update routes.  src/server.js: for leaves the id is checked first (400), the
updates are stamped, `findByIdAndUpdate` runs with `runValidators`, `null` gives 404, the
`catch` answers 400 for a CastError on leaves and 500 otherwise.  src/api/index.js:
`findByIdAndUpdate` without validators, the result sent as `data` whatever it is, the
`catch` answers 400. -/
def updateHandler (fmt : IdFormat) (srv : Server) (schema : Schema) (endpoint : String)
    (id : String) (body : Doc) (env : Env) : Reply × Server :=
  match srv.module with
  | .server =>
    if endpoint = "leaves" ∧ !fmt.isValid id then (failure 400 "Invalid leave ID format", srv)
    else
      let updates := stampUpdates endpoint body env
      let result : Except DbError (Option Doc × List Doc) :=
        if !srv.dbUp then .error .unavailable
        else dbFindByIdAndUpdate fmt schema true ((srv.db.getItem endpoint).getD []) id updates env
      match result with
      | .ok (none, _) => (failure 404 (entityName endpoint ++ " not found"), srv)
      | .ok (some doc, docs) =>
        ({ status := 200, success := true, data := some (.doc doc) },
         { srv with db := srv.db.setItem endpoint docs })
      | .error error =>
        if endpoint = "leaves" ∧ error.name = "CastError" then
          (failure 400 "Invalid leave ID format", srv)
        else (failure 500 error.message, srv)
  | .apiIndex =>
    let result : Except DbError (Option Doc × List Doc) :=
      if !srv.dbUp then .error .unavailable
      else dbFindByIdAndUpdate fmt schema false ((srv.db.getItem endpoint).getD []) id body env
    match result with
    | .ok (none, _) => ({ status := 200, success := true, data := some .null }, srv)
    | .ok (some doc, docs) =>
      ({ status := 200, success := true, data := some (.doc doc) },
       { srv with db := srv.db.setItem endpoint docs })
    | .error error => (failure 400 error.message, srv)

/-- The delete routes.  src/server.js: `findByIdAndDelete`, `null` gives 404, success
carries a `message` and no `data`, the `catch` answers 500.  src/api/index.js (students):
success carries `data: { deletedCount: 1 }` whatever was found, the `catch` answers 400. -/
def deleteHandler (fmt : IdFormat) (srv : Server) (endpoint : String) (id : String) :
    Reply × Server :=
  let result : Except DbError (Option Doc × List Doc) :=
    if !srv.dbUp then .error .unavailable
    else dbFindByIdAndDelete fmt ((srv.db.getItem endpoint).getD []) id
  match srv.module with
  | .server =>
    match result with
    | .ok (none, _) => (failure 404 (entityName endpoint ++ " not found"), srv)
    | .ok (some _, docs) =>
      ({ status := 200, success := true,
         message := some (entityName endpoint ++ " deleted successfully") },
       { srv with db := srv.db.setItem endpoint docs })
    | .error error => (failure 500 error.message, srv)
  | .apiIndex =>
    match result with
    | .ok (_, docs) =>
      ({ status := 200, success := true, data := some (.doc [("deletedCount", .num 1)]) },
       { srv with db := srv.db.setItem endpoint docs })
    | .error error => (failure 400 error.message, srv)

/-- The server as a whole on the CRUD paths: the matching route handler, or, when no
route matches, the 404 handler of src/server.js (`'Endpoint not found'`) and in
src/api/index.js `index.html` for a GET and the framework's 404 page otherwise. -/
def serve (fmt : IdFormat) (srv : Server) (req : Request) (env : Env) : Answer × Server :=
  match req.op, schemaOf srv.module req.endpoint with
  | some op, some schema =>
    if hasRoute srv.module req.endpoint op then
      match op with
      | .list => (.json (listHandler srv req.endpoint), srv)
      | .create =>
        let r := createHandler srv schema req.endpoint req.body env
        (.json r.1, r.2)
      | .update =>
        let r := updateHandler fmt srv schema req.endpoint (req.id.getD "") req.body env
        (.json r.1, r.2)
      | .delete =>
        let r := deleteHandler fmt srv req.endpoint (req.id.getD "")
        (.json r.1, r.2)
    else
      match srv.module with
      | .server => (.json (failure 404 "Endpoint not found"), srv)
      | .apiIndex => (.other (if req.method = .GET then 200 else 404), srv)
  | _, _ =>
    match srv.module with
    | .server => (.json (failure 404 "Endpoint not found"), srv)
    | .apiIndex => (.other (if req.method = .GET then 200 else 404), srv)

/-- Modelled from the spec: the store's `$avg` of a field over a collection, the binary64
quotient of the sum of the numeric values by their count; `none` is `null` (no numeric
value). -/
def dbAvg (docs : List Doc) (field : String) : Option JsNum :=
  let values := docs.filterMap
    (fun d => match d.get field with
      | some (.num n) => some n
      | _ => none)
  if values.isEmpty then none else some (roundDouble values.sum values.length)

/-- Source: `app.get('/api/stats')` of src/server.js: the counts, and
`((avgFoodRating + avgMenuRating) / 2).toFixed(1)` where a `null` average counts as 0 and
both averages are 0 when there is no feedback. -/
def statsHandler (srv : Server) : Reply :=
  if !srv.dbUp then failure 500 DbError.unavailable.message
  else
    let students := (srv.db.getItem "students").getD []
    let feedback := (srv.db.getItem "feedback").getD []
    let leaves := (srv.db.getItem "leaves").getD []
    let reports := (srv.db.getItem "reports").getD []
    let totalStudents := students.length
    let totalFeedback := feedback.length
    let totalLeaves := leaves.length
    let pendingLeaves := (leaves.filter (fun d => d.get "status" == some (.str "pending"))).length
    let totalReports := reports.length
    let pendingReports := (reports.filter (fun d => d.get "status" == some (.str "pending"))).length
    let avgFoodRating : JsNum :=
      if feedback.length > 0 then (dbAvg feedback "foodRating").getD ⟨0, 1⟩ else ⟨0, 1⟩
    let avgMenuRating : JsNum :=
      if feedback.length > 0 then (dbAvg feedback "menuRating").getD ⟨0, 1⟩ else ⟨0, 1⟩
    let sum := jsAdd avgFoodRating avgMenuRating
    let overallRating := toFixed1 (roundDouble sum.num (sum.den * 2))
    { status := 200, success := true,
      data := some (.doc [
        ("totalStudents", .num totalStudents),
        ("totalFeedback", .num totalFeedback),
        ("totalLeaves", .num totalLeaves),
        ("pendingLeaves", .num pendingLeaves),
        ("totalReports", .num totalReports),
        ("pendingReports", .num pendingReports),
        ("overallRating", .str overallRating)]) }

/-! ## The client service (src/app.js `MongoDBService`) and the admin functions -/

/-- What the browser reaches: the server (`none` when `fetch` rejects) and `localStorage`. -/
structure World where
  server : Option Server
  localStorage : Store
deriving DecidableEq, Repr

/-- Source: `MongoDBService.makeAPIRequest(endpoint, method, data)`: the request goes to
`API_URL/endpoint`; a rejected `fetch`, a status outside 200-299 or a body that is not
JSON makes it fall back to `localStorageFallback`. -/
def makeAPIRequest (fmt : IdFormat) (w : World) (endpoint : String) (method : HttpMethod)
    (data : Doc) (env : Env) : ApiResult × World :=
  match w.server with
  | none =>
    let r := localStorageFallback w.localStorage endpoint method data env.now
    (r.1, { w with localStorage := r.2 })
  | some srv =>
    let a := serve fmt srv { method := method, endpoint := endpoint, id := none, body := data } env
    match a.1 with
    | .json reply =>
      if 200 ≤ reply.status ∧ reply.status ≤ 299 then
        ({ success := reply.success, data := reply.data }, { w with server := some a.2 })
      else
        let r := localStorageFallback w.localStorage endpoint method data env.now
        (r.1, { server := some a.2, localStorage := r.2 })
    | .other _ =>
      let r := localStorageFallback w.localStorage endpoint method data env.now
      (r.1, { server := some a.2, localStorage := r.2 })

/-- Source: `result.data || []` in the `get...` methods (a GET never answers a single
document). -/
def dataOrEmpty (data : Option Payload) : List Doc :=
  match data with
  | some (.docs items) => items
  | _ => []

/-- The `update...` methods that `MongoDBService` defines, each with the endpoint it
passes to `makeAPIRequest`: `updateUser`, `updateFeedback`, `updateLeave`, `updateStudent`
and `updateReport`. -/
def updateMethods : List (String × String) :=
  [("updateUser", "users"), ("updateFeedback", "feedback"), ("updateLeave", "leaves"),
   ("updateStudent", "students"), ("updateReport", "reports")]

/-- The call `MongoDBService.<name>(id, updates)`: a TypeError when the class has no such
method, else `makeAPIRequest(endpoint, 'PUT', { _id: id, ...updates })` and its
`result.data`. -/
def callUpdate (fmt : IdFormat) (w : World) (name id : String) (updates : Doc) (env : Env) :
    Except String (Option Payload × World) :=
  match updateMethods.lookup name with
  | none => .error ("TypeError: MongoDBService." ++ name ++ " is not a function")
  | some endpoint =>
    let r := makeAPIRequest fmt w endpoint .PUT (Doc.spread [("_id", .str id)] updates) env
    .ok (r.1.data, r.2)

/-- The text of a property, `""` when it is not a text. -/
def textOf (v : Option Json) : String :=
  match v with
  | some (.str s) => s
  | _ => ""

/-- The Leave record that a stored document is read as. -/
def Leave.ofDoc (d : Doc) : Leave :=
  { _id := textOf (d.get "_id"), user := textOf (d.get "user"), email := textOf (d.get "email"),
    type := textOf (d.get "type"), fromDate := textOf (d.get "from"),
    toDate := textOf (d.get "to"), reason := textOf (d.get "reason"),
    status := textOf (d.get "status"), date := textOf (d.get "date") }

/-- The Report record that a stored document is read as. -/
def Report.ofDoc (d : Doc) : Report :=
  { _id := textOf (d.get "_id"), user := textOf (d.get "user"), email := textOf (d.get "email"),
    category := textOf (d.get "category"), location := textOf (d.get "location"),
    description := textOf (d.get "description"), urgency := textOf (d.get "urgency"),
    status := textOf (d.get "status"), date := textOf (d.get "date") }

/-- The Student record that a stored document is read as. -/
def Student.ofDoc (d : Doc) : Student :=
  { _id := textOf (d.get "_id"), name := textOf (d.get "name"), roll := textOf (d.get "roll"),
    email := textOf (d.get "email"), room := textOf (d.get "room"),
    department := textOf (d.get "department"), phone := textOf (d.get "phone") }

/-- The Feedback record that a stored document is read as.  In `sum + feedback.foodRating`
a missing rating is `undefined` and gives `NaN`, `null` counts as 0 and a boolean as 0 or
1.  (A text there would make `+` a concatenation; the stores hold none, both schemas
casting the property to Number and the form storing `parseInt`, and it is read as `nan`.) -/
def Feedback.ofDoc (d : Doc) : Feedback :=
  { _id := textOf (d.get "_id"), user := textOf (d.get "user"), email := textOf (d.get "email"),
    mealType := textOf (d.get "mealType"),
    foodRating := (match d.get "foodRating" with
      | some (.num n) => .num (JsNum.ofNat n)
      | some .null => .num (JsNum.ofNat 0)
      | some (.bool b) => .num (JsNum.ofNat (if b then 1 else 0))
      | some (.str _) => .nan
      | none => .nan),
    comments := textOf (d.get "comments"), date := textOf (d.get "date"),
    response := (match d.get "response" with
      | some (.str s) => some s
      | _ => none) }

/-- Visitor, as built by `handleVisitorRegistration`; `exitTime` is absent until the exit
is recorded. -/
structure Visitor where
  _id : String
  name : String
  phone : String
  purpose : String
  studentVisiting : String
  entryTime : String
  exitTime : Option String
  status : String
  expectedDuration : String
deriving DecidableEq, Repr

/-- The Visitor record that a stored document is read as. -/
def Visitor.ofDoc (d : Doc) : Visitor :=
  { _id := textOf (d.get "_id"), name := textOf (d.get "name"), phone := textOf (d.get "phone"),
    purpose := textOf (d.get "purpose"), studentVisiting := textOf (d.get "studentVisiting"),
    entryTime := textOf (d.get "entryTime"),
    exitTime := (match d.get "exitTime" with
      | some (.str s) => some s
      | _ => none),
    status := textOf (d.get "status"), expectedDuration := textOf (d.get "expectedDuration") }

/-- How an async function ends: the state it leaves, and the error it rejects with, if
any. -/
structure Run (σ : Type) where
  state : σ
  thrown : Option String
deriving Repr

/-- Source: `updateLeaveStatus(leaveId, status)`.  The assignment to
`leaveData[leaveIndex].status` is replaced by the reload that follows; `renderLeaves` and
`showNotification` only draw.  The result is `none` when `updateStats` reaches a division
by zero. -/
def updateLeaveStatus (fmt : IdFormat) (w : World) (s : AppState) (leaveId status : String)
    (env : Env) (today : String) : Option (Run (World × AppState)) :=
  match s.leaveData.findIdx? (fun leave => leave._id == leaveId) with
  | none => some { state := (w, s), thrown := none }
  | some leaveIndex =>
    let changed := List.modify (fun leave => { leave with status := status }) leaveIndex
      s.leaveData
    let marked := { s with leaveData := changed }
    match callUpdate fmt w "updateLeave" leaveId [("status", .str status)] env with
    | .error e => some { state := (w, marked), thrown := some e }
    | .ok (_, w1) =>
      let r := makeAPIRequest fmt w1 "leaves" .GET [] env
      let loaded := { marked with leaveData := (dataOrEmpty r.1.data).map Leave.ofDoc }
      (updateStats loaded today).map (fun shown => { state := (r.2, shown), thrown := none })

/-- Source: `updateReportStatus(reportId, status)`, built like `updateLeaveStatus`. -/
def updateReportStatus (fmt : IdFormat) (w : World) (s : AppState) (reportId status : String)
    (env : Env) (today : String) : Option (Run (World × AppState)) :=
  match s.reportData.findIdx? (fun report => report._id == reportId) with
  | none => some { state := (w, s), thrown := none }
  | some reportIndex =>
    let changed := List.modify (fun report => { report with status := status }) reportIndex
      s.reportData
    let marked := { s with reportData := changed }
    match callUpdate fmt w "updateReport" reportId [("status", .str status)] env with
    | .error e => some { state := (w, marked), thrown := some e }
    | .ok (_, w1) =>
      let r := makeAPIRequest fmt w1 "reports" .GET [] env
      let loaded := { marked with reportData := (dataOrEmpty r.1.data).map Report.ofDoc }
      (updateStats loaded today).map (fun shown => { state := (r.2, shown), thrown := none })

/-- Source: `markVisitorExit(visitorId)`: the record in `visitorData` is marked, then
`MongoDBService.updateVisitor` is called and `visitorData` reloaded
(`renderVisitorRecords` and `showNotification` only draw). -/
def markVisitorExit (fmt : IdFormat) (w : World) (visitorData : List Visitor)
    (visitorId : String) (env : Env) : Run (World × List Visitor) :=
  match visitorData.findIdx? (fun v => v._id == visitorId) with
  | none => { state := (w, visitorData), thrown := none }
  | some visitorIndex =>
    let marked := List.modify
      (fun v => { v with exitTime := some env.iso, status := "left" }) visitorIndex visitorData
    match callUpdate fmt w "updateVisitor" visitorId
        [("exitTime", .str env.iso), ("status", .str "left")] env with
    | .error e => { state := (w, marked), thrown := some e }
    | .ok (_, w1) =>
      let r := makeAPIRequest fmt w1 "visitors" .GET [] env
      { state := (r.2, (dataOrEmpty r.1.data).map Visitor.ofDoc), thrown := none }

/-- A button of an admin list: its label and the call in its `onclick`. -/
structure Action where
  label : String
  call : String
  id : String
  status : String
deriving DecidableEq, Repr

/-- The buttons `renderLeaves` puts in `leave-actions` for a leave. -/
def leaveActions (leave : Leave) : List Action :=
  if leave.status = "pending" then
    [{ label := "Approve", call := "updateLeaveStatus", id := leave._id, status := "approved" },
     { label := "Reject", call := "updateLeaveStatus", id := leave._id, status := "rejected" }]
  else []

/-- The buttons `renderReports` puts in `report-actions` for a report. -/
def reportActions (report : Report) : List Action :=
  if report.status = "pending" then
    [{ label := "Start Work", call := "updateReportStatus", id := report._id,
       status := "in-progress" }]
  else if report.status = "in-progress" then
    [{ label := "Mark Resolved", call := "updateReportStatus", id := report._id,
       status := "resolved" }]
  else []

/-- The button `renderVisitorRecords` puts in `student-actions` for a visitor; `status` is
the status its call records. -/
def visitorActions (visitor : Visitor) : List Action :=
  if visitor.status = "visiting" then
    [{ label := "Mark Exit", call := "markVisitorExit", id := visitor._id, status := "left" }]
  else []

/-! ## Sample requests -/

/-- An identifier format for the examples: 24 hexadecimal digits. -/
def hex24 (s : String) : Bool :=
  s.length == 24 &&
    s.toList.all (fun c => c.isDigit || ('a' ≤ c && c ≤ 'f') || ('A' ≤ c && c ≤ 'F'))

/-- The example format, for validity and for casting alike. -/
def sampleFormat : IdFormat := { isValid := hex24, casts := hex24 }

/-- The outside values of the examples. -/
def sampleEnv : Env :=
  { now := 1705312800000, iso := "2024-01-15T10:00:00.000Z",
    newId := "65a4f0c2e1b2c3d4e5f60001" }

/-- A stored leave with the given id and status. -/
def sampleLeaveDoc (id status : String) : Doc :=
  [("_id", .str id), ("user", .str "Arun"), ("email", .str "arun@drngpit.ac.in"),
   ("type", .str "Home"), ("from", .str "2024-01-20"), ("to", .str "2024-01-22"),
   ("reason", .str "Festival"), ("status", .str status),
   ("date", .str "2024-01-15T08:00:00.000Z")]

/-- A stored report with the given id and status. -/
def sampleReportDoc (id status : String) : Doc :=
  [("_id", .str id), ("user", .str "Arun"), ("email", .str "arun@drngpit.ac.in"),
   ("category", .str "Electrical"), ("location", .str "Room 101"),
   ("description", .str "Fan not working"), ("urgency", .str "medium"),
   ("status", .str status), ("date", .str "2024-01-15T10:00:00.000Z")]

/-- A stored student with the given id and roll. -/
def sampleStudentDoc (id roll : String) : Doc :=
  [("_id", .str id), ("name", .str "Nila"), ("roll", .str roll),
   ("email", .str (roll ++ "@drngpit.ac.in")), ("room", .str "204"),
   ("department", .str "ECE"), ("phone", .str ""), ("date", .str "2024-01-03T09:00:00.000Z")]

/-- The feedback the front end sends: `handleFeedbackSubmit` builds no `menuRating`. -/
def sampleFeedbackBody : Doc :=
  [("user", .str "Arun"), ("email", .str "arun@drngpit.ac.in"), ("mealType", .str "lunch"),
   ("foodRating", .num 4), ("comments", .str "Good"),
   ("date", .str "2024-01-15T12:30:00.000Z"), ("response", .null)]

/-- A server running the given module, with one leave, one report and one student. -/
def sampleServer (m : RouteModule) (leaveStatus reportStatus : String) : Server :=
  { module := m, dbUp := true,
    db := [("leaves", [sampleLeaveDoc "65a4f0c2e1b2c3d4e5f6a001" leaveStatus]),
           ("reports", [sampleReportDoc "65a4f0c2e1b2c3d4e5f6b001" reportStatus]),
           ("students", [sampleStudentDoc "65a4f0c2e1b2c3d4e5f6c001" "R3"])] }

/-- The browser in front of a reachable src/server.js, nothing in `localStorage`. -/
def sampleWorldOnline : World :=
  { server := some (sampleServer .server "pending" "pending"), localStorage := [] }

/-- The front-end state after loading the leaves of `sampleWorldOnline`. -/
def sampleStateOnline : AppState :=
  { sampleState with
    leaveData := [Leave.ofDoc (sampleLeaveDoc "65a4f0c2e1b2c3d4e5f6a001" "pending")] }

/-- A visitor still on the premises. -/
def sampleVisitor : Visitor :=
  { _id := "1705312800042", name := "Ravi", phone := "9000000000", purpose := "Family visit",
    studentVisiting := "Student 3", entryTime := "2024-01-15T09:00:00.000Z",
    exitTime := none, status := "visiting", expectedDuration := "60" }

/-- The browser with no reachable server, the visitor kept in `localStorage`. -/
def sampleWorldOffline : World :=
  { server := none,
    localStorage := [("db_visitors",
      [[("name", .str "Ravi"), ("phone", .str "9000000000"), ("purpose", .str "Family visit"),
        ("studentVisiting", .str "Student 3"), ("entryTime", .str "2024-01-15T09:00:00.000Z"),
        ("status", .str "visiting"), ("expectedDuration", .str "60"),
        ("_id", .str "1705312800042")]])] }

/-- A stored visitor of src/api/index.js with the given id, status and `exitTime`. -/
def sampleVisitorDoc (id status : String) (exitTime : Json) : Doc :=
  [("_id", .str id), ("name", .str "Ravi"), ("phone", .str "9000000000"),
   ("purpose", .str "Family visit"), ("studentVisiting", .str "Student 3"),
   ("entryTime", .str "2024-01-15T09:00:00.000Z"), ("exitTime", exitTime),
   ("status", .str status), ("expectedDuration", .num 60),
   ("createdAt", .str "2024-01-15T09:00:00.000Z"),
   ("updatedAt", .str "2024-01-15T09:30:00.000Z")]

/-- A server running src/api/index.js with one visitor. -/
def sampleVisitorServer (status : String) (exitTime : Json) : Server :=
  { module := .apiIndex, dbUp := true,
    db := [("visitors", [sampleVisitorDoc "65a4f0c2e1b2c3d4e5f6d001" status exitTime])] }

/-- The request `PUT /api/visitors/<id>` with the body `{ exitTime, status }`. -/
def exitUpdate (id : String) (exitTime : Json) (status : String) : Request :=
  { method := .PUT, endpoint := "visitors", id := some id,
    body := [("exitTime", exitTime), ("status", .str status)] }

/-- The request `DELETE /api/students/65a4f0c2e1b2c3d4e5f6c001`. -/
def sampleDeleteStudent : Request :=
  { method := .DELETE, endpoint := "students", id := some "65a4f0c2e1b2c3d4e5f6c001",
    body := [] }

/-- The request `PUT /api/<endpoint>/<id>` with the body `{ status }`. -/
def statusUpdate (endpoint id status : String) : Request :=
  { method := .PUT, endpoint := endpoint, id := some id, body := [("status", .str status)] }

/-- A server (src/server.js) holding the sample snapshot's students and leaves, two
feedback documents and one report. -/
def sampleStatsServer : Server :=
  { module := .server, dbUp := true,
    db := [("students", (List.range 40).map
              (fun i => sampleStudentDoc ("65a4f0c2e1b2c3d4e5f6c0" ++ toString (10 + i))
                ("R" ++ toString i))),
           ("feedback", [[("_id", .str "65a4f0c2e1b2c3d4e5f6d001"), ("foodRating", .num 5),
                          ("menuRating", .num 4)],
                         [("_id", .str "65a4f0c2e1b2c3d4e5f6d002"), ("foodRating", .num 3),
                          ("menuRating", .num 4)]]),
           ("leaves", [sampleLeaveDoc "65a4f0c2e1b2c3d4e5f6a001" "pending",
                       sampleLeaveDoc "65a4f0c2e1b2c3d4e5f6a002" "approved",
                       sampleLeaveDoc "65a4f0c2e1b2c3d4e5f6a003" "pending"]),
           ("reports", [sampleReportDoc "65a4f0c2e1b2c3d4e5f6b001" "pending"])] }

/-- The front-end state after loading the four collections of `sampleStatsServer`. -/
def sampleStatsState : AppState :=
  { sampleState with
    studentData := ((sampleStatsServer.db.getItem "students").getD []).map Student.ofDoc
    feedbackData := ((sampleStatsServer.db.getItem "feedback").getD []).map Feedback.ofDoc
    leaveData := ((sampleStatsServer.db.getItem "leaves").getD []).map Leave.ofDoc
    reportData := ((sampleStatsServer.db.getItem "reports").getD []).map Report.ofDoc }

/-- The browser with no reachable server, one pending leave kept in `localStorage`. -/
def sampleWorldLocal : World :=
  { server := none,
    localStorage := [("db_leaves", [sampleLeaveDoc "1705312800001" "pending"])] }

/-- The front-end state after loading the leaves of `sampleWorldLocal`. -/
def sampleStateLocal : AppState :=
  { sampleState with leaveData := [Leave.ofDoc (sampleLeaveDoc "1705312800001" "pending")] }

/-! ## Sequences of creates, deletion and vacating (src/app.js) -/

/-- A sequence of creates under one key: `localStorageFallback(endpoint, 'POST', data)` for
each record in turn, each with the reading of `Date.now()` at its call. -/
def createAll (ls : Store) (endpoint : String) : List (Doc × Nat) → Store
  | [] => ls
  | (data, now) :: rest =>
    createAll (localStorageFallback ls endpoint .POST data now).2 endpoint rest

/-- The update `{ _id, status: "approved" }` of the stored sample leave. -/
def sampleApprove : Doc := [("_id", .str "1705312800001"), ("status", .str "approved")]

/-- Two students entered in the same millisecond. -/
def sampleSameMillisecond : List (Doc × Nat) :=
  [([("name", .str "Nila"), ("roll", .str "R41")], 1705312800000),
   ([("name", .str "Mugil"), ("roll", .str "R42")], 1705312800000)]

/-- Two students entered one millisecond apart, the first with an `_id` of its own. -/
def sampleTwoCreates : List (Doc × Nat) :=
  [([("_id", .str "mine"), ("name", .str "Nila"), ("roll", .str "R41")], 1705312800500),
   ([("name", .str "Mugil"), ("roll", .str "R42")], 1705312800501)]

/-- The number that a list of decimal digit characters writes. -/
def digitsValue (cs : List Char) : Nat :=
  cs.foldl (fun acc c => 10 * acc + (c.toNat - 48)) 0

/-- The RoomAllocation record that a stored document is read as. -/
def RoomAllocation.ofDoc (d : Doc) : RoomAllocation :=
  { _id := textOf (d.get "_id"), studentId := textOf (d.get "studentId"),
    studentName := textOf (d.get "studentName"), roomNumber := textOf (d.get "roomNumber"),
    hostelName := textOf (d.get "hostelName"),
    allocationDate := textOf (d.get "allocationDate"), status := textOf (d.get "status") }

/-- Source: `deleteStudent(studentId)`; `confirmed` is the answer to `confirm(...)`.
`MongoDBService.deleteStudent` is `makeAPIRequest('students', 'DELETE', { _id })`, then
`studentData` is reloaded (`renderStudents` and `showNotification` only draw).  The result
is `none` when `updateStats` reaches a division by zero. -/
def deleteStudent (fmt : IdFormat) (w : World) (s : AppState) (studentId : String)
    (confirmed : Bool) (env : Env) (today : String) : Option (World × AppState) :=
  if confirmed then
    let r1 := makeAPIRequest fmt w "students" .DELETE [("_id", .str studentId)] env
    let r2 := makeAPIRequest fmt r1.2 "students" .GET [] env
    let loaded := { s with studentData := (dataOrEmpty r2.1.data).map Student.ofDoc }
    (updateStats loaded today).map (fun shown => (r2.2, shown))
  else some (w, s)

/-- Source: `vacateRoom(allocationId)`; `confirmed` is the answer to `confirm(...)`.  The
record in `roomAllocations` is marked, then `MongoDBService.updateRoomAllocation` is called
and `roomAllocations` reloaded (`renderRoomAllocations`, `renderRoomAvailability` and
`showNotification` only draw).  The result is `none` when `updateStats` reaches a division
by zero. -/
def vacateRoom (fmt : IdFormat) (w : World) (s : AppState) (allocationId : String)
    (confirmed : Bool) (env : Env) (today : String) : Option (Run (World × AppState)) :=
  if confirmed then
    match s.roomAllocations.findIdx? (fun a => a._id == allocationId) with
    | none => some { state := (w, s), thrown := none }
    | some allocationIndex =>
      let changed := List.modify (fun a => { a with status := "vacated" }) allocationIndex
        s.roomAllocations
      let marked := { s with roomAllocations := changed }
      match callUpdate fmt w "updateRoomAllocation" allocationId [("status", .str "vacated")]
          env with
      | .error e => some { state := (w, marked), thrown := some e }
      | .ok (_, w1) =>
        let r := makeAPIRequest fmt w1 "room-allocations" .GET [] env
        let loaded :=
          { marked with roomAllocations := (dataOrEmpty r.1.data).map RoomAllocation.ofDoc }
        (updateStats loaded today).map (fun shown => { state := (r.2, shown), thrown := none })
  else some { state := (w, s), thrown := none }

/-- The front-end state after loading the students of `sampleWorldOnline`. -/
def sampleStateStudents : AppState :=
  { sampleState with
    studentData := [Student.ofDoc (sampleStudentDoc "65a4f0c2e1b2c3d4e5f6c001" "R3")] }

/-- The browser in front of a reachable src/api/index.js, nothing in `localStorage`. -/
def sampleWorldApi : World :=
  { server := some (sampleServer .apiIndex "pending" "pending"), localStorage := [] }

/-- The browser with no reachable server, two students kept in `localStorage`. -/
def sampleWorldStudents : World :=
  { server := none,
    localStorage := [("db_students", [sampleStudentDoc "1705312800011" "R3",
      sampleStudentDoc "1705312800012" "R4"])] }

/-- The front-end state after loading the students of `sampleWorldStudents`. -/
def sampleStateTwoStudents : AppState :=
  { sampleState with
    studentData := [Student.ofDoc (sampleStudentDoc "1705312800011" "R3"),
      Student.ofDoc (sampleStudentDoc "1705312800012" "R4")] }

/-- A stored allocation of room 101, occupied. -/
def sampleRoomDoc : Doc :=
  [("studentId", .str "1705312800011"), ("studentName", .str "Nila"),
   ("roomNumber", .str "101"), ("hostelName", .str "Marutham Hostel"),
   ("allocationDate", .str "2024-01-02"), ("status", .str "occupied"),
   ("_id", .str "1705312800077")]

/-- The browser with no reachable server, the allocation kept in `localStorage`. -/
def sampleWorldRooms : World :=
  { server := none, localStorage := [("db_room-allocations", [sampleRoomDoc])] }

/-- The front-end state after loading the allocation of `sampleWorldRooms`. -/
def sampleStateRooms : AppState :=
  { sampleState with roomAllocations := [RoomAllocation.ofDoc sampleRoomDoc] }

/-- The request that `MongoDBService.deleteStudent` sends: `DELETE /api/students`, the id
in the body. -/
def sampleClientDelete : Request :=
  { method := .DELETE, endpoint := "students", id := none,
    body := [("_id", .str "65a4f0c2e1b2c3d4e5f6c001")] }

/-! ## Update requests -/

/-- The updates that the route `PUT /api/<endpoint>/:id` hands to `findByIdAndUpdate`: the
body, in src/server.js with its stamps added. -/
def routeUpdates (m : RouteModule) (endpoint : String) (body : Doc) (env : Env) : Doc :=
  match m with
  | .server => stampUpdates endpoint body env
  | .apiIndex => body

/-- The request `PUT /api/<endpoint>/<id>` with the given body. -/
def putRequest (endpoint id : String) (body : Doc) : Request :=
  { method := .PUT, endpoint := endpoint, id := some id, body := body }

/-- A change of room and phone, with a property that the student schema does not have. -/
def sampleStudentUpdate : Doc :=
  [("room", .str "105"), ("phone", .str "9000000001"), ("nickname", .str "N")]

/-- The update `{ _id: "nope", status: "approved" }`, whose `_id` no stored leave has. -/
def sampleApproveNobody : Doc := [("_id", .str "nope"), ("status", .str "approved")]

/-! ## Rounding modes -/

/-- Round half up, the rule of `Math.round`: a tie goes to the larger integer. -/
def halfUp (x : ℚ) : ℤ := ⌊x + 1 / 2⌋

/-- Round half away from zero: a tie goes to the integer of larger magnitude. -/
def halfAwayFromZero (x : ℚ) : ℤ := if 0 ≤ x then ⌊x + 1 / 2⌋ else ⌈x - 1 / 2⌉

/-- Round half to even (banker's rounding): a tie goes to the even neighbour. -/
def halfToEven (x : ℚ) : ℤ :=
  if Int.fract x = 1 / 2 then (if ⌊x⌋ % 2 = 0 then ⌊x⌋ else ⌊x⌋ + 1) else ⌊x + 1 / 2⌋

/-! ## Login (src/app.js `handleLogin`) -/

/-- A JavaScript string, as the sequence of its UTF-16 code units. -/
abbrev JsString := List Nat

/-- The code units of a text without characters outside the Basic Multilingual Plane. -/
def codeUnits (s : String) : JsString := s.toList.map Char.toNat

/-- Source: `s.endsWith(search)`: `s` is at least as long as `search` and its last code
units are those of `search`. -/
def endsWith (s search : JsString) : Bool :=
  decide (search.length ≤ s.length) && s.drop (s.length - search.length) == search

/-- Source: `s.substring(0, n)`: the first `n` code units. -/
def substring0 (s : JsString) (n : Nat) : JsString := s.take n

/-- Where `handleLogin` ends: on one of its three error notifications, or past its checks
(the lookup or creation of the user, then `showApp`). -/
inductive LoginStep where
  | selectHostel
  | useCollegeEmail
  | invalidPassword
  | proceeds
deriving DecidableEq, Repr

/-- Source: `handleLogin(e)` up to the end of its checks.  `toLowerCase` is
`String.prototype.toLowerCase`; `hostelType` is the `data-type` of the selected hostel
option, `none` when no option is selected; a missing or empty value is falsy. -/
def handleLogin (toLowerCase : JsString → JsString) (email password : JsString)
    (hostelType : Option String) (hostelName : String) : LoginStep :=
  if hostelType.getD "" = "" ∨ hostelName = "" then .selectHostel
  else if !endsWith email (codeUnits "@drngpit.ac.in") then .useCollegeEmail
  else
    let expectedPassword := toLowerCase (substring0 email 7)
    if password ≠ expectedPassword then .invalidPassword
    else .proceeds

/-- Lower case of the letters A to Z, the other code units unchanged: what `toLowerCase`
does on ASCII text. -/
def asciiLower (s : JsString) : JsString :=
  s.map (fun c => if 65 ≤ c ∧ c ≤ 90 then c + 32 else c)

/-! ## Recent activity (src/app.js `renderRecentActivity`) -/

/-- An entry that `renderRecentActivity` pushes on `activities`. -/
structure Activity where
  type : String
  user : String
  content : String
  date : String
deriving DecidableEq, Repr

/-- The entry pushed for a feedback. -/
def Activity.ofFeedback (feedback : Feedback) : Activity :=
  { type := "feedback", user := feedback.user,
    content := "Submitted feedback for " ++ feedback.mealType, date := feedback.date }

/-- The entry pushed for a leave. -/
def Activity.ofLeave (leave : Leave) : Activity :=
  { type := "leave", user := leave.user, content := "Applied for " ++ leave.type ++ " leave",
    date := leave.date }

/-- The entry pushed for a report. -/
def Activity.ofReport (report : Report) : Activity :=
  { type := "report", user := report.user,
    content := "Reported " ++ report.category ++ " issue", date := report.date }

/-- The array `activities` before it is sorted: the entries of `feedbackData.slice(0, 3)`,
of `leaveData.slice(0, 3)` and of `reportData.slice(0, 3)`, in this order. -/
def recentCandidates (feedbackData : List Feedback) (leaveData : List Leave)
    (reportData : List Report) : List Activity :=
  (feedbackData.take 3).map Activity.ofFeedback ++ (leaveData.take 3).map Activity.ofLeave
    ++ (reportData.take 3).map Activity.ofReport

/-- Source: `(a, b) => new Date(b.date) - new Date(a.date)`, as `sort` reads it.  `dateOf`
is the time value of `new Date(text)`, `none` for an Invalid Date; the difference is then
`NaN`, which `sort` takes for `0`. -/
def newerFirst (dateOf : String → Option Int) (a b : Activity) : Int :=
  match dateOf b.date, dateOf a.date with
  | some tb, some ta => tb - ta
  | _, _ => 0

/-- Insertion of `a` in front of the first element that it need not follow. -/
def insertSorted {α : Type} (cmp : α → α → Int) (a : α) : List α → List α
  | [] => [a]
  | b :: l => if cmp a b ≤ 0 then a :: b :: l else b :: insertSorted cmp a l

/-- Source: `array.sort(cmp)`, a stable sort: elements that compare equal keep their
order.  (With a comparator that is not a consistent order the result of `sort` is left to
the engine; this is then the result of an insertion sort.) -/
def sortBy {α : Type} (cmp : α → α → Int) : List α → List α
  | [] => []
  | a :: l => insertSorted cmp a (sortBy cmp l)

/-- Source: `renderRecentActivity()`: the entries appended to `recentActivity`, in order. -/
def renderRecentActivity (dateOf : String → Option Int) (feedbackData : List Feedback)
    (leaveData : List Leave) (reportData : List Report) : List Activity :=
  (sortBy (newerFirst dateOf) (recentCandidates feedbackData leaveData reportData)).take 5

/-- The time value of the date of an entry (0 for an Invalid Date). -/
def Activity.time (dateOf : String → Option Int) (a : Activity) : Int :=
  (dateOf a.date).getD 0

/-- A reading of dates for the examples: the digits of the text as one number, which
orders texts of the form `2024-01-15T08:00:00.000Z` by time. -/
def sampleDateOf (s : String) : Option Int :=
  if s.length = 24 then
    some (Int.ofNat ((s.toList.filter Char.isDigit).foldl
      (fun acc c => 10 * acc + (c.toNat - 48)) 0))
  else none

/-- A leave whose `date` is not a date. -/
def sampleLeaveUndated : Leave :=
  { _id := "l4", user := "Mani", email := "mani@drngpit.ac.in", type := "Home",
    fromDate := "2024-01-20", toDate := "2024-01-22", reason := "Festival",
    status := "pending", date := "not a date" }

/-- A report made a day after the sample feedback. -/
def sampleReportLater : Report :=
  { _id := "r2", user := "Arun", email := "arun@drngpit.ac.in", category := "Plumbing",
    location := "Room 101", description := "Tap leaking", urgency := "low",
    status := "pending", date := "2024-01-16T10:00:00.000Z" }

/-! ## Ratings that are not whole numbers -/

/-- The sample snapshot with the ratings 1, 1, 2.1 and 1.3. -/
def sampleStateRated : AppState :=
  { sampleState with
    feedbackData := [sampleFeedbackRated "f1" 1 1, sampleFeedbackRated "f2" 1 1,
      sampleFeedbackRated "f3" 21 10, sampleFeedbackRated "f4" 13 10] }

/-- The same snapshot with the feedback list reversed. -/
def sampleStateRatedReversed : AppState :=
  { sampleStateRated with feedbackData := sampleStateRated.feedbackData.reverse }

/-- Three feedback records rated 1.4 each. -/
def sampleFeedbackSame : List Feedback :=
  [sampleFeedbackRated "f1" 14 10, sampleFeedbackRated "f2" 14 10,
    sampleFeedbackRated "f3" 14 10]

/-! ## Binary64 rounding: normalisation and error bounds -/

theorem lgAux_spec : ∀ (fuel n : Nat), 1 ≤ n → n ≤ fuel →
    2 ^ lgAux fuel n ≤ n ∧ n < 2 ^ (lgAux fuel n + 1) := by
  intro fuel
  induction fuel with
  | zero => intro n h1 h2; omega
  | succ f ih =>
    intro n h1 h2
    unfold lgAux
    by_cases hn : n < 2
    · simp only [hn, if_true]
      omega
    · simp only [hn, if_false]
      have h := ih (n / 2) (by omega) (by omega)
      obtain ⟨ha, hb⟩ := h
      rw [pow_succ] at hb ⊢
      rw [pow_succ]
      constructor <;> omega

theorem lg_spec (n : Nat) (h : 1 ≤ n) : 2 ^ lg n ≤ n ∧ n < 2 ^ (lg n + 1) :=
  lgAux_spec n n h (le_refl n)

theorem roundHalfEven_spec (n d : Nat) (hd : 0 < d) :
    2 * (roundHalfEven n d * d) ≤ 2 * n + d ∧ 2 * n ≤ 2 * (roundHalfEven n d * d) + d := by
  have h := Nat.div_add_mod n d
  have hr := Nat.mod_lt n hd
  have e1 : (n / d + 1) * d = d * (n / d) + d := by ring
  have e2 : n / d * d = d * (n / d) := by ring
  unfold roundHalfEven
  simp only
  split_ifs <;> simp only [e1, e2] <;> omega

theorem scaling_spec (n d : Nat) (hn : 0 < n) (hd : 0 < d) :
    2 ^ 52 * (d * 2 ^ (scaling n d).2) ≤ n * 2 ^ (scaling n d).1 ∧
    n * 2 ^ (scaling n d).1 < 2 ^ 53 * (d * 2 ^ (scaling n d).2) := by
  obtain ⟨hn1, hn2⟩ := lg_spec n hn
  obtain ⟨hd1, hd2⟩ := lg_spec d hd
  rw [pow_succ] at hn2 hd2
  unfold scaling
  simp only
  rcases Nat.lt_or_ge (lg n) (lg d + 53) with hlt | hge
  · -- the quotient is below `2 ^ 53`: scale up
    obtain ⟨u, hu⟩ : ∃ u, lg d + 53 - lg n = u + 1 := ⟨lg d + 53 - lg n - 1, by omega⟩
    have h0 : lg n - (lg d + 53) = 0 := by omega
    have hpow : 2 ^ lg n * (2 * 2 ^ u) = 2 ^ lg d * 2 ^ 53 := by
      rw [← pow_succ', ← pow_add, ← pow_add]; congr 1; omega
    have e : 2 ^ (u + 1) = 2 * 2 ^ u := pow_succ' 2 u
    have hU : 0 < 2 ^ u := by positivity
    have p1 : 2 ^ lg n * 2 ^ u ≤ n * 2 ^ u := Nat.mul_le_mul_right _ hn1
    have p2 : n * 2 ^ u < 2 ^ lg n * 2 * 2 ^ u := Nat.mul_lt_mul_of_pos_right hn2 hU
    rw [hu, h0, if_neg (Nat.add_one_ne_zero u)]
    split_ifs with hbig <;> simp only [Nat.add_sub_cancel, pow_zero, mul_one, e] at hbig ⊢ <;>
      constructor <;> linarith
  · -- the quotient is at least `2 ^ 53`: scale down
    have h0 : lg d + 53 - lg n = 0 := by omega
    have hpow : 2 ^ lg n = 2 ^ lg d * 2 ^ 53 * 2 ^ (lg n - (lg d + 53)) := by
      rw [← pow_add, ← pow_add]; congr 1; omega
    have e : 2 ^ (lg n - (lg d + 53) + 1) = 2 * 2 ^ (lg n - (lg d + 53)) := pow_succ' 2 _
    have hT : 0 < 2 ^ (lg n - (lg d + 53)) := by positivity
    have p1 : 2 ^ lg d * 2 ^ (lg n - (lg d + 53)) ≤ d * 2 ^ (lg n - (lg d + 53)) :=
      Nat.mul_le_mul_right _ hd1
    have p2 : d * 2 ^ (lg n - (lg d + 53)) < 2 ^ lg d * 2 * 2 ^ (lg n - (lg d + 53)) :=
      Nat.mul_lt_mul_of_pos_right hd2 hT
    rw [h0, if_pos rfl]
    split_ifs with hbig <;> simp only [pow_zero, mul_one, e] at hbig ⊢ <;>
      constructor <;> linarith

theorem roundDouble_close (n d : Nat) (hd : 0 < d) :
    0 < (roundDouble n d).den ∧
    2 ^ 53 * ((roundDouble n d).num * d) ≤ 2 ^ 53 * (n * (roundDouble n d).den)
      + n * (roundDouble n d).den ∧
    2 ^ 53 * (n * (roundDouble n d).den) ≤ 2 ^ 53 * ((roundDouble n d).num * d)
      + n * (roundDouble n d).den := by
  unfold roundDouble
  by_cases hn : n = 0
  · simp [hn]
  · simp only [hn, if_false]
    have hn0 : 0 < n := Nat.pos_of_ne_zero hn
    obtain ⟨h1, -⟩ := scaling_spec n d hn0 hd
    have hD : 0 < d * 2 ^ (scaling n d).2 := by positivity
    obtain ⟨h2, h3⟩ := roundHalfEven_spec (n * 2 ^ (scaling n d).1) (d * 2 ^ (scaling n d).2) hD
    refine ⟨by positivity, ?_, ?_⟩
    · have e : roundHalfEven (n * 2 ^ (scaling n d).1) (d * 2 ^ (scaling n d).2)
          * 2 ^ (scaling n d).2 * d
          = roundHalfEven (n * 2 ^ (scaling n d).1) (d * 2 ^ (scaling n d).2)
            * (d * 2 ^ (scaling n d).2) := by ring
      rw [e]
      omega
    · have e : roundHalfEven (n * 2 ^ (scaling n d).1) (d * 2 ^ (scaling n d).2)
          * 2 ^ (scaling n d).2 * d
          = roundHalfEven (n * 2 ^ (scaling n d).1) (d * 2 ^ (scaling n d).2)
            * (d * 2 ^ (scaling n d).2) := by ring
      rw [e]
      omega

theorem roundDouble_err (n d : Nat) (hd : 0 < d) :
    |(roundDouble n d).val - (n : ℚ) / d| ≤ (n : ℚ) / d / 2 ^ 53 := by
  obtain ⟨hW, h1, h2⟩ := roundDouble_close n d hd
  unfold JsNum.val
  generalize (roundDouble n d).num = V at *
  generalize (roundDouble n d).den = W at *
  have hWq : (0 : ℚ) < W := by exact_mod_cast hW
  have hdq : (0 : ℚ) < d := by exact_mod_cast hd
  have h1q : (2 : ℚ) ^ 53 * (V * d) ≤ 2 ^ 53 * (n * W) + n * W := by exact_mod_cast h1
  have h2q : (2 : ℚ) ^ 53 * (n * W) ≤ 2 ^ 53 * (V * d) + n * W := by exact_mod_cast h2
  have eV : (V : ℚ) * d = (V : ℚ) / W * (W * d) := by field_simp; ring
  have en : (n : ℚ) * W = (n : ℚ) / d * (W * d) := by field_simp; ring
  rw [eV, en] at h1q h2q
  have hpos : (0 : ℚ) < W * d := mul_pos hWq hdq
  generalize (V : ℚ) / W = q at *
  generalize (n : ℚ) / d = x at *
  have k1 : 2 ^ 53 * q ≤ 2 ^ 53 * x + x :=
    le_of_mul_le_mul_right (by linarith) hpos
  have k2 : 2 ^ 53 * x ≤ 2 ^ 53 * q + x :=
    le_of_mul_le_mul_right (by linarith) hpos
  rw [abs_le, le_div_iff₀ (by positivity), div_eq_mul_inv]
  have k3 : x * ((2 : ℚ) ^ 53)⁻¹ * 2 ^ 53 = x := by field_simp
  constructor <;> nlinarith

/-- Rounding `c * V / W` half-up gives an integer nearest to `X / n`, as soon as
`c * V / W` is within `1 / (2 n)` of `X / n`. -/
theorem nearest_of_close (V W X n c r : Nat) (hW : 0 < W) (hn : 0 < n)
    (hr : r = (2 * (c * V) + W) / (2 * W))
    (hclose : |((c : ℚ) * V / W) * n - X| < 1 / 2) :
    2 * n * r ≤ 2 * X + n ∧ 2 * X ≤ 2 * n * r + n := by
  have h2W : 0 < 2 * W := by omega
  have hlo : r * (2 * W) ≤ 2 * (c * V) + W := by
    rw [hr]; exact Nat.div_mul_le_self _ _
  have hhi : 2 * (c * V) + W < (r + 1) * (2 * W) := by
    rw [hr]; exact Nat.lt_mul_of_div_lt (Nat.lt_succ_self _) h2W
  have hWq : (0 : ℚ) < W := by exact_mod_cast hW
  have hnq : (0 : ℚ) < n := by exact_mod_cast hn
  have hloq : (r : ℚ) * (2 * W) ≤ 2 * (c * V) + W := by exact_mod_cast hlo
  have hhiq : (2 : ℚ) * (c * V) + W < (r + 1) * (2 * W) := by exact_mod_cast hhi
  have ey : (c : ℚ) * V = (c : ℚ) * V / W * W := by field_simp
  rw [ey] at hloq hhiq
  generalize (c : ℚ) * V / W = y at *
  have k1 : (r : ℚ) ≤ y + 1 / 2 := by
    have : (r : ℚ) * (2 * W) ≤ (y + 1 / 2) * (2 * W) := by linarith
    exact le_of_mul_le_mul_right this (by positivity)
  have k2 : y + 1 / 2 < (r : ℚ) + 1 := by
    have : (y + 1 / 2) * (2 * W) < ((r : ℚ) + 1) * (2 * W) := by linarith
    exact lt_of_mul_lt_mul_right this (by positivity)
  rw [abs_lt] at hclose
  obtain ⟨c1, c2⟩ := hclose
  have m1 : (r : ℚ) * n ≤ (y + 1 / 2) * n := mul_le_mul_of_nonneg_right k1 hnq.le
  have m2 : (y + 1 / 2) * n < ((r : ℚ) + 1) * n := mul_lt_mul_of_pos_right k2 hnq
  constructor
  · by_contra hcon
    have hcon2 : 2 * X + n + 1 ≤ 2 * n * r := by omega
    have : (2 : ℚ) * X + n + 1 ≤ 2 * n * r := by exact_mod_cast hcon2
    linarith
  · by_contra hcon
    have hcon2 : 2 * n * r + n + 1 ≤ 2 * X := by omega
    have : (2 : ℚ) * n * r + n + 1 ≤ 2 * X := by exact_mod_cast hcon2
    linarith

/-- The error of `(p / n) * 100` in binary64, scaled by `n`. -/
theorem percent_close (p n : Nat) (hn : 0 < n) (hp : 600 * p < 2 ^ 53) :
    0 < (jsMul (roundDouble p n) (JsNum.ofNat 100)).den ∧
    |(jsMul (roundDouble p n) (JsNum.ofNat 100)).val * n - ((100 * p : Nat) : ℚ)| < 1 / 2 := by
  have e1 := roundDouble_err p n hn
  have hq := (roundDouble_close p n hn).1
  have e2 := roundDouble_err ((roundDouble p n).num * 100) ((roundDouble p n).den * 1)
    (by omega)
  have hv := (roundDouble_close ((roundDouble p n).num * 100) ((roundDouble p n).den * 1)
    (by omega)).1
  refine ⟨hv, ?_⟩
  have eq1 : (((roundDouble p n).num * 100 : Nat) : ℚ) / (((roundDouble p n).den * 1 : Nat) : ℚ)
      = 100 * (roundDouble p n).val := by
    unfold JsNum.val; push_cast; ring
  rw [eq1] at e2
  have ev : jsMul (roundDouble p n) (JsNum.ofNat 100)
      = roundDouble ((roundDouble p n).num * 100) ((roundDouble p n).den * 1) := rfl
  rw [ev]
  generalize (roundDouble ((roundDouble p n).num * 100) ((roundDouble p n).den * 1)).val = y at *
  generalize (roundDouble p n).val = q at *
  have hnq : (0 : ℚ) < n := by exact_mod_cast hn
  have hpq : (600 : ℚ) * p < 2 ^ 53 := by exact_mod_cast hp
  have ex : (p : ℚ) = (p : ℚ) / n * n := by field_simp
  have hx0 : (0 : ℚ) ≤ (p : ℚ) / n := by positivity
  rw [ex] at hpq
  push_cast
  rw [ex]
  generalize (p : ℚ) / n = x at *
  rw [abs_le] at e1 e2
  obtain ⟨a1, a2⟩ := e1
  obtain ⟨b1, b2⟩ := e2
  have u1 : y ≤ 100 * x + 300 * x / 2 ^ 53 := by
    have : x / 2 ^ 53 / 2 ^ 53 ≤ x / 2 ^ 53 := by
      apply div_le_self (by positivity); norm_num
    linarith
  have u2 : 100 * x - 300 * x / 2 ^ 53 ≤ y := by
    have : 0 ≤ x / 2 ^ 53 / 2 ^ 53 := by positivity
    linarith
  have m1 := mul_le_mul_of_nonneg_right u1 hnq.le
  have m2 := mul_le_mul_of_nonneg_right u2 hnq.le
  rw [abs_lt]
  constructor <;> linarith


/-! ## `updateStats`: the value of each constant -/

theorem lg_unique (n a : Nat) (h1 : 2 ^ a ≤ n) (h2 : n < 2 ^ (a + 1)) : lg n = a := by
  have hn : 1 ≤ n := le_trans (Nat.one_le_two_pow) h1
  obtain ⟨s1, s2⟩ := lg_spec n hn
  have ha : a < lg n + 1 := (Nat.pow_lt_pow_iff_right (by norm_num)).mp (lt_of_le_of_lt h1 s2)
  have hb : lg n < a + 1 := (Nat.pow_lt_pow_iff_right (by norm_num)).mp (lt_of_le_of_lt s1 h2)
  omega

theorem lg_mul_pow (n u : Nat) (hn : 1 ≤ n) : lg (n * 2 ^ u) = lg n + u := by
  obtain ⟨s1, s2⟩ := lg_spec n hn
  apply lg_unique
  · rw [pow_add]; exact Nat.mul_le_mul_right _ s1
  · have : 2 ^ (lg n + u + 1) = 2 ^ (lg n + 1) * 2 ^ u := by
      rw [← pow_add]; congr 1; omega
    rw [this]
    exact Nat.mul_lt_mul_of_pos_right s2 (by positivity)

theorem roundHalfEven_mul (n d c : Nat) (hc : 0 < c) :
    roundHalfEven (n * c) (d * c) = roundHalfEven n d := by
  unfold roundHalfEven
  simp only
  rw [Nat.mul_div_mul_right _ _ hc, Nat.mul_mod_mul_right]
  have e1 : (2 * (n % d * c) < d * c) = (2 * (n % d) < d) := by
    apply propext
    rw [show 2 * (n % d * c) = 2 * (n % d) * c by ring]
    exact Nat.mul_lt_mul_right hc
  have e2 : (d * c < 2 * (n % d * c)) = (d < 2 * (n % d)) := by
    apply propext
    rw [show 2 * (n % d * c) = 2 * (n % d) * c by ring]
    exact Nat.mul_lt_mul_right hc
  simp only [e1, e2]

theorem scaling_mul_pow (n d u : Nat) (hn : 0 < n) (hd : 0 < d) :
    scaling (n * 2 ^ u) (d * 2 ^ u) = scaling n d := by
  unfold scaling
  simp only
  rw [lg_mul_pow n u hn, lg_mul_pow d u hd]
  have a1 : lg d + u + 53 - (lg n + u) = lg d + 53 - lg n := by omega
  have a2 : lg n + u - (lg d + u + 53) = lg n - (lg d + 53) := by omega
  rw [a1, a2]
  have hU : 0 < 2 ^ u := by positivity
  have e : (2 ^ 53 * (d * 2 ^ u * 2 ^ (lg n - (lg d + 53)))
      ≤ n * 2 ^ u * 2 ^ (lg d + 53 - lg n))
      = (2 ^ 53 * (d * 2 ^ (lg n - (lg d + 53))) ≤ n * 2 ^ (lg d + 53 - lg n)) := by
    apply propext
    rw [show 2 ^ 53 * (d * 2 ^ u * 2 ^ (lg n - (lg d + 53)))
        = 2 ^ 53 * (d * 2 ^ (lg n - (lg d + 53))) * 2 ^ u by ring,
      show n * 2 ^ u * 2 ^ (lg d + 53 - lg n) = n * 2 ^ (lg d + 53 - lg n) * 2 ^ u by ring]
    constructor
    · intro h; exact Nat.le_of_mul_le_mul_right h hU
    · intro h; exact Nat.mul_le_mul_right _ h
  simp only [e]

/-- Rounding depends on the quotient, not on a common power of two in its terms. -/
theorem roundDouble_mul_pow (n d u : Nat) (hd : 0 < d) :
    roundDouble (n * 2 ^ u) (d * 2 ^ u) = roundDouble n d := by
  have hU : 0 < 2 ^ u := by positivity
  by_cases hn : n = 0
  · subst hn; simp [roundDouble]
  · have hn0 : 0 < n := Nat.pos_of_ne_zero hn
    have hne : n * 2 ^ u ≠ 0 := by positivity
    unfold roundDouble
    simp only [hn, hne, if_false]
    rw [scaling_mul_pow n d u hn0 hd]
    have e : roundHalfEven (n * 2 ^ u * 2 ^ (scaling n d).1) (d * 2 ^ u * 2 ^ (scaling n d).2)
        = roundHalfEven (n * 2 ^ (scaling n d).1) (d * 2 ^ (scaling n d).2) := by
      rw [show n * 2 ^ u * 2 ^ (scaling n d).1 = n * 2 ^ (scaling n d).1 * 2 ^ u by ring,
        show d * 2 ^ u * 2 ^ (scaling n d).2 = d * 2 ^ (scaling n d).2 * 2 ^ u by ring]
      exact roundHalfEven_mul _ _ _ hU
    rw [e]

theorem scaling_one_sided (n d : Nat) : (scaling n d).1 = 0 ∨ (scaling n d).2 = 0 := by
  unfold scaling
  simp only
  split_ifs with h1 h2
  · exact Or.inl rfl
  · right
    show lg n - (lg d + 53) = 0
    omega
  · show lg d + 53 - lg n = 0 ∨ lg n - (lg d + 53) = 0
    omega

/-- A quotient below `2 ^ 53` is not scaled down. -/
theorem scaling_small (n d : Nat) (hn : 0 < n) (hd : 0 < d) (hs : n < 2 ^ 53 * d) :
    (scaling n d).2 = 0 := by
  rcases scaling_one_sided n d with h | h
  · obtain ⟨h1, -⟩ := scaling_spec n d hn hd
    rw [h, pow_zero, mul_one] at h1
    by_contra hne
    obtain ⟨t, ht⟩ : ∃ t, (scaling n d).2 = t + 1 := ⟨(scaling n d).2 - 1, by omega⟩
    have hp : 2 ^ (t + 1) = 2 ^ t * 2 := pow_succ 2 t
    rw [ht, hp] at h1
    have hT : 1 ≤ 2 ^ t := Nat.one_le_two_pow
    have e : 2 ^ 52 * (d * (2 ^ t * 2)) = 2 ^ 53 * d * 2 ^ t := by ring
    rw [e] at h1
    have h2 : 2 ^ 53 * d * 1 ≤ 2 ^ 53 * d * 2 ^ t := Nat.mul_le_mul_left _ hT
    omega
  · exact h

theorem roundHalfEven_one (n : Nat) : roundHalfEven n 1 = n := by
  simp [roundHalfEven, Nat.mod_one]

/-- An integer below `2 ^ 53` is a double: rounding keeps its value. -/
theorem roundDouble_nat (a : Nat) (ha : a < 2 ^ 53) :
    ∃ u, roundDouble a 1 = ⟨a * 2 ^ u, 2 ^ u⟩ := by
  by_cases h0 : a = 0
  · subst h0
    exact ⟨0, by simp [roundDouble]⟩
  · have hpos : 0 < a := Nat.pos_of_ne_zero h0
    have hdn := scaling_small a 1 hpos (by norm_num) (by omega)
    refine ⟨(scaling a 1).1, ?_⟩
    unfold roundDouble
    simp only [h0, if_false, hdn, pow_zero, mul_one, roundHalfEven_one]

theorem jsAdd_nat (a k : Nat) (h : a + k < 2 ^ 53) :
    jsAdd (roundDouble a 1) (JsNum.ofNat k) = roundDouble (a + k) 1 := by
  obtain ⟨u, hu⟩ := roundDouble_nat a (by omega)
  rw [hu]
  unfold jsAdd JsNum.ofNat
  simp only [mul_one]
  have e1 : a * 2 ^ u + k * 2 ^ u = (a + k) * 2 ^ u := by ring
  rw [e1]
  have := roundDouble_mul_pow (a + k) 1 u (by norm_num)
  rw [one_mul] at this
  exact this

theorem foldl_jsPlus_nat (ks : List Nat) : ∀ (l : List Feedback) (a : Nat),
    l.map (fun feedback => feedback.foodRating)
      = ks.map (fun k => Operand.num (JsNum.ofNat k)) →
    a + ks.sum < 2 ^ 53 →
    l.foldl (fun sum feedback => jsPlus sum feedback.foodRating) (.num (roundDouble a 1))
      = .num (roundDouble (a + ks.sum) 1) := by
  induction ks with
  | nil =>
    intro l a hl _
    have : l = [] := by simpa using hl
    subst this
    simp
  | cons k ks ih =>
    intro l a hl hsum
    cases l with
    | nil => simp at hl
    | cons f fs =>
      simp only [List.map_cons, List.cons.injEq] at hl
      simp only [List.sum_cons] at hsum
      have hstep : jsPlus (.num (roundDouble a 1)) f.foodRating
          = .num (roundDouble (a + k) 1) := by
        rw [hl.1]
        simp only [jsPlus]
        rw [jsAdd_nat a k (by omega)]
      rw [List.foldl_cons, hstep, ih fs (a + k) hl.2 (by omega), List.sum_cons]
      congr 2
      omega

/-- Whole-number ratings whose sum is below `2 ^ 53` are added without rounding. -/
theorem ratingSum_nat (l : List Feedback) (ks : List Nat)
    (hl : l.map (fun feedback => feedback.foodRating)
      = ks.map (fun k => Operand.num (JsNum.ofNat k)))
    (hsum : ks.sum < 2 ^ 53) :
    ratingSum l = .num (roundDouble ks.sum 1) := by
  have h0 : (Operand.num (JsNum.ofNat 0)) = .num (roundDouble 0 1) := by
    simp [roundDouble, JsNum.ofNat]
  unfold ratingSum
  rw [h0, foldl_jsPlus_nat ks l 0 hl (by omega)]
  simp

theorem meanRating_nat (l : List Feedback) (ks : List Nat)
    (hl : l.map (fun feedback => feedback.foodRating)
      = ks.map (fun k => Operand.num (JsNum.ofNat k)))
    (hsum : ks.sum < 2 ^ 53) (hne : l ≠ []) :
    meanRating l = some (.num (roundDouble ks.sum l.length)) := by
  have hpos : 0 < l.length := List.length_pos.mpr hne
  have hn0 : l.length ≠ 0 := by omega
  obtain ⟨u, hu⟩ := roundDouble_nat ks.sum hsum
  unfold meanRating
  rw [ratingSum_nat l ks hl hsum, hu]
  simp only [Operand.div, jsDiv, JsNum.ofNat, hn0, if_false, Option.map_some', mul_one]
  rw [show 2 ^ u * l.length = l.length * 2 ^ u by ring,
    roundDouble_mul_pow ks.sum l.length u hpos]

theorem avgRating_nil : avgRating [] = some "0.0" := by
  simp [avgRating]

theorem avgRating_nat (l : List Feedback) (ks : List Nat)
    (hl : l.map (fun feedback => feedback.foodRating)
      = ks.map (fun k => Operand.num (JsNum.ofNat k)))
    (hsum : ks.sum < 2 ^ 53) (hne : l ≠ []) :
    avgRating l = some (toFixed1 (roundDouble ks.sum l.length)) := by
  have hpos : 0 < l.length := List.length_pos.mpr hne
  simp [avgRating, hpos, meanRating_nat l ks hl hsum hne, Operand.toFixed1]

theorem meanRating_total (l : List Feedback) (hne : l ≠ []) :
    ∃ m, meanRating l = some m := by
  have hpos : 0 < l.length := List.length_pos.mpr hne
  have hn0 : l.length ≠ 0 := by omega
  unfold meanRating
  cases ratingSum l with
  | num x => exact ⟨.num (roundDouble (x.num * 1) (x.den * l.length)),
      by simp [Operand.div, jsDiv, JsNum.ofNat, hn0]⟩
  | neg x => exact ⟨.neg (roundDouble (x.num * 1) (x.den * l.length)),
      by simp [Operand.div, jsDiv, JsNum.ofNat, hn0]⟩
  | nan => exact ⟨.nan, by simp [Operand.div, JsNum.ofNat, hn0]⟩

theorem avgRating_total (feedbackData : List Feedback) :
    ∃ r, avgRating feedbackData = some r := by
  by_cases h : feedbackData = []
  · exact ⟨"0.0", by rw [h, avgRating_nil]⟩
  · obtain ⟨m, hm⟩ := meanRating_total feedbackData h
    have hpos : 0 < feedbackData.length := List.length_pos.mpr h
    exact ⟨m.toFixed1, by simp [avgRating, hpos, hm]⟩

theorem roomOccupancy_eq (roomAllocations : List RoomAllocation) :
    roomOccupancy roomAllocations = some (mathRound
      (jsMul (roundDouble (occupiedRooms roomAllocations) 30) (JsNum.ofNat 100))) := by
  simp [roomOccupancy, jsDiv, JsNum.ofNat, totalRooms]

theorem attendanceRate_nil (attendanceData : List Attendance) (today : String) :
    attendanceRate attendanceData [] today = some 0 := by
  simp [attendanceRate]

theorem attendanceRate_eq (attendanceData : List Attendance) (studentData : List Student)
    (today : String) (h : studentData ≠ []) :
    attendanceRate attendanceData studentData today = some (mathRound
      (jsMul (roundDouble (todayAttendance attendanceData today) studentData.length)
        (JsNum.ofNat 100))) := by
  have hpos : 0 < studentData.length := List.length_pos.mpr h
  have hne : studentData.length ≠ 0 := by omega
  simp [attendanceRate, jsDiv, JsNum.ofNat, hpos, hne]

theorem roomOccupancy_total (roomAllocations : List RoomAllocation) :
    ∃ r, roomOccupancy roomAllocations = some r := ⟨_, roomOccupancy_eq _⟩

theorem attendanceRate_total (attendanceData : List Attendance) (studentData : List Student)
    (today : String) : ∃ r, attendanceRate attendanceData studentData today = some r := by
  by_cases h : studentData = []
  · exact ⟨0, by rw [h, attendanceRate_nil]⟩
  · exact ⟨_, attendanceRate_eq _ _ _ h⟩

/-- The function `computeStats` always returns, and its fields are the values of the
constants. -/
theorem computeStats_eq (s : AppState) (today : String) :
    ∃ ro ar av, roomOccupancy s.roomAllocations = some ro ∧
      attendanceRate s.attendanceData s.studentData today = some ar ∧
      avgRating s.feedbackData = some av ∧
      computeStats s today = some {
        pendingLeaves := pendingLeaves s.leaveData
        totalFeedback := s.feedbackData.length
        totalReports := s.reportData.length
        roomOccupancy := ro
        attendanceRate := ar
        feeStatus := feeStatus s.paymentData
        totalStudents := s.studentData.length
        avgRating := av } := by
  obtain ⟨ro, h1⟩ := roomOccupancy_total s.roomAllocations
  obtain ⟨ar, h2⟩ := attendanceRate_total s.attendanceData s.studentData today
  obtain ⟨av, h3⟩ := avgRating_total s.feedbackData
  refine ⟨ro, ar, av, h1, h2, h3, ?_⟩
  simp [computeStats, h1, h2, h3]

/-- An integer `r` with `X / n - 1 / 2 < r ≤ X / n + 1 / 2` is `round (X / n)`. -/
theorem round_of_nearest (X n r : Nat) (hn : 0 < n) (h1 : 2 * n * r ≤ 2 * X + n)
    (h2 : 2 * X < 2 * n * r + n) : (r : ℤ) = round ((X : ℚ) / n) := by
  have hnq : (0 : ℚ) < n := by exact_mod_cast hn
  have h1q : (2 : ℚ) * n * r ≤ 2 * X + n := by exact_mod_cast h1
  have h2q : (2 : ℚ) * X < 2 * n * r + n := by exact_mod_cast h2
  have ex : (X : ℚ) = (X : ℚ) / n * n := by field_simp
  rw [ex] at h1q h2q
  generalize (X : ℚ) / n = x at *
  rw [round_eq, eq_comm, Int.floor_eq_iff]
  push_cast
  constructor
  · have : (r : ℚ) * (2 * n) ≤ (x + 1 / 2) * (2 * n) := by linarith
    exact le_of_mul_le_mul_right this (by positivity)
  · have : (x + 1 / 2) * (2 * n) < ((r : ℚ) + 1) * (2 * n) := by linarith
    exact lt_of_mul_lt_mul_right this (by positivity)

/-- When `X / n` is not exactly halfway between two integers, `2 X ≠ 2 n r + n`. -/
theorem not_half_of_fract (X n r : Nat) (hn : 0 < n)
    (hf : Int.fract ((X : ℚ) / n) ≠ 1 / 2) : 2 * X ≠ 2 * n * r + n := by
  intro h
  apply hf
  have hnq : (0 : ℚ) < n := by exact_mod_cast hn
  have hq : (2 : ℚ) * X = 2 * n * r + n := by exact_mod_cast h
  have : (X : ℚ) / n = ((r : ℤ) : ℚ) + 1 / 2 := by
    push_cast
    field_simp
    linarith
  rw [this, Int.fract_int_add, Int.fract_eq_iff]
  exact ⟨by norm_num, by norm_num, 0, by norm_num⟩

/-- The percentage `Math.round((p / n) * 100)` is an integer nearest to `100 p / n`. -/
theorem percent_nearest (p n : Nat) (hn : 0 < n) (hp : p < 2 ^ 32) :
    2 * n * mathRound (jsMul (roundDouble p n) (JsNum.ofNat 100)) ≤ 2 * (100 * p) + n ∧
    2 * (100 * p) ≤ 2 * n * mathRound (jsMul (roundDouble p n) (JsNum.ofNat 100)) + n := by
  obtain ⟨hW, hc⟩ := percent_close p n hn (by omega)
  apply nearest_of_close (jsMul (roundDouble p n) (JsNum.ofNat 100)).num _ _ _ 1 _ hW hn
  · simp [mathRound]
  · simpa [JsNum.val] using hc

/-- The error of the mean `sum / n` in binary64, scaled by `10 n`. -/
theorem mean_close (sum n : Nat) (hn : 0 < n) (hs : sum < 2 ^ 48) :
    0 < (roundDouble sum n).den ∧
    |((10 : Nat) : ℚ) * (roundDouble sum n).num / (roundDouble sum n).den * n
      - ((10 * sum : Nat) : ℚ)| < 1 / 2 := by
  have e1 := roundDouble_err sum n hn
  have hq := (roundDouble_close sum n hn).1
  refine ⟨hq, ?_⟩
  have ev : ((10 : Nat) : ℚ) * (roundDouble sum n).num / (roundDouble sum n).den
      = 10 * (roundDouble sum n).val := by
    unfold JsNum.val; push_cast; ring
  rw [ev]
  generalize (roundDouble sum n).val = q at *
  have hnq : (0 : ℚ) < n := by exact_mod_cast hn
  have hsq : (sum : ℚ) < 2 ^ 48 := by exact_mod_cast hs
  have ex : (sum : ℚ) = (sum : ℚ) / n * n := by field_simp
  have hx0 : (0 : ℚ) ≤ (sum : ℚ) / n := by positivity
  rw [ex] at hsq
  push_cast
  rw [ex]
  generalize (sum : ℚ) / n = x at *
  rw [abs_le] at e1
  obtain ⟨a1, a2⟩ := e1
  have m1 := mul_le_mul_of_nonneg_right a1 hnq.le
  have m2 := mul_le_mul_of_nonneg_right a2 hnq.le
  rw [abs_lt]
  constructor <;> linarith

theorem roundDouble_den_pos (n d : Nat) : 0 < (roundDouble n d).den := by
  unfold roundDouble
  split
  · exact Nat.one_pos
  · exact Nat.pos_of_ne_zero (by positivity)

/-- Adding ratings that are Numbers gives a Number. -/
theorem foldl_jsPlus_num : ∀ (l : List Feedback) (x : JsNum),
    (∀ f ∈ l, ∃ y : JsNum, f.foodRating = .num y) → 0 < x.den →
    ∃ z : JsNum, l.foldl (fun sum feedback => jsPlus sum feedback.foodRating) (.num x)
      = .num z ∧ 0 < z.den := by
  intro l
  induction l with
  | nil => intro x _ hx; exact ⟨x, rfl, hx⟩
  | cons f l ih =>
    intro x hl hx
    obtain ⟨y, hy⟩ := hl f (List.mem_cons_self _ _)
    have hstep : jsPlus (.num x) f.foodRating = .num (jsAdd x y) := by rw [hy]; rfl
    obtain ⟨z, hz, hzd⟩ := ih (jsAdd x y) (fun g hg => hl g (List.mem_cons_of_mem _ hg))
      (roundDouble_den_pos _ _)
    exact ⟨z, by rw [List.foldl_cons, hstep, hz], hzd⟩

/-- The text of `toFixed(1)` is the decimal with one digit nearest to the Number. -/
theorem toFixed1_nearest (m : JsNum) (hm : 0 < m.den) :
    ∃ t : Nat, toFixed1 m = toString (t / 10) ++ "." ++ toString (t % 10) ∧
      |(t : ℚ) / 10 - m.val| ≤ 1 / 20 := by
  refine ⟨(20 * m.num + m.den) / (2 * m.den), rfl, ?_⟩
  have hpos : 0 < 2 * m.den := by omega
  have h1 := Nat.div_mul_le_self (20 * m.num + m.den) (2 * m.den)
  have h2 := Nat.lt_div_mul_add (a := 20 * m.num + m.den) hpos
  generalize (20 * m.num + m.den) / (2 * m.den) = t at *
  unfold JsNum.val
  generalize m.num = a at *
  generalize m.den = b at *
  have hb : (0 : ℚ) < b := by exact_mod_cast hm
  have q1 : (t : ℚ) * (2 * b) ≤ 20 * a + b := by exact_mod_cast h1
  have q2 : (20 : ℚ) * a + b < t * (2 * b) + 2 * b := by exact_mod_cast h2
  have ex : (a : ℚ) = (a : ℚ) / b * b := by field_simp
  rw [ex] at q1 q2
  generalize (a : ℚ) / b = x at *
  rw [abs_le]
  constructor
  · have : (x - 1 / 20) * (20 * b) ≤ ((t : ℚ) / 10) * (20 * b) := by linarith
    have := le_of_mul_le_mul_right this (by positivity)
    linarith
  · have : ((t : ℚ) / 10) * (20 * b) ≤ (x + 1 / 20) * (20 * b) := by linarith
    have := le_of_mul_le_mul_right this (by positivity)
    linarith

/-- For ratings that are Numbers the average is the one-digit decimal of the mean. -/
theorem avgRating_num (l : List Feedback) (hne : l ≠ [])
    (hl : ∀ f ∈ l, ∃ y : JsNum, f.foodRating = .num y) :
    ∃ (m : JsNum) (t : Nat), meanRating l = some (.num m) ∧
      avgRating l = some (toString (t / 10) ++ "." ++ toString (t % 10)) ∧
      |(t : ℚ) / 10 - m.val| ≤ 1 / 20 := by
  have hpos : 0 < l.length := List.length_pos.mpr hne
  have hlen : l.length ≠ 0 := by omega
  obtain ⟨z, hz, hzd⟩ := foldl_jsPlus_num l (JsNum.ofNat 0) hl (by decide)
  have hm : meanRating l = some (.num (roundDouble (z.num * 1) (z.den * l.length))) := by
    unfold meanRating ratingSum
    rw [hz]
    simp [Operand.div, jsDiv, JsNum.ofNat, hlen]
  obtain ⟨t, ht, hb⟩ := toFixed1_nearest (roundDouble (z.num * 1) (z.den * l.length))
    (roundDouble_den_pos _ _)
  refine ⟨_, t, hm, ?_, hb⟩
  unfold avgRating
  rw [if_pos hpos, hm]
  show some (toFixed1 (roundDouble (z.num * 1) (z.den * l.length))) = _
  rw [ht]

/-- A record read from a document without `foodRating` makes the sum `NaN`, and the
dashboard shows "NaN/5". -/
theorem avgRating_without_rating :
    avgRating [Feedback.ofDoc [("user", .str "Arun"), ("mealType", .str "lunch")]]
      = some "NaN" ∧
    (computeStats { sampleState with
        feedbackData := [Feedback.ofDoc [("user", .str "Arun"), ("mealType", .str "lunch")]] }
      "2024-01-15").map (fun st => (render st).messRatingEl) = some "NaN/5" := by
  refine ⟨by decide, by decide⟩

/-! ## The claims -/

set_option maxRecDepth 4096

/-- C1: the `pendingLeaves` computed by `updateStats` is the number of Leave records whose
status is exactly "pending". -/
theorem pendingLeaves_counts_pending (s : AppState) (today : String) :
    ∃ st, computeStats s today = some st ∧
      st.pendingLeaves = s.leaveData.countP (fun leave => decide (leave.status = "pending")) := by
  obtain ⟨ro, ar, av, -, -, -, h⟩ := computeStats_eq s today
  refine ⟨_, h, ?_⟩
  simp only [pendingLeaves, List.countP_eq_length_filter]
  congr 1

/-- C2: the `roomOccupancy` computed by `updateStats` is `100 * k / 30` rounded to the
nearest integer, `k` being the number of RoomAllocation records whose status is exactly
"occupied"; `k = 15` gives 50 and `k = 0` gives 0.  (A JavaScript array holds fewer than
`2 ^ 32` elements.) -/
theorem roomOccupancy_rounds (s : AppState) (today : String)
    (hlen : s.roomAllocations.length < 2 ^ 32) :
    ∃ st, computeStats s today = some st ∧
      (st.roomOccupancy : ℤ) = round ((100 * (s.roomAllocations.countP
        (fun room => decide (room.status = "occupied")) : ℚ)) / 30) ∧
      (s.roomAllocations.countP (fun room => decide (room.status = "occupied")) = 15 →
        st.roomOccupancy = 50) ∧
      (s.roomAllocations.countP (fun room => decide (room.status = "occupied")) = 0 →
        st.roomOccupancy = 0) := by
  obtain ⟨ro, ar, av, h1, -, -, h⟩ := computeStats_eq s today
  have hk : s.roomAllocations.countP (fun room => decide (room.status = "occupied"))
      = occupiedRooms s.roomAllocations := by
    simp only [occupiedRooms, List.countP_eq_length_filter]
    congr 1
  have hle : occupiedRooms s.roomAllocations ≤ s.roomAllocations.length :=
    List.length_filter_le _ _
  rw [hk]
  rw [roomOccupancy_eq] at h1
  obtain ⟨n1, n2⟩ := percent_nearest (occupiedRooms s.roomAllocations) 30 (by norm_num)
    (by omega)
  have hro := Option.some.inj h1
  rw [hro] at n1 n2
  have n3 : 2 * (100 * occupiedRooms s.roomAllocations) < 2 * 30 * ro + 30 := by omega
  refine ⟨_, h, ?_, ?_, ?_⟩
  · have := round_of_nearest (100 * occupiedRooms s.roomAllocations) 30 ro (by norm_num) n1 n3
    simpa using this
  · intro h15; simp only []; omega
  · intro h0; simp only []; omega

/-- C3 (as amended): `attendanceRate` is 0 when there is no Student; otherwise it is an
integer nearest to `100 * p / n` (`n` Student records, `p` Attendance records dated `today`
with status "present"), and it is `round (100 * p / n)` unless `100 * p / n` lies exactly
halfway between two integers. -/
theorem attendanceRate_nearest (s : AppState) (today : String)
    (hlen : s.attendanceData.length < 2 ^ 32) :
    ∃ st, computeStats s today = some st ∧
      (s.studentData = [] → st.attendanceRate = 0) ∧
      (s.studentData ≠ [] →
        |(st.attendanceRate : ℚ) - 100 * (s.attendanceData.countP
            (fun a => decide (a.date = today ∧ a.status = "present")) : ℚ)
            / s.studentData.length| ≤ 1 / 2 ∧
        (Int.fract (100 * (s.attendanceData.countP
            (fun a => decide (a.date = today ∧ a.status = "present")) : ℚ)
            / s.studentData.length) ≠ 1 / 2 →
          (st.attendanceRate : ℤ) = round (100 * (s.attendanceData.countP
            (fun a => decide (a.date = today ∧ a.status = "present")) : ℚ)
            / s.studentData.length))) := by
  obtain ⟨ro, ar, av, -, h2, -, h⟩ := computeStats_eq s today
  have hk : s.attendanceData.countP (fun a => decide (a.date = today ∧ a.status = "present"))
      = todayAttendance s.attendanceData today := by
    simp only [todayAttendance, List.countP_eq_length_filter]
    congr 1
    exact List.filter_congr (fun x _ => by rw [Bool.decide_and]; rfl)
  have hle : todayAttendance s.attendanceData today ≤ s.attendanceData.length :=
    List.length_filter_le _ _
  rw [hk]
  refine ⟨_, h, ?_, ?_⟩
  · intro hnil
    rw [hnil, attendanceRate_nil] at h2
    exact (Option.some.inj h2).symm
  · intro hne
    have hpos : 0 < s.studentData.length := List.length_pos.mpr hne
    rw [attendanceRate_eq _ _ _ hne] at h2
    obtain ⟨n1, n2⟩ := percent_nearest (todayAttendance s.attendanceData today)
      s.studentData.length hpos (by omega)
    rw [Option.some.inj h2] at n1 n2
    simp only []
    generalize todayAttendance s.attendanceData today = p at *
    generalize s.studentData.length = n at *
    have hnq : (0 : ℚ) < n := by exact_mod_cast hpos
    have e100 : (100 : ℚ) * p / n = ((100 * p : Nat) : ℚ) / n := by push_cast; ring
    constructor
    · have n1q : (2 : ℚ) * n * ar ≤ 2 * (100 * p) + n := by exact_mod_cast n1
      have n2q : (2 : ℚ) * (100 * p) ≤ 2 * n * ar + n := by exact_mod_cast n2
      have ex : (100 : ℚ) * p = 100 * p / n * n := by field_simp
      rw [ex] at n1q n2q
      generalize (100 : ℚ) * p / n = x at *
      rw [abs_le]
      constructor
      · have : (x - 1 / 2) * (2 * n) ≤ (ar : ℚ) * (2 * n) := by linarith
        have := le_of_mul_le_mul_right this (by positivity)
        linarith
      · have : (ar : ℚ) * (2 * n) ≤ (x + 1 / 2) * (2 * n) := by linarith
        have := le_of_mul_le_mul_right this (by positivity)
        linarith
    · intro hf
      rw [e100] at hf ⊢
      have n3 := not_half_of_fract (100 * p) n ar hpos hf
      exact round_of_nearest (100 * p) n ar hpos n1 (by omega)

/-- C4: `feeStatus` is "Paid" exactly when some Payment record has status "paid", and
"Pending" exactly when none has (in particular for the empty list). -/
theorem feeStatus_paid_iff (s : AppState) (today : String) :
    ∃ st, computeStats s today = some st ∧
      (st.feeStatus = "Paid" ↔ ∃ p ∈ s.paymentData, p.status = "paid") ∧
      (st.feeStatus = "Pending" ↔ ¬ ∃ p ∈ s.paymentData, p.status = "paid") := by
  obtain ⟨ro, ar, av, -, -, -, h⟩ := computeStats_eq s today
  refine ⟨_, h, ?_⟩
  simp only [feeStatus, paidPayments]
  by_cases hp : ∃ p ∈ s.paymentData, p.status = "paid"
  · obtain ⟨p, hmem, hst⟩ := hp
    have hin : p ∈ s.paymentData.filter (fun p => p.status == "paid") :=
      List.mem_filter.mpr ⟨hmem, by simp [hst]⟩
    have hpos : 0 < (s.paymentData.filter (fun p => p.status == "paid")).length :=
      List.length_pos_of_mem hin
    rw [if_pos hpos]
    exact ⟨⟨fun _ => ⟨p, hmem, hst⟩, fun _ => rfl⟩,
      ⟨fun hc => absurd hc (by decide), fun hc => absurd ⟨p, hmem, hst⟩ hc⟩⟩
  · have hnil : s.paymentData.filter (fun p => p.status == "paid") = [] := by
      rw [List.filter_eq_nil_iff]
      intro p hmem hst
      exact hp ⟨p, hmem, by simpa using hst⟩
    have hlen : ¬ (s.paymentData.filter (fun p => p.status == "paid")).length > 0 := by
      rw [hnil]; exact Nat.lt_irrefl 0
    rw [if_neg hlen]
    exact ⟨⟨fun hc => absurd hc (by decide), fun hc => absurd hc hp⟩,
      ⟨fun _ => hp, fun _ => rfl⟩⟩

/-- C5: the average meal rating is "0.0" for the empty list; otherwise it is a decimal
with exactly one digit after the point, `t / 10` written out, that is within `1 / 20` of
the arithmetic mean of the `foodRating` values; for ratings 5 and 3 it is "4.0".
(The ratings are whole numbers, as `parseInt` gives them; they are at most 5 and an array
holds fewer than `2 ^ 32` records, so their sum is far below `2 ^ 48`.)  For ratings that
are any Numbers not below zero, the text is the decimal with one digit after the point
nearest to the mean as computed. -/
theorem avgRating_one_decimal (s : AppState) (today : String) (ratings : List Nat)
    (hwhole : s.feedbackData.map (fun feedback => feedback.foodRating)
      = ratings.map (fun k => Operand.num (JsNum.ofNat k)))
    (hsum : ratings.sum < 2 ^ 48) :
    ∃ st, computeStats s today = some st ∧
      (s.feedbackData = [] → st.avgRating = "0.0") ∧
      (s.feedbackData ≠ [] → ∃ t : Nat,
        st.avgRating = toString (t / 10) ++ "." ++ toString (t % 10) ∧
        |(t : ℚ) / 10 - ((ratings.sum : Nat) : ℚ) / s.feedbackData.length| ≤ 1 / 20) ∧
      (∀ f1 f2 : Feedback, f1.foodRating = .num (JsNum.ofNat 5) →
        f2.foodRating = .num (JsNum.ofNat 3) → avgRating [f1, f2] = some "4.0") ∧
      (∀ feedbackData : List Feedback, feedbackData ≠ [] →
        (∀ f ∈ feedbackData, ∃ x : JsNum, f.foodRating = .num x) →
        ∃ (m : JsNum) (t : Nat), meanRating feedbackData = some (.num m) ∧
          avgRating feedbackData = some (toString (t / 10) ++ "." ++ toString (t % 10)) ∧
          |(t : ℚ) / 10 - m.val| ≤ 1 / 20) := by
  obtain ⟨ro, ar, av, -, -, h3, h⟩ := computeStats_eq s today
  refine ⟨_, h, ?_, ?_, ?_, avgRating_num⟩
  · intro hnil
    rw [hnil, avgRating_nil] at h3
    exact (Option.some.inj h3).symm
  · intro hne
    have hpos : 0 < s.feedbackData.length := List.length_pos.mpr hne
    rw [avgRating_nat _ ratings hwhole (by omega) hne] at h3
    obtain ⟨hW, hc⟩ := mean_close ratings.sum s.feedbackData.length hpos hsum
    obtain ⟨n1, n2⟩ := nearest_of_close
      (roundDouble ratings.sum s.feedbackData.length).num
      (roundDouble ratings.sum s.feedbackData.length).den
      (10 * ratings.sum) s.feedbackData.length 10
      ((20 * (roundDouble ratings.sum s.feedbackData.length).num
        + (roundDouble ratings.sum s.feedbackData.length).den)
        / (2 * (roundDouble ratings.sum s.feedbackData.length).den))
      hW hpos (by rw [← Nat.mul_assoc]) hc
    refine ⟨_, (Option.some.inj h3).symm, ?_⟩
    generalize (20 * (roundDouble ratings.sum s.feedbackData.length).num
        + (roundDouble ratings.sum s.feedbackData.length).den)
        / (2 * (roundDouble ratings.sum s.feedbackData.length).den) = t at *
    generalize ratings.sum = sum at *
    generalize s.feedbackData.length = n at *
    have hnq : (0 : ℚ) < n := by exact_mod_cast hpos
    have n1q : (2 : ℚ) * n * t ≤ 2 * (10 * sum) + n := by exact_mod_cast n1
    have n2q : (2 : ℚ) * (10 * sum) ≤ 2 * n * t + n := by exact_mod_cast n2
    have ex : (sum : ℚ) = (sum : ℚ) / n * n := by field_simp
    rw [ex] at n1q n2q
    generalize (sum : ℚ) / n = x at *
    rw [abs_le]
    constructor
    · have : (x - 1 / 20) * (20 * n) ≤ ((t : ℚ) / 10) * (20 * n) := by linarith
      have := le_of_mul_le_mul_right this (by positivity)
      linarith
    · have : ((t : ℚ) / 10) * (20 * n) ≤ (x + 1 / 20) * (20 * n) := by linarith
      have := le_of_mul_le_mul_right this (by positivity)
      linarith
  · intro f1 f2 h5 h3
    rw [avgRating_nat [f1, f2] [5, 3] (by simp [h5, h3]) (by norm_num) (by simp)]
    show some (toFixed1 (roundDouble 8 2)) = some "4.0"
    decide

/-- C2, at the sample snapshot (15 occupied rooms). -/
theorem roomOccupancy_rounds_witness :
    sampleState.roomAllocations.length < 2 ^ 32 ∧
    ∃ st, computeStats sampleState "2024-01-15" = some st ∧
      (st.roomOccupancy : ℤ) = round ((100 * (sampleState.roomAllocations.countP
        (fun room => decide (room.status = "occupied")) : ℚ)) / 30) ∧
      (sampleState.roomAllocations.countP (fun room => decide (room.status = "occupied")) = 15 →
        st.roomOccupancy = 50) ∧
      (sampleState.roomAllocations.countP (fun room => decide (room.status = "occupied")) = 0 →
        st.roomOccupancy = 0) :=
  ⟨by decide, roomOccupancy_rounds sampleState "2024-01-15" (by decide)⟩

/-- C3 fails as stated: with 40 students, 23 of them present today, `(23 / 40) * 100` is
`57.49999999999999` in binary64 and `updateStats` shows 57, while
`round (100 * 23 / 40) = round 57.5 = 58`. -/
theorem attendanceRate_not_round :
    sampleState.studentData.length = 40 ∧
    sampleState.attendanceData.countP
      (fun a => decide (a.date = "2024-01-15" ∧ a.status = "present")) = 23 ∧
    (computeStats sampleState "2024-01-15").map (fun st => st.attendanceRate) = some 57 ∧
    round ((100 * (23 : ℚ)) / 40) = 58 := by
  refine ⟨by decide, by decide, by decide, ?_⟩
  rw [round_eq, Int.floor_eq_iff]
  norm_num

/-- C3 as amended, at the sample snapshot. -/
theorem attendanceRate_nearest_witness :
    sampleState.attendanceData.length < 2 ^ 32 ∧
    ∃ st, computeStats sampleState "2024-01-15" = some st ∧
      (sampleState.studentData = [] → st.attendanceRate = 0) ∧
      (sampleState.studentData ≠ [] →
        |(st.attendanceRate : ℚ) - 100 * (sampleState.attendanceData.countP
            (fun a => decide (a.date = "2024-01-15" ∧ a.status = "present")) : ℚ)
            / sampleState.studentData.length| ≤ 1 / 2 ∧
        (Int.fract (100 * (sampleState.attendanceData.countP
            (fun a => decide (a.date = "2024-01-15" ∧ a.status = "present")) : ℚ)
            / sampleState.studentData.length) ≠ 1 / 2 →
          (st.attendanceRate : ℤ) = round (100 * (sampleState.attendanceData.countP
            (fun a => decide (a.date = "2024-01-15" ∧ a.status = "present")) : ℚ)
            / sampleState.studentData.length))) :=
  ⟨by decide, attendanceRate_nearest sampleState "2024-01-15" (by decide)⟩

/-- C5, at the sample snapshot (ratings 5 and 3). -/
theorem avgRating_one_decimal_witness :
    sampleState.feedbackData.map (fun feedback => feedback.foodRating)
      = [5, 3].map (fun k => Operand.num (JsNum.ofNat k)) ∧
    ([5, 3] : List Nat).sum < 2 ^ 48 ∧
    ∃ st, computeStats sampleState "2024-01-15" = some st ∧
      (sampleState.feedbackData = [] → st.avgRating = "0.0") ∧
      (sampleState.feedbackData ≠ [] → ∃ t : Nat,
        st.avgRating = toString (t / 10) ++ "." ++ toString (t % 10) ∧
        |(t : ℚ) / 10 - ((([5, 3] : List Nat).sum : Nat) : ℚ)
          / sampleState.feedbackData.length| ≤ 1 / 20) ∧
      (∀ f1 f2 : Feedback, f1.foodRating = .num (JsNum.ofNat 5) →
        f2.foodRating = .num (JsNum.ofNat 3) → avgRating [f1, f2] = some "4.0") ∧
      (∀ feedbackData : List Feedback, feedbackData ≠ [] →
        (∀ f ∈ feedbackData, ∃ x : JsNum, f.foodRating = .num x) →
        ∃ (m : JsNum) (t : Nat), meanRating feedbackData = some (.num m) ∧
          avgRating feedbackData = some (toString (t / 10) ++ "." ++ toString (t % 10)) ∧
          |(t : ℚ) / 10 - m.val| ≤ 1 / 20) :=
  ⟨by decide, by decide, avgRating_one_decimal sampleState "2024-01-15" [5, 3] (by decide)
    (by decide)⟩

/-- C6: `updateStats` returns on every input, no division by zero being reached, and on
empty collections it computes 0 for every count and percentage, "Pending" and "0.0". -/
theorem updateStats_total (s : AppState) (today : String) :
    (∃ s', updateStats s today = some s') ∧
    (∃ st, computeStats s today = some st) ∧
    (∀ dom : Dom, computeStats
      { feedbackData := [], leaveData := [], studentData := [], reportData := [],
        roomAllocations := [], attendanceData := [], paymentData := [], dom := dom } today
      = some { pendingLeaves := 0, totalFeedback := 0, totalReports := 0, roomOccupancy := 0,
               attendanceRate := 0, feeStatus := "Pending", totalStudents := 0,
               avgRating := "0.0" }) := by
  obtain ⟨ro, ar, av, -, -, -, h⟩ := computeStats_eq s today
  refine ⟨⟨_, by simp [updateStats, h]; rfl⟩, ⟨_, h⟩, ?_⟩
  intro dom
  have r0 : roomOccupancy [] = some 0 := by decide
  simp [computeStats, r0, attendanceRate_nil, avgRating_nil, pendingLeaves, feeStatus,
    paidPayments]

/-- A list of ratings that is a permutation of whole numbers is itself a list of whole
numbers, with the same sum. -/
theorem whole_ratings_perm (l l' : List Feedback) (ratings : List Nat) (hp : l.Perm l')
    (h : l.map (fun feedback => feedback.foodRating)
      = ratings.map (fun k => Operand.num (JsNum.ofNat k))) :
    ∃ ratings' : List Nat, l'.map (fun feedback => feedback.foodRating)
        = ratings'.map (fun k => Operand.num (JsNum.ofNat k)) ∧
      ratings'.sum = ratings.sum ∧ ratings'.length = ratings.length := by
  let g : Operand → Nat := fun o => match o with
    | .num x => x.num
    | _ => 0
  have hg : ∀ k : Nat, g (Operand.num (JsNum.ofNat k)) = k := fun k => rfl
  have hperm : (l'.map (fun feedback => feedback.foodRating)).Perm
      (ratings.map (fun k => Operand.num (JsNum.ofNat k))) := by
    rw [← h]; exact (hp.map _).symm
  refine ⟨(l'.map (fun feedback => feedback.foodRating)).map g, ?_, ?_, ?_⟩
  · rw [List.map_map]
    conv_lhs => rw [← List.map_id (l'.map (fun feedback => feedback.foodRating))]
    apply List.map_congr_left
    intro o ho
    obtain ⟨k, -, rfl⟩ := List.mem_map.mp (hperm.subset ho)
    simp [hg]
  · have h2 : ((l'.map (fun feedback => feedback.foodRating)).map g).Perm ratings := by
      have e : (ratings.map (fun k => Operand.num (JsNum.ofNat k))).map g = ratings := by
        rw [List.map_map]
        conv_rhs => rw [← List.map_id ratings]
        apply List.map_congr_left
        intro k _
        exact hg k
      have := hperm.map g
      rw [e] at this
      exact this
    exact h2.sum_eq
  · have := hperm.length_eq
    simpa using this

/-- C7 fails as stated: the ratings 1, 1, 2.1, 1.3 have the average "1.3" and, in the
reverse order, "1.4" (binary64 addition from the left gives 5.3999999999999995 one way and
5.4 the other). -/
theorem avgRating_depends_on_order :
    sampleStateRated.feedbackData.Perm sampleStateRatedReversed.feedbackData ∧
    (computeStats sampleStateRated "2024-01-15").map (fun st => st.avgRating) = some "1.3" ∧
    (computeStats sampleStateRatedReversed "2024-01-15").map (fun st => st.avgRating)
      = some "1.4" :=
  ⟨(List.reverse_perm _).symm, by decide, by decide⟩

/-- C7 (as amended): when the input collections are replaced by permutations of
themselves, every value computed by `updateStats` other than the average meal rating is
unchanged, and the average meal rating is unchanged too when the ratings are whole numbers
with a sum below `2 ^ 53`. -/
theorem computeStats_perm (s s' : AppState) (today : String)
    (hFeedback : s.feedbackData.Perm s'.feedbackData)
    (hLeave : s.leaveData.Perm s'.leaveData)
    (hStudent : s.studentData.Perm s'.studentData)
    (hReport : s.reportData.Perm s'.reportData)
    (hRoom : s.roomAllocations.Perm s'.roomAllocations)
    (hAttendance : s.attendanceData.Perm s'.attendanceData)
    (hPayment : s.paymentData.Perm s'.paymentData) :
    ∃ st st', computeStats s today = some st ∧ computeStats s' today = some st' ∧
      st'.pendingLeaves = st.pendingLeaves ∧ st'.totalFeedback = st.totalFeedback ∧
      st'.totalReports = st.totalReports ∧ st'.totalStudents = st.totalStudents ∧
      st'.roomOccupancy = st.roomOccupancy ∧ st'.attendanceRate = st.attendanceRate ∧
      st'.feeStatus = st.feeStatus ∧
      (∀ ratings : List Nat,
        s.feedbackData.map (fun feedback => feedback.foodRating)
          = ratings.map (fun k => Operand.num (JsNum.ofNat k)) →
        ratings.sum < 2 ^ 53 → st'.avgRating = st.avgRating ∧ st' = st) := by
  obtain ⟨ro, ar, av, h1, h2, h3, h⟩ := computeStats_eq s today
  obtain ⟨ro', ar', av', h1', h2', h3', h'⟩ := computeStats_eq s' today
  have e1 : pendingLeaves s'.leaveData = pendingLeaves s.leaveData :=
    (hLeave.filter _).length_eq.symm
  have e2 : s'.feedbackData.length = s.feedbackData.length := hFeedback.length_eq.symm
  have e3 : s'.reportData.length = s.reportData.length := hReport.length_eq.symm
  have e4 : s'.studentData.length = s.studentData.length := hStudent.length_eq.symm
  have e5 : roomOccupancy s'.roomAllocations = roomOccupancy s.roomAllocations := by
    have : occupiedRooms s'.roomAllocations = occupiedRooms s.roomAllocations :=
      (hRoom.filter _).length_eq.symm
    simp only [roomOccupancy, this]
  have e6 : attendanceRate s'.attendanceData s'.studentData today
      = attendanceRate s.attendanceData s.studentData today := by
    have : todayAttendance s'.attendanceData today = todayAttendance s.attendanceData today :=
      (hAttendance.filter _).length_eq.symm
    simp only [attendanceRate, this, e4]
  have e7 : feeStatus s'.paymentData = feeStatus s.paymentData := by
    have : paidPayments s'.paymentData = paidPayments s.paymentData :=
      (hPayment.filter _).length_eq.symm
    simp only [feeStatus, this]
  have ero : ro' = ro := by
    rw [e5, h1] at h1'; exact (Option.some.inj h1').symm
  have ear : ar' = ar := by
    rw [e6, h2] at h2'; exact (Option.some.inj h2').symm
  subst ero ear
  refine ⟨_, _, h, h', e1, e2, e3, e4, rfl, rfl, e7, ?_⟩
  intro ratings hwhole hsum
  obtain ⟨ratings', hwhole', hsum', -⟩ :=
    whole_ratings_perm s.feedbackData s'.feedbackData ratings hFeedback hwhole
  have eav : av' = av := by
    by_cases hnil : s.feedbackData = []
    · have hnil' : s'.feedbackData = [] := by
        apply List.eq_nil_of_length_eq_zero; rw [e2, hnil]; rfl
      rw [hnil, avgRating_nil] at h3
      rw [hnil', avgRating_nil] at h3'
      rw [← Option.some.inj h3, ← Option.some.inj h3']
    · have hnil' : s'.feedbackData ≠ [] := by
        intro hc; apply hnil
        apply List.eq_nil_of_length_eq_zero; rw [← e2, hc]; rfl
      rw [avgRating_nat _ ratings hwhole hsum hnil] at h3
      rw [avgRating_nat _ ratings' hwhole' (by omega) hnil', hsum', e2] at h3'
      rw [← Option.some.inj h3, ← Option.some.inj h3']
  subst eav
  refine ⟨rfl, ?_⟩
  simp only [e1, e2, e3, e4, e7]

/-- C7 (as amended), at the sample snapshot and its reversal. -/
theorem computeStats_perm_witness :
    sampleState.feedbackData.Perm sampleStateReversed.feedbackData ∧
    sampleState.feedbackData.map (fun feedback => feedback.foodRating)
      = [5, 3].map (fun k => Operand.num (JsNum.ofNat k)) ∧
    ∃ st st', computeStats sampleState "2024-01-15" = some st ∧
      computeStats sampleStateReversed "2024-01-15" = some st' ∧
      st'.pendingLeaves = st.pendingLeaves ∧ st'.totalFeedback = st.totalFeedback ∧
      st'.totalReports = st.totalReports ∧ st'.totalStudents = st.totalStudents ∧
      st'.roomOccupancy = st.roomOccupancy ∧ st'.attendanceRate = st.attendanceRate ∧
      st'.feeStatus = st.feeStatus ∧
      (∀ ratings : List Nat,
        sampleState.feedbackData.map (fun feedback => feedback.foodRating)
          = ratings.map (fun k => Operand.num (JsNum.ofNat k)) →
        ratings.sum < 2 ^ 53 → st'.avgRating = st.avgRating ∧ st' = st) :=
  ⟨(List.reverse_perm _).symm, by decide,
   computeStats_perm sampleState sampleStateReversed "2024-01-15"
    (List.reverse_perm _).symm (List.reverse_perm _).symm (List.reverse_perm _).symm
    (List.reverse_perm _).symm (List.reverse_perm _).symm (List.reverse_perm _).symm
    (List.reverse_perm _).symm⟩

/-- C8: inserting a Leave record whose status is not "pending" at any position of
`leaveData` leaves the `pendingLeaves` computed by `updateStats` unchanged. -/
theorem pendingLeaves_insert_other (s : AppState) (today : String) (before after : List Leave)
    (leave : Leave) (hstatus : leave.status ≠ "pending")
    (hdata : s.leaveData = before ++ after) :
    ∃ st st', computeStats s today = some st ∧
      computeStats { s with leaveData := before ++ leave :: after } today = some st' ∧
      st'.pendingLeaves = st.pendingLeaves := by
  obtain ⟨ro, ar, av, -, -, -, h⟩ := computeStats_eq s today
  obtain ⟨ro', ar', av', -, -, -, h'⟩ :=
    computeStats_eq { s with leaveData := before ++ leave :: after } today
  refine ⟨_, _, h, h', ?_⟩
  simp only [hdata, pendingLeaves, List.filter_append, List.length_append]
  have : (leave.status == "pending") = false := by simpa using hstatus
  rw [List.filter_cons_of_neg (by simp [this])]

/-- C8, inserting an approved leave in the middle of the sample leaves. -/
theorem pendingLeaves_insert_other_witness :
    ∃ st st', computeStats sampleState "2024-01-15" = some st ∧
      computeStats { sampleState with
        leaveData := sampleLeaves.take 1 ++
          { _id := "l4", user := "Mani", email := "mani@drngpit.ac.in", type := "Home",
            fromDate := "2024-01-05", toDate := "2024-01-06", reason := "Travel",
            status := "approved", date := "2024-01-04T08:00:00.000Z" }
          :: sampleLeaves.drop 1 } "2024-01-15" = some st' ∧
      st'.pendingLeaves = st.pendingLeaves :=
  pendingLeaves_insert_other sampleState "2024-01-15" (sampleLeaves.take 1)
    (sampleLeaves.drop 1) _ (by decide) (by decide)

/-- C9 fails as stated: two invocations on the same collections on different days compute
different attendance rates (57 on 2024-01-15, 0 on 2024-01-16). -/
theorem stats_depend_on_date :
    (computeStats sampleState "2024-01-15").map (fun st => st.attendanceRate) = some 57 ∧
    (computeStats sampleState "2024-01-16").map (fun st => st.attendanceRate) = some 0 := by
  constructor <;> decide

/-- C9 (as amended): the values computed by `updateStats`, and the dashboard it writes,
depend only on the seven collections and on the current date; the invocation leaves each
of the seven collections unchanged. -/
theorem updateStats_frame (s s' : AppState) (today : String)
    (hFeedback : s.feedbackData = s'.feedbackData)
    (hLeave : s.leaveData = s'.leaveData)
    (hStudent : s.studentData = s'.studentData)
    (hReport : s.reportData = s'.reportData)
    (hRoom : s.roomAllocations = s'.roomAllocations)
    (hAttendance : s.attendanceData = s'.attendanceData)
    (hPayment : s.paymentData = s'.paymentData) :
    computeStats s today = computeStats s' today ∧
    ∃ t t', updateStats s today = some t ∧ updateStats s' today = some t' ∧
      t.dom = t'.dom ∧
      t.feedbackData = s.feedbackData ∧ t.leaveData = s.leaveData ∧
      t.studentData = s.studentData ∧ t.reportData = s.reportData ∧
      t.roomAllocations = s.roomAllocations ∧ t.attendanceData = s.attendanceData ∧
      t.paymentData = s.paymentData := by
  have hc : computeStats s today = computeStats s' today := by
    simp only [computeStats, hFeedback, hLeave, hStudent, hReport, hRoom, hAttendance, hPayment]
  obtain ⟨ro, ar, av, -, -, -, h⟩ := computeStats_eq s today
  have h' := hc ▸ h
  generalize hst : ({
      pendingLeaves := pendingLeaves s.leaveData
      totalFeedback := s.feedbackData.length
      totalReports := s.reportData.length
      roomOccupancy := ro
      attendanceRate := ar
      feeStatus := feeStatus s.paymentData
      totalStudents := s.studentData.length
      avgRating := av } : Stats) = st at h h'
  refine ⟨hc, { s with dom := render st }, { s' with dom := render st }, ?_, ?_, rfl,
    rfl, rfl, rfl, rfl, rfl, rfl, rfl⟩
  · simp [updateStats, h]
  · simp [updateStats, h']

/-- C9 as amended, at the sample snapshot with two different dashboards. -/
theorem updateStats_frame_witness :
    computeStats sampleState "2024-01-15" = computeStats sampleStateShown "2024-01-15" ∧
    ∃ t t', updateStats sampleState "2024-01-15" = some t ∧
      updateStats sampleStateShown "2024-01-15" = some t' ∧
      t.dom = t'.dom ∧
      t.feedbackData = sampleState.feedbackData ∧ t.leaveData = sampleState.leaveData ∧
      t.studentData = sampleState.studentData ∧ t.reportData = sampleState.reportData ∧
      t.roomAllocations = sampleState.roomAllocations ∧
      t.attendanceData = sampleState.attendanceData ∧
      t.paymentData = sampleState.paymentData :=
  updateStats_frame sampleState sampleStateShown "2024-01-15" rfl rfl rfl rfl rfl rfl rfl

/-- C10: src/server.js answers 500, not 400, to a request whose roll is taken and whose
name is empty: the ValidationError is raised before the unique index is consulted and
lands in the catch block, which answers 400 to the code 11000 alone.  Nothing is stored.
The handler of src/api/index.js answers 400 to the same request. -/
theorem duplicate_roll_status_500 :
    (∃ d ∈ sampleState.studentData, some d.roll = sampleBodyTakenNoName.roll) ∧
    (postStudent .server sampleState.studentData sampleBodyTakenNoName "new").1.status = 500 ∧
    (postStudent .server sampleState.studentData sampleBodyTakenNoName "new").2.length
      = sampleState.studentData.length ∧
    (postStudent .apiIndex sampleState.studentData sampleBodyTakenNoName "new").1.status
      = 400 := by
  refine ⟨?_, by decide, by decide, by decide⟩
  exact ⟨sampleStudentOf 3, by decide, by decide⟩

/-- Where a taken roll is answered as specified: both `POST /api/students` handlers answer
`success: false` and leave the collection as it was; the status is 400 when the body
passes the schema's `required` validators, and always in src/api/index.js.  When
`studentData` contains the roll entered in the form, `handleStudentSubmit` shows an error
and returns before `createStudent`. -/
theorem duplicate_roll_rejected (m : RouteModule) (store : List Student) (b : StudentBody)
    (newId : String) (hdup : ∃ d ∈ store, some d.roll = b.roll) :
    (postStudent m store b newId).1.success = false ∧
    (postStudent m store b newId).2 = store ∧
    (validateStudent b = true → (postStudent m store b newId).1.status = 400) ∧
    (m = .apiIndex → (postStudent m store b newId).1.status = 400) ∧
    (∀ (studentData : List Student) (f : StudentForm),
      (∃ d ∈ studentData, d.roll = f.studentRoll) →
      ∃ message, handleStudentSubmit studentData f = .notifyError message) := by
  have hu : violatesUnique m store b = true := by
    obtain ⟨d, hmem, hroll⟩ := hdup
    simp only [violatesUnique, Bool.or_eq_true, List.any_eq_true]
    exact Or.inl ⟨d, hmem, by simp [hroll]⟩
  refine ⟨?_, ?_, ?_, ?_, ?_⟩
  · cases m <;> cases hv : validateStudent b <;>
      simp [postStudent, save, hv, hu, SaveError.code]
  · cases m <;> cases hv : validateStudent b <;>
      simp [postStudent, save, hv, hu, SaveError.code]
  · intro hv
    cases m <;> simp [postStudent, save, hv, hu, SaveError.code]
  · intro hm
    subst hm
    cases hv : validateStudent b <;> simp [postStudent, save, hv, hu]
  · intro studentData f ⟨d, hmem, hroll⟩
    unfold handleStudentSubmit
    split_ifs with h1 h2
    · exact ⟨_, rfl⟩
    · exact ⟨_, rfl⟩
    · exfalso
      apply h2
      rw [List.find?_isSome]
      exact ⟨d, hmem, by simp [hroll]⟩

/-- The same for a request with the taken roll `R3` and a name, sent to src/server.js. -/
theorem duplicate_roll_rejected_witness :
    (∃ d ∈ sampleState.studentData, some d.roll = sampleBodyTaken.roll) ∧
    (postStudent .server sampleState.studentData sampleBodyTaken "new").1.success = false ∧
    (postStudent .server sampleState.studentData sampleBodyTaken "new").2
      = sampleState.studentData ∧
    (validateStudent sampleBodyTaken = true →
      (postStudent .server sampleState.studentData sampleBodyTaken "new").1.status = 400) ∧
    (RouteModule.server = .apiIndex →
      (postStudent .server sampleState.studentData sampleBodyTaken "new").1.status = 400) ∧
    (∀ (studentData : List Student) (f : StudentForm),
      (∃ d ∈ studentData, d.roll = f.studentRoll) →
      ∃ message, handleStudentSubmit studentData f = .notifyError message) :=
  ⟨⟨sampleStudentOf 3, by decide, by decide⟩,
    duplicate_roll_rejected .server sampleState.studentData sampleBodyTaken "new"
      ⟨sampleStudentOf 3, by decide, by decide⟩⟩

/-! ## Documents and the local-storage store: lemmas -/

theorem lookup_map_override (item data : Doc) (k : String) :
    List.lookup k (item.map (fun kv => (kv.1, (data.lookup kv.1).getD kv.2)))
      = (List.lookup k item).map (fun v => (data.lookup k).getD v) := by
  induction item with
  | nil => rfl
  | cons x xs ih =>
    obtain ⟨a, b⟩ := x
    by_cases h : k = a
    · subst h; simp [List.lookup]
    · have h' : (k == a) = false := by simpa using h
      simp [List.lookup, h', ih]

theorem lookup_filter_absent (item data : Doc) (k : String) (h : List.lookup k item = none) :
    List.lookup k (data.filter (fun kv => (item.lookup kv.1).isNone)) = List.lookup k data := by
  induction data with
  | nil => rfl
  | cons x xs ih =>
    obtain ⟨a, b⟩ := x
    by_cases hk : k = a
    · subst hk; simp [List.filter, h, List.lookup]
    · have h' : (k == a) = false := by simpa using hk
      by_cases hf : (item.lookup a).isNone = true
      · simp [List.filter, hf, List.lookup, h', ih]
      · simp [List.filter, hf, List.lookup, h', ih]

/-- A property of `{...item, ...data}` is that of `data` when `data` has it, else that of
`item`. -/
theorem Doc.get_spread (item data : Doc) (k : String) :
    (Doc.spread item data).get k = (data.get k).orElse (fun _ => item.get k) := by
  unfold Doc.spread Doc.get
  rw [List.lookup_append, lookup_map_override]
  cases hi : List.lookup k item with
  | none =>
    simp only [Option.map_none', Option.none_or]
    rw [lookup_filter_absent item data k hi]
    cases List.lookup k data <;> rfl
  | some v =>
    cases hd : List.lookup k data <;> simp

theorem Store.getItem_setItem (st : Store) (key : String) (items : List Doc) :
    (st.setItem key items).getItem key = some items := by
  simp [Store.getItem, Store.setItem, List.lookup]

/-! ## Route handlers: lemmas -/

/-- A `PUT` or `DELETE` to `/api/<endpoint>` (no id in the path) matches no route: the
answer is not a 2xx JSON reply and the collections are untouched. -/
theorem serve_without_id (fmt : IdFormat) (srv : Server) (endpoint : String) (body : Doc)
    (env : Env) (method : HttpMethod) (h : method = .PUT ∨ method = .DELETE) :
    (serve fmt srv { method := method, endpoint := endpoint, id := none, body := body } env).2
      = srv ∧
    ((serve fmt srv { method := method, endpoint := endpoint, id := none, body := body } env).1
        = .json (failure 404 "Endpoint not found") ∨
      (serve fmt srv { method := method, endpoint := endpoint, id := none, body := body } env).1
        = .other 404) := by
  rcases h with h | h <;> subst h <;> cases hm : srv.module <;>
    simp [serve, Request.op, hm]

theorem listHandler_envelope (srv : Server) (endpoint : String) :
    ((listHandler srv endpoint).success = false →
      400 ≤ (listHandler srv endpoint).status ∧ (listHandler srv endpoint).status ≤ 599 ∧
      (listHandler srv endpoint).error.isSome ∧ (listHandler srv endpoint).data = none) ∧
    ((listHandler srv endpoint).success = true →
      (listHandler srv endpoint).status = 200 ∧ (listHandler srv endpoint).error = none ∧
      (listHandler srv endpoint).data.isSome) := by
  unfold listHandler failure
  split <;> simp

theorem createHandler_envelope (srv : Server) (schema : Schema) (endpoint : String) (body : Doc)
    (env : Env) :
    ((createHandler srv schema endpoint body env).1.success = false →
      400 ≤ (createHandler srv schema endpoint body env).1.status ∧
      (createHandler srv schema endpoint body env).1.status ≤ 599 ∧
      (createHandler srv schema endpoint body env).1.error.isSome ∧
      (createHandler srv schema endpoint body env).1.data = none) ∧
    ((createHandler srv schema endpoint body env).1.success = true →
      ((createHandler srv schema endpoint body env).1.status = 200 ∨
        (createHandler srv schema endpoint body env).1.status = 201) ∧
      (createHandler srv schema endpoint body env).1.error = none ∧
      (createHandler srv schema endpoint body env).1.data.isSome) := by
  unfold createHandler failure
  simp only
  split
  · split <;> simp
  · split
    · split <;> simp
    · simp

theorem updateHandler_envelope (fmt : IdFormat) (srv : Server) (schema : Schema)
    (endpoint id : String) (body : Doc) (env : Env) :
    ((updateHandler fmt srv schema endpoint id body env).1.success = false →
      400 ≤ (updateHandler fmt srv schema endpoint id body env).1.status ∧
      (updateHandler fmt srv schema endpoint id body env).1.status ≤ 599 ∧
      (updateHandler fmt srv schema endpoint id body env).1.error.isSome ∧
      (updateHandler fmt srv schema endpoint id body env).1.data = none) ∧
    ((updateHandler fmt srv schema endpoint id body env).1.success = true →
      (updateHandler fmt srv schema endpoint id body env).1.status = 200 ∧
      (updateHandler fmt srv schema endpoint id body env).1.error = none ∧
      (updateHandler fmt srv schema endpoint id body env).1.data.isSome) := by
  unfold updateHandler failure
  simp only
  split
  · split
    · simp
    · split
      · simp
      · simp
      · split <;> simp
  · split <;> simp

theorem deleteHandler_envelope (fmt : IdFormat) (srv : Server) (endpoint id : String) :
    ((deleteHandler fmt srv endpoint id).1.success = false →
      400 ≤ (deleteHandler fmt srv endpoint id).1.status ∧
      (deleteHandler fmt srv endpoint id).1.status ≤ 599 ∧
      (deleteHandler fmt srv endpoint id).1.error.isSome ∧
      (deleteHandler fmt srv endpoint id).1.data = none) ∧
    ((deleteHandler fmt srv endpoint id).1.success = true →
      (deleteHandler fmt srv endpoint id).1.status = 200 ∧
      (deleteHandler fmt srv endpoint id).1.error = none ∧
      ((deleteHandler fmt srv endpoint id).1.data.isSome ∨
        (srv.module = .server ∧ (deleteHandler fmt srv endpoint id).1.message.isSome))) := by
  unfold deleteHandler failure
  simp only
  split
  · rename_i hm
    split <;> simp [hm]
  · split <;> simp

theorem find_replaceById (id : String) (doc d : Doc) (docs : List Doc)
    (hf : docs.find? (fun x => x.get "_id" == some (.str id)) = some d)
    (hid : doc.get "_id" = some (.str id)) :
    (replaceById id doc docs).find? (fun x => x.get "_id" == some (.str id)) = some doc := by
  induction docs with
  | nil => simp at hf
  | cons x xs ih =>
    unfold replaceById
    by_cases hx : x.get "_id" = some (.str id)
    · simp [hx, List.find?, hid]
    · have hb : (x.get "_id" == some (Json.str id)) = false := by simpa using hx
      rw [List.find?, hb] at hf
      simp only [hx, if_false, List.find?, hb]
      exact ih hf

theorem id_of_find (id : String) (d : Doc) (docs : List Doc)
    (hf : docs.find? (fun x => x.get "_id" == some (.str id)) = some d) :
    d.get "_id" = some (.str id) := by
  have := List.find?_some hf
  simpa using this

/-- The update-by-id when the id casts, the validators pass, a document is found and no
unique index is hit: the merged document is returned and stored in place. -/
theorem dbFindByIdAndUpdate_found (fmt : IdFormat) (schema : Schema) (runValidators : Bool)
    (docs : List Doc) (id : String) (updates : Doc) (env : Env) (d : Doc)
    (hc : fmt.casts id = true)
    (hv : runValidators = false ∨ schema.paths.all
        (fun p => match (schema.strict updates).get p.name with
          | some v => p.validates (some v)
          | none => true) = true)
    (hf : docs.find? (fun x => x.get "_id" == some (.str id)) = some d)
    (hu : schema.clashes (removeById id docs) (schema.strict updates) = false) :
    dbFindByIdAndUpdate fmt schema runValidators docs id updates env
      = .ok (some (Doc.spread d (schema.strict updates ++
            (if schema.timestamps then [("updatedAt", .str env.iso)] else []))),
          replaceById id (Doc.spread d (schema.strict updates ++
            (if schema.timestamps then [("updatedAt", .str env.iso)] else []))) docs) := by
  unfold dbFindByIdAndUpdate
  rcases hv with hv | hv
  · simp [hc, hv, hf, hu]
  · simp [hc, hv, hf, hu]

/-- C20: a create through the local-storage store returns the record extended with a
generated `_id` (the other properties are those of the record), and the next read of the
same key returns the previous list with exactly that document appended. -/
theorem localStorage_create_then_list (ls : Store) (endpoint : String) (data ignored : Doc)
    (now later : Nat) :
    ∃ newItem : Doc,
      (localStorageFallback ls endpoint .POST data now).1
        = { success := true, data := some (.doc newItem) } ∧
      newItem.get "_id" = some (.str (toString now)) ∧
      (∀ k, k ≠ "_id" → newItem.get k = data.get k) ∧
      (localStorageFallback (localStorageFallback ls endpoint .POST data now).2 endpoint .GET
          ignored later).1
        = { success := true,
            data := some (.docs
              (dataOrEmpty (localStorageFallback ls endpoint .GET ignored now).1.data
                ++ [newItem])) } ∧
      (dataOrEmpty (localStorageFallback (localStorageFallback ls endpoint .POST data now).2
          endpoint .GET ignored later).1.data).length
        = (dataOrEmpty (localStorageFallback ls endpoint .GET ignored now).1.data).length + 1 := by
  refine ⟨Doc.spread data [("_id", .str (toString now))], rfl, ?_, ?_, ?_, ?_⟩
  · rw [Doc.get_spread]; rfl
  · intro k hk
    rw [Doc.get_spread]
    have hb : (k == "_id") = false := by simpa using hk
    have : Doc.get [("_id", Json.str (toString now))] k = none := by
      simp [Doc.get, List.lookup, hb]
    rw [this]; rfl
  · simp [localStorageFallback, Store.getItem_setItem, dataOrEmpty]
  · simp [localStorageFallback, Store.getItem_setItem, dataOrEmpty]

/-- C11 fails on the code: with a reachable server holding the pending leave, the `PUT`
that `updateLeaveStatus` sends goes to `/api/leaves` (no id in the path), is answered 404
and falls back to `localStorage`; the reload reads the server, where the leave is still
"pending", and `pendingLeaves` stays 1. -/
theorem updateLeaveStatus_not_reflected :
    pendingLeaves sampleStateOnline.leaveData = 1 ∧
    (serve sampleFormat (sampleServer .server "pending" "pending")
      { method := .PUT, endpoint := "leaves", id := none,
        body := [("_id", .str "65a4f0c2e1b2c3d4e5f6a001"), ("status", .str "approved")] }
      sampleEnv).1 = .json (failure 404 "Endpoint not found") ∧
    (updateLeaveStatus sampleFormat sampleWorldOnline sampleStateOnline
        "65a4f0c2e1b2c3d4e5f6a001" "approved" sampleEnv "2024-01-15").map
      (fun r => (r.thrown, r.state.1.server,
        r.state.2.leaveData.map (fun leave => (leave._id, leave.status)),
        pendingLeaves r.state.2.leaveData))
      = some (none, sampleWorldOnline.server,
          [("65a4f0c2e1b2c3d4e5f6a001", "pending")], 1) := by
  refine ⟨by decide, by decide, by decide⟩

/-- C12 fails as stated: src/server.js answers 200 to `PUT /api/leaves/:id` with
`{ status: "pending" }` on an approved leave, and the stored status is "pending" again. -/
theorem leave_status_reverts :
    ((sampleServer .server "approved" "pending").db.getItem "leaves").map
        (fun docs => docs.map (fun d => d.get "status")) = some [some (.str "approved")] ∧
    ((serve sampleFormat (sampleServer .server "approved" "pending")
        { method := .PUT, endpoint := "leaves", id := some "65a4f0c2e1b2c3d4e5f6a001",
          body := [("status", .str "pending")] } sampleEnv).2.db.getItem "leaves").map
        (fun docs => docs.map (fun d => d.get "status")) = some [some (.str "pending")] := by
  refine ⟨by decide, by decide⟩

/-- C13 fails as stated: src/server.js moves a resolved report back to "pending", and a
pending report straight to "resolved". -/
theorem report_status_not_monotonic :
    ((serve sampleFormat (sampleServer .server "pending" "resolved")
        { method := .PUT, endpoint := "reports", id := some "65a4f0c2e1b2c3d4e5f6b001",
          body := [("status", .str "pending")] } sampleEnv).2.db.getItem "reports").map
        (fun docs => docs.map (fun d => d.get "status")) = some [some (.str "pending")] ∧
    ((serve sampleFormat (sampleServer .server "pending" "pending")
        { method := .PUT, endpoint := "reports", id := some "65a4f0c2e1b2c3d4e5f6b001",
          body := [("status", .str "resolved")] } sampleEnv).2.db.getItem "reports").map
        (fun docs => docs.map (fun d => d.get "status")) = some [some (.str "resolved")] := by
  refine ⟨by decide, by decide⟩

/-- C15 fails as stated: a successful delete in src/server.js answers
`{ success: true, message }`, with no `data`. -/
theorem delete_reply_has_no_data :
    (serve sampleFormat (sampleServer .server "pending" "pending")
        { method := .DELETE, endpoint := "students", id := some "65a4f0c2e1b2c3d4e5f6c001",
          body := [] } sampleEnv).1
      = .json { status := 200, success := true, data := none, error := none,
                message := some "Student deleted successfully" } := by
  decide

/-- C16 fails on the code: src/api/index.js answers 200 with `success: true` to an update
and to a delete whose well-formed id matches no stored student. -/
theorem unknown_id_answered_200 :
    sampleFormat.isValid "65a4f0c2e1b2c3d4e5f6c999" = true ∧
    (serve sampleFormat (sampleServer .apiIndex "pending" "pending")
        { method := .PUT, endpoint := "students", id := some "65a4f0c2e1b2c3d4e5f6c999",
          body := [("room", .str "105")] } sampleEnv)
      = (.json { status := 200, success := true, data := some .null },
         sampleServer .apiIndex "pending" "pending") ∧
    (serve sampleFormat (sampleServer .apiIndex "pending" "pending")
        { method := .DELETE, endpoint := "students", id := some "65a4f0c2e1b2c3d4e5f6c999",
          body := [] } sampleEnv).1
      = .json { status := 200, success := true,
                data := some (.doc [("deletedCount", .num 1)]) } := by
  refine ⟨by decide, by decide, by decide⟩

/-- C17 fails on the code: src/server.js answers 500 to an update of a student and to a
delete of a leave whose id is not in the identifier format. -/
theorem malformed_id_answered_500 :
    sampleFormat.isValid "abc" = false ∧ sampleFormat.casts "abc" = false ∧
    (serve sampleFormat (sampleServer .server "pending" "pending")
        { method := .PUT, endpoint := "students", id := some "abc",
          body := [("room", .str "105")] } sampleEnv).1
      = .json (failure 500 "Cast to ObjectId failed") ∧
    (serve sampleFormat (sampleServer .server "pending" "pending")
        { method := .DELETE, endpoint := "leaves", id := some "abc", body := [] }
        sampleEnv).1
      = .json (failure 500 "Cast to ObjectId failed") := by
  refine ⟨by decide, by decide, by decide, by decide⟩

/-- C18 fails on the code: src/server.js answers 500 to a create that the store rejects
for a missing required field (here the feedback the front end sends, which has no
`menuRating`). -/
theorem missing_field_answered_500 :
    (serve sampleFormat (sampleServer .server "pending" "pending")
        { method := .POST, endpoint := "feedback", id := none, body := sampleFeedbackBody }
        sampleEnv)
      = (.json (failure 500 "Validation failed"), sampleServer .server "pending" "pending") := by
  decide

theorem leaveSchema_no_clash (others : List Doc) (doc : Doc) :
    ServerJs.leaveSchema.clashes others doc = false ∧
    ApiIndex.leaveSchema.clashes others doc = false := by
  constructor <;>
    simp [Schema.clashes, ServerJs.leaveSchema, ApiIndex.leaveSchema, reqString, optString,
      dateNow, dateNull, reqDate]

theorem reportSchema_no_clash (others : List Doc) (doc : Doc) :
    ServerJs.reportSchema.clashes others doc = false ∧
    ApiIndex.reportSchema.clashes others doc = false := by
  constructor <;>
    simp [Schema.clashes, ServerJs.reportSchema, ApiIndex.reportSchema, reqString, optString,
      dateNow, dateNull, reqDate]

/-- After a merge that sets `status` and not `_id`, the stored document found under the id
is the merged one and carries the new status. -/
theorem stored_after (db : Store) (endpoint id status : String) (d upd : Doc)
    (docs : List Doc)
    (hf : docs.find? (fun x => x.get "_id" == some (.str id)) = some d)
    (h1 : upd.get "_id" = none) (h2 : upd.get "status" = some (.str status)) :
    (Doc.spread d upd).get "status" = some (.str status) ∧
    (((db.setItem endpoint (replaceById id (Doc.spread d upd) docs)).getItem endpoint).getD
      []).find? (fun x => x.get "_id" == some (.str id)) = some (Doc.spread d upd) := by
  constructor
  · rw [Doc.get_spread, h2]; rfl
  · rw [Store.getItem_setItem]
    apply find_replaceById id _ d docs hf
    rw [Doc.get_spread, h1]
    exact id_of_find id d docs hf

theorem leaveActions_spec (leave : Leave) (a : Action) (ha : a ∈ leaveActions leave) :
    leave.status = "pending" ∧ a.id = leave._id ∧
      (a.status = "approved" ∨ a.status = "rejected") := by
  unfold leaveActions at ha
  split at ha
  · rename_i hp
    simp only [List.mem_cons, List.mem_singleton, List.not_mem_nil, or_false] at ha
    rcases ha with rfl | rfl
    · exact ⟨hp, rfl, Or.inl rfl⟩
    · exact ⟨hp, rfl, Or.inr rfl⟩
  · simp at ha

theorem leaveActions_offered (leave : Leave) :
    (leave.status = "pending" → leaveActions leave
      = [{ label := "Approve", call := "updateLeaveStatus", id := leave._id,
           status := "approved" },
         { label := "Reject", call := "updateLeaveStatus", id := leave._id,
           status := "rejected" }]) ∧
    (leave.status ≠ "pending" → leaveActions leave = []) := by
  constructor
  · intro h; simp [leaveActions, h]
  · intro h; simp [leaveActions, h]

/-- C12 (as amended): no update handler looks at the stored status.  For a stored leave,
`PUT /api/leaves/:id` with the body `{ status }` answers 200 and stores that status,
whatever the stored one was, for every text in src/api/index.js and for "pending",
"approved" and "rejected" in src/server.js.  Only the admin list restricts what it asks
for: `renderLeaves` offers Approve and Reject on a pending leave and nothing on any other,
and the two buttons ask for "approved" and "rejected". -/
theorem leave_update_unguarded (fmt : IdFormat) (srv : Server) (id status : String) (env : Env)
    (d : Doc) (hup : srv.dbUp = true) (hvalid : fmt.isValid id = true)
    (hcasts : fmt.casts id = true)
    (hfound : ((srv.db.getItem "leaves").getD []).find?
      (fun x => x.get "_id" == some (.str id)) = some d)
    (henum : srv.module = .server →
      status = "pending" ∨ status = "approved" ∨ status = "rejected") :
    ∃ doc : Doc,
      (serve fmt srv (statusUpdate "leaves" id status) env).1
        = .json { status := 200, success := true, data := some (.doc doc) } ∧
      doc.get "status" = some (.str status) ∧
      (((serve fmt srv (statusUpdate "leaves" id status) env).2.db.getItem "leaves").getD []).find?
        (fun x => x.get "_id" == some (.str id)) = some doc ∧
      (∀ (leave : Leave) (a : Action), a ∈ leaveActions leave →
        leave.status = "pending" ∧ a.id = leave._id ∧
        (a.status = "approved" ∨ a.status = "rejected")) ∧
      (∀ leave : Leave,
        (leave.status = "pending" → leaveActions leave
          = [{ label := "Approve", call := "updateLeaveStatus", id := leave._id,
               status := "approved" },
             { label := "Reject", call := "updateLeaveStatus", id := leave._id,
               status := "rejected" }]) ∧
        (leave.status ≠ "pending" → leaveActions leave = [])) := by
  cases hm : srv.module
  · rcases henum hm with rfl | rfl | rfl
    · have hU := dbFindByIdAndUpdate_found fmt ServerJs.leaveSchema true _ id
        (stampUpdates "leaves" [("status", .str "pending")] env) env d hcasts
        (Or.inr rfl) hfound (leaveSchema_no_clash _ _).1
      obtain ⟨s1, s2⟩ := stored_after srv.db "leaves" id "pending" d
        (ServerJs.leaveSchema.strict (stampUpdates "leaves" [("status", .str "pending")] env) ++
          (if ServerJs.leaveSchema.timestamps then [("updatedAt", Json.str env.iso)] else []))
        _ hfound (by rfl) (by rfl)
      refine ⟨_, ?_, s1, ?_, leaveActions_spec, leaveActions_offered⟩
      · simp [serve, statusUpdate, Request.op, schemaOf, serverSchema, hasRoute,
          updateHandler, hm, hvalid, hup, hU]
      · simpa [serve, statusUpdate, Request.op, schemaOf, serverSchema, hasRoute,
          updateHandler, hm, hvalid, hup, hU] using s2
    · have hU := dbFindByIdAndUpdate_found fmt ServerJs.leaveSchema true _ id
        (stampUpdates "leaves" [("status", .str "approved")] env) env d hcasts
        (Or.inr rfl) hfound (leaveSchema_no_clash _ _).1
      obtain ⟨s1, s2⟩ := stored_after srv.db "leaves" id "approved" d
        (ServerJs.leaveSchema.strict (stampUpdates "leaves" [("status", .str "approved")] env) ++
          (if ServerJs.leaveSchema.timestamps then [("updatedAt", Json.str env.iso)] else []))
        _ hfound (by rfl) (by rfl)
      refine ⟨_, ?_, s1, ?_, leaveActions_spec, leaveActions_offered⟩
      · simp [serve, statusUpdate, Request.op, schemaOf, serverSchema, hasRoute,
          updateHandler, hm, hvalid, hup, hU]
      · simpa [serve, statusUpdate, Request.op, schemaOf, serverSchema, hasRoute,
          updateHandler, hm, hvalid, hup, hU] using s2
    · have hU := dbFindByIdAndUpdate_found fmt ServerJs.leaveSchema true _ id
        (stampUpdates "leaves" [("status", .str "rejected")] env) env d hcasts
        (Or.inr rfl) hfound (leaveSchema_no_clash _ _).1
      obtain ⟨s1, s2⟩ := stored_after srv.db "leaves" id "rejected" d
        (ServerJs.leaveSchema.strict (stampUpdates "leaves" [("status", .str "rejected")] env) ++
          (if ServerJs.leaveSchema.timestamps then [("updatedAt", Json.str env.iso)] else []))
        _ hfound (by rfl) (by rfl)
      refine ⟨_, ?_, s1, ?_, leaveActions_spec, leaveActions_offered⟩
      · simp [serve, statusUpdate, Request.op, schemaOf, serverSchema, hasRoute,
          updateHandler, hm, hvalid, hup, hU]
      · simpa [serve, statusUpdate, Request.op, schemaOf, serverSchema, hasRoute,
          updateHandler, hm, hvalid, hup, hU] using s2
  · have hU := dbFindByIdAndUpdate_found fmt ApiIndex.leaveSchema false _ id
      [("status", .str status)] env d hcasts (Or.inl rfl) hfound (leaveSchema_no_clash _ _).2
    obtain ⟨s1, s2⟩ := stored_after srv.db "leaves" id status d
      (ApiIndex.leaveSchema.strict [("status", .str status)] ++
        (if ApiIndex.leaveSchema.timestamps then [("updatedAt", Json.str env.iso)] else []))
      _ hfound (by rfl) (by rfl)
    refine ⟨_, ?_, s1, ?_, leaveActions_spec, leaveActions_offered⟩
    · simp [serve, statusUpdate, Request.op, schemaOf, apiSchema, hasRoute,
        updateHandler, hm, hup, hU]
    · simpa [serve, statusUpdate, Request.op, schemaOf, apiSchema, hasRoute,
        updateHandler, hm, hup, hU] using s2

/-- C12 as amended, for the approved sample leave asked back to "pending" in
src/server.js. -/
theorem leave_update_unguarded_witness :
    (sampleServer .server "approved" "pending").dbUp = true ∧
    sampleFormat.isValid "65a4f0c2e1b2c3d4e5f6a001" = true ∧
    sampleFormat.casts "65a4f0c2e1b2c3d4e5f6a001" = true ∧
    ((((sampleServer .server "approved" "pending").db.getItem "leaves").getD []).find?
      (fun x => x.get "_id" == some (.str "65a4f0c2e1b2c3d4e5f6a001"))
      = some (sampleLeaveDoc "65a4f0c2e1b2c3d4e5f6a001" "approved")) ∧
    ∃ doc : Doc,
      (serve sampleFormat (sampleServer .server "approved" "pending")
          (statusUpdate "leaves" "65a4f0c2e1b2c3d4e5f6a001" "pending") sampleEnv).1
        = .json { status := 200, success := true, data := some (.doc doc) } ∧
      doc.get "status" = some (.str "pending") ∧
      (((serve sampleFormat (sampleServer .server "approved" "pending")
          (statusUpdate "leaves" "65a4f0c2e1b2c3d4e5f6a001" "pending")
          sampleEnv).2.db.getItem "leaves").getD []).find?
        (fun x => x.get "_id" == some (.str "65a4f0c2e1b2c3d4e5f6a001")) = some doc ∧
      (∀ (leave : Leave) (a : Action), a ∈ leaveActions leave →
        leave.status = "pending" ∧ a.id = leave._id ∧
        (a.status = "approved" ∨ a.status = "rejected")) ∧
      (∀ leave : Leave,
        (leave.status = "pending" → leaveActions leave
          = [{ label := "Approve", call := "updateLeaveStatus", id := leave._id,
               status := "approved" },
             { label := "Reject", call := "updateLeaveStatus", id := leave._id,
               status := "rejected" }]) ∧
        (leave.status ≠ "pending" → leaveActions leave = [])) :=
  ⟨by decide, by decide, by decide, by decide,
   leave_update_unguarded sampleFormat (sampleServer .server "approved" "pending")
    "65a4f0c2e1b2c3d4e5f6a001" "pending" sampleEnv
    (sampleLeaveDoc "65a4f0c2e1b2c3d4e5f6a001" "approved")
    (by decide) (by decide) (by decide) (by decide) (fun _ => Or.inl rfl)⟩

theorem reportActions_spec (report : Report) (a : Action) (ha : a ∈ reportActions report) :
    a.id = report._id ∧
    ((report.status = "pending" ∧ a.status = "in-progress") ∨
      (report.status = "in-progress" ∧ a.status = "resolved")) := by
  unfold reportActions at ha
  split at ha
  · rename_i hp
    simp only [List.mem_singleton] at ha
    subst ha
    exact ⟨rfl, Or.inl ⟨hp, rfl⟩⟩
  · split at ha
    · rename_i hp
      simp only [List.mem_singleton] at ha
      subst ha
      exact ⟨rfl, Or.inr ⟨hp, rfl⟩⟩
    · simp at ha

theorem reportActions_offered (report : Report) :
    (report.status = "pending" → reportActions report
      = [{ label := "Start Work", call := "updateReportStatus", id := report._id,
           status := "in-progress" }]) ∧
    (report.status = "in-progress" → reportActions report
      = [{ label := "Mark Resolved", call := "updateReportStatus", id := report._id,
           status := "resolved" }]) ∧
    (report.status ≠ "pending" → report.status ≠ "in-progress" →
      reportActions report = []) := by
  refine ⟨?_, ?_, ?_⟩
  · intro h; simp [reportActions, h]
  · intro h; simp [reportActions, h]
  · intro h1 h2; simp [reportActions, h1, h2]

/-- C13 (as amended): no update handler looks at the stored status.  For a stored report,
`PUT /api/reports/:id` with the body `{ status }` answers 200 and stores that status,
whatever the stored one was, for every text in src/api/index.js and for "pending",
"in-progress" and "resolved" in src/server.js.  Only the admin list restricts what it asks
for: `renderReports` offers "Start Work" (to "in-progress") on a pending report, "Mark
Resolved" (to "resolved") on one in progress, and nothing otherwise. -/
theorem report_update_unguarded (fmt : IdFormat) (srv : Server) (id status : String)
    (env : Env) (d : Doc) (hup : srv.dbUp = true) (hcasts : fmt.casts id = true)
    (hfound : ((srv.db.getItem "reports").getD []).find?
      (fun x => x.get "_id" == some (.str id)) = some d)
    (henum : srv.module = .server →
      status = "pending" ∨ status = "in-progress" ∨ status = "resolved") :
    ∃ doc : Doc,
      (serve fmt srv (statusUpdate "reports" id status) env).1
        = .json { status := 200, success := true, data := some (.doc doc) } ∧
      doc.get "status" = some (.str status) ∧
      (((serve fmt srv (statusUpdate "reports" id status) env).2.db.getItem
          "reports").getD []).find?
        (fun x => x.get "_id" == some (.str id)) = some doc ∧
      (∀ (report : Report) (a : Action), a ∈ reportActions report →
        a.id = report._id ∧
        ((report.status = "pending" ∧ a.status = "in-progress") ∨
          (report.status = "in-progress" ∧ a.status = "resolved"))) ∧
      (∀ report : Report,
        (report.status = "pending" → reportActions report
          = [{ label := "Start Work", call := "updateReportStatus", id := report._id,
               status := "in-progress" }]) ∧
        (report.status = "in-progress" → reportActions report
          = [{ label := "Mark Resolved", call := "updateReportStatus", id := report._id,
               status := "resolved" }]) ∧
        (report.status ≠ "pending" → report.status ≠ "in-progress" →
          reportActions report = [])) := by
  cases hm : srv.module
  · rcases henum hm with rfl | rfl | rfl
    · have hU := dbFindByIdAndUpdate_found fmt ServerJs.reportSchema true _ id
        (stampUpdates "reports" [("status", .str "pending")] env) env d hcasts
        (Or.inr rfl) hfound (reportSchema_no_clash _ _).1
      obtain ⟨s1, s2⟩ := stored_after srv.db "reports" id "pending" d
        (ServerJs.reportSchema.strict (stampUpdates "reports" [("status", .str "pending")] env)
          ++ (if ServerJs.reportSchema.timestamps then [("updatedAt", Json.str env.iso)]
            else []))
        _ hfound (by rfl) (by rfl)
      refine ⟨_, ?_, s1, ?_, reportActions_spec, reportActions_offered⟩
      · simp [serve, statusUpdate, Request.op, schemaOf, serverSchema, hasRoute,
          updateHandler, hm, hup, hU]
      · simpa [serve, statusUpdate, Request.op, schemaOf, serverSchema, hasRoute,
          updateHandler, hm, hup, hU] using s2
    · have hU := dbFindByIdAndUpdate_found fmt ServerJs.reportSchema true _ id
        (stampUpdates "reports" [("status", .str "in-progress")] env) env d hcasts
        (Or.inr rfl) hfound (reportSchema_no_clash _ _).1
      obtain ⟨s1, s2⟩ := stored_after srv.db "reports" id "in-progress" d
        (ServerJs.reportSchema.strict
            (stampUpdates "reports" [("status", .str "in-progress")] env)
          ++ (if ServerJs.reportSchema.timestamps then [("updatedAt", Json.str env.iso)]
            else []))
        _ hfound (by rfl) (by rfl)
      refine ⟨_, ?_, s1, ?_, reportActions_spec, reportActions_offered⟩
      · simp [serve, statusUpdate, Request.op, schemaOf, serverSchema, hasRoute,
          updateHandler, hm, hup, hU]
      · simpa [serve, statusUpdate, Request.op, schemaOf, serverSchema, hasRoute,
          updateHandler, hm, hup, hU] using s2
    · have hU := dbFindByIdAndUpdate_found fmt ServerJs.reportSchema true _ id
        (stampUpdates "reports" [("status", .str "resolved")] env) env d hcasts
        (Or.inr rfl) hfound (reportSchema_no_clash _ _).1
      obtain ⟨s1, s2⟩ := stored_after srv.db "reports" id "resolved" d
        (ServerJs.reportSchema.strict (stampUpdates "reports" [("status", .str "resolved")] env)
          ++ (if ServerJs.reportSchema.timestamps then [("updatedAt", Json.str env.iso)]
            else []))
        _ hfound (by rfl) (by rfl)
      refine ⟨_, ?_, s1, ?_, reportActions_spec, reportActions_offered⟩
      · simp [serve, statusUpdate, Request.op, schemaOf, serverSchema, hasRoute,
          updateHandler, hm, hup, hU]
      · simpa [serve, statusUpdate, Request.op, schemaOf, serverSchema, hasRoute,
          updateHandler, hm, hup, hU] using s2
  · have hU := dbFindByIdAndUpdate_found fmt ApiIndex.reportSchema false _ id
      [("status", .str status)] env d hcasts (Or.inl rfl) hfound (reportSchema_no_clash _ _).2
    obtain ⟨s1, s2⟩ := stored_after srv.db "reports" id status d
      (ApiIndex.reportSchema.strict [("status", .str status)] ++
        (if ApiIndex.reportSchema.timestamps then [("updatedAt", Json.str env.iso)] else []))
      _ hfound (by rfl) (by rfl)
    refine ⟨_, ?_, s1, ?_, reportActions_spec, reportActions_offered⟩
    · simp [serve, statusUpdate, Request.op, schemaOf, apiSchema, hasRoute,
        updateHandler, hm, hup, hU]
    · simpa [serve, statusUpdate, Request.op, schemaOf, apiSchema, hasRoute,
        updateHandler, hm, hup, hU] using s2

/-- C13 as amended, for the resolved sample report asked back to "pending" in
src/server.js. -/
theorem report_update_unguarded_witness :
    (sampleServer .server "pending" "resolved").dbUp = true ∧
    sampleFormat.casts "65a4f0c2e1b2c3d4e5f6b001" = true ∧
    ((((sampleServer .server "pending" "resolved").db.getItem "reports").getD []).find?
      (fun x => x.get "_id" == some (.str "65a4f0c2e1b2c3d4e5f6b001"))
      = some (sampleReportDoc "65a4f0c2e1b2c3d4e5f6b001" "resolved")) ∧
    ∃ doc : Doc,
      (serve sampleFormat (sampleServer .server "pending" "resolved")
          (statusUpdate "reports" "65a4f0c2e1b2c3d4e5f6b001" "pending") sampleEnv).1
        = .json { status := 200, success := true, data := some (.doc doc) } ∧
      doc.get "status" = some (.str "pending") ∧
      (((serve sampleFormat (sampleServer .server "pending" "resolved")
          (statusUpdate "reports" "65a4f0c2e1b2c3d4e5f6b001" "pending")
          sampleEnv).2.db.getItem "reports").getD []).find?
        (fun x => x.get "_id" == some (.str "65a4f0c2e1b2c3d4e5f6b001")) = some doc ∧
      (∀ (report : Report) (a : Action), a ∈ reportActions report →
        a.id = report._id ∧
        ((report.status = "pending" ∧ a.status = "in-progress") ∨
          (report.status = "in-progress" ∧ a.status = "resolved"))) ∧
      (∀ report : Report,
        (report.status = "pending" → reportActions report
          = [{ label := "Start Work", call := "updateReportStatus", id := report._id,
               status := "in-progress" }]) ∧
        (report.status = "in-progress" → reportActions report
          = [{ label := "Mark Resolved", call := "updateReportStatus", id := report._id,
               status := "resolved" }]) ∧
        (report.status ≠ "pending" → report.status ≠ "in-progress" →
          reportActions report = [])) :=
  ⟨by decide, by decide, by decide,
   report_update_unguarded sampleFormat (sampleServer .server "pending" "resolved")
    "65a4f0c2e1b2c3d4e5f6b001" "pending" sampleEnv
    (sampleReportDoc "65a4f0c2e1b2c3d4e5f6b001" "resolved")
    (by decide) (by decide) (by decide) (fun _ => Or.inl rfl)⟩

/-- C15 (as amended): every JSON answer of the CRUD routes is either a failure
`{ success: false, error }` with a status between 400 and 599 and no `data`, or a success
with status 200 or 201, no `error`, and a `data` property, except that a successful delete
in src/server.js carries a `message` instead of `data`. -/
theorem reply_envelope (fmt : IdFormat) (srv : Server) (req : Request) (env : Env)
    (reply : Reply) (h : (serve fmt srv req env).1 = .json reply) :
    (reply.success = false →
      400 ≤ reply.status ∧ reply.status ≤ 599 ∧ reply.error.isSome ∧
      reply.data = none) ∧
    (reply.success = true →
      (reply.status = 200 ∨ reply.status = 201) ∧ reply.error = none ∧
      (reply.data.isSome ∨
        (srv.module = .server ∧ req.op = some .delete ∧ reply.message.isSome))) := by
  unfold serve at h
  split at h
  · rename_i op schema hop hschema
    split at h
    · cases op
      · simp only [Answer.json.injEq] at h
        subst h
        obtain ⟨h1, h2⟩ := listHandler_envelope srv req.endpoint
        exact ⟨h1, fun hs => ⟨Or.inl (h2 hs).1, (h2 hs).2.1, Or.inl (h2 hs).2.2⟩⟩
      · simp only [Answer.json.injEq] at h
        subst h
        obtain ⟨h1, h2⟩ := createHandler_envelope srv schema req.endpoint req.body env
        exact ⟨h1, fun hs => ⟨(h2 hs).1, (h2 hs).2.1, Or.inl (h2 hs).2.2⟩⟩
      · simp only [Answer.json.injEq] at h
        subst h
        obtain ⟨h1, h2⟩ := updateHandler_envelope fmt srv schema req.endpoint
          (req.id.getD "") req.body env
        exact ⟨h1, fun hs => ⟨Or.inl (h2 hs).1, (h2 hs).2.1, Or.inl (h2 hs).2.2⟩⟩
      · simp only [Answer.json.injEq] at h
        subst h
        obtain ⟨h1, h2⟩ := deleteHandler_envelope fmt srv req.endpoint (req.id.getD "")
        refine ⟨h1, fun hs => ⟨Or.inl (h2 hs).1, (h2 hs).2.1, ?_⟩⟩
        rcases (h2 hs).2.2 with hd | ⟨hm, hmsg⟩
        · exact Or.inl hd
        · exact Or.inr ⟨hm, hop, hmsg⟩
    · split at h
      · simp only [Answer.json.injEq] at h
        subst h
        simp [failure]
      · simp at h
  · split at h
    · simp only [Answer.json.injEq] at h
      subst h
      simp [failure]
    · simp at h

/-- C15 as amended, for the delete of the stored student in src/server.js. -/
theorem reply_envelope_witness :
    (serve sampleFormat (sampleServer .server "pending" "pending") sampleDeleteStudent
        sampleEnv).1
      = .json { status := 200, success := true,
                message := some "Student deleted successfully" } ∧
    (true = false → 400 ≤ 200 ∧ 200 ≤ 599 ∧ (none : Option String).isSome
      ∧ (none : Option Payload) = none) ∧
    (true = true →
      (200 = 200 ∨ 200 = 201) ∧ (none : Option String) = none ∧
      ((none : Option Payload).isSome ∨
        ((sampleServer .server "pending" "pending").module = .server ∧
          sampleDeleteStudent.op = some .delete ∧
          (some "Student deleted successfully").isSome))) :=
  ⟨by decide,
   reply_envelope sampleFormat (sampleServer .server "pending" "pending") sampleDeleteStudent
    sampleEnv
    { status := 200, success := true, message := some "Student deleted successfully" }
    (by decide)⟩

theorem textOf_eq_pending (v : Option Json) :
    (textOf v == "pending") = (v == some (.str "pending")) := by
  cases v with
  | none => rfl
  | some j =>
    cases j with
    | null => rfl
    | bool b => rfl
    | num n => rfl
    | str s =>
      by_cases h : s = "pending"
      · subst h; rfl
      · have h1 : (textOf (some (Json.str s)) == "pending") = false := by
          simpa [textOf] using h
        have h2 : (some (Json.str s) == some (Json.str "pending")) = false := by
          simpa using h
        rw [h1, h2]

theorem pendingLeaves_ofDoc (docs : List Doc) :
    pendingLeaves (docs.map Leave.ofDoc)
      = (docs.filter (fun d => d.get "status" == some (.str "pending"))).length := by
  unfold pendingLeaves
  rw [List.filter_map, List.length_map]
  congr 1
  apply List.filter_congr
  intro d _
  exact textOf_eq_pending (d.get "status")

theorem statsHandler_data (srv : Server) (hup : srv.dbUp = true) :
    ∃ data : Doc,
      statsHandler srv = { status := 200, success := true, data := some (.doc data) } ∧
      data.get "totalStudents" = some (.num ((srv.db.getItem "students").getD []).length) ∧
      data.get "totalFeedback" = some (.num ((srv.db.getItem "feedback").getD []).length) ∧
      data.get "pendingLeaves" = some (.num (((srv.db.getItem "leaves").getD []).filter
        (fun d => d.get "status" == some (.str "pending"))).length) ∧
      data.get "totalReports" = some (.num ((srv.db.getItem "reports").getD []).length) ∧
      data.map (fun kv => kv.1) = ["totalStudents", "totalFeedback", "totalLeaves",
        "pendingLeaves", "totalReports", "pendingReports", "overallRating"] := by
  simp only [statsHandler, hup]
  exact ⟨_, rfl, rfl, rfl, rfl, rfl, rfl⟩

/-- C19: on one snapshot of the Student, Feedback, Leave and Report collections, the
`totalStudents`, `totalFeedback`, `pendingLeaves` and `totalReports` that `/api/stats`
returns are those `updateStats` computes, and the handler's `data` has exactly the seven
properties `totalStudents`, `totalFeedback`, `totalLeaves`, `pendingLeaves`,
`totalReports`, `pendingReports`, `overallRating`. -/
theorem stats_agree (srv : Server) (s : AppState) (today : String)
    (hup : srv.dbUp = true)
    (hStudents : s.studentData = ((srv.db.getItem "students").getD []).map Student.ofDoc)
    (hFeedback : s.feedbackData = ((srv.db.getItem "feedback").getD []).map Feedback.ofDoc)
    (hLeaves : s.leaveData = ((srv.db.getItem "leaves").getD []).map Leave.ofDoc)
    (hReports : s.reportData = ((srv.db.getItem "reports").getD []).map Report.ofDoc) :
    ∃ (st : Stats) (data : Doc),
      computeStats s today = some st ∧
      statsHandler srv = { status := 200, success := true, data := some (.doc data) } ∧
      data.get "totalStudents" = some (.num st.totalStudents) ∧
      data.get "totalFeedback" = some (.num st.totalFeedback) ∧
      data.get "pendingLeaves" = some (.num st.pendingLeaves) ∧
      data.get "totalReports" = some (.num st.totalReports) ∧
      data.map (fun kv => kv.1) = ["totalStudents", "totalFeedback", "totalLeaves",
        "pendingLeaves", "totalReports", "pendingReports", "overallRating"] := by
  obtain ⟨ro, ar, av, -, -, -, h⟩ := computeStats_eq s today
  obtain ⟨data, h0, h1, h2, h3, h4, h5⟩ := statsHandler_data srv hup
  refine ⟨_, data, h, h0, ?_, ?_, ?_, ?_, h5⟩
  · rw [h1, hStudents, List.length_map]
  · rw [h2, hFeedback, List.length_map]
  · rw [h3, hLeaves, pendingLeaves_ofDoc]
  · rw [h4, hReports, List.length_map]

/-- C19, at the sample server and the front-end state loaded from it. -/
theorem stats_agree_witness :
    sampleStatsServer.dbUp = true ∧
    ∃ (st : Stats) (data : Doc),
      computeStats sampleStatsState "2024-01-15" = some st ∧
      statsHandler sampleStatsServer
        = { status := 200, success := true, data := some (.doc data) } ∧
      data.get "totalStudents" = some (.num st.totalStudents) ∧
      data.get "totalFeedback" = some (.num st.totalFeedback) ∧
      data.get "pendingLeaves" = some (.num st.pendingLeaves) ∧
      data.get "totalReports" = some (.num st.totalReports) ∧
      data.map (fun kv => kv.1) = ["totalStudents", "totalFeedback", "totalLeaves",
        "pendingLeaves", "totalReports", "pendingReports", "overallRating"] :=
  ⟨by decide, stats_agree sampleStatsServer sampleStatsState "2024-01-15" (by decide)
    rfl rfl rfl rfl⟩

/-- C14 fails as stated, in both halves.  The class `MongoDBService` defines no
`updateVisitor`, so `markVisitorExit` on a visiting visitor rejects with a TypeError and
the stored visitor is still "visiting" with no `exitTime`.  And src/api/index.js answers
`PUT /api/visitors/:id` with `{ exitTime: null, status: "visiting" }` on a visitor who has
left by storing both: the status is "visiting" again and the exit time is gone. -/
theorem visitor_exit_undone :
    (updateMethods.lookup "updateVisitor" = none ∧
      (markVisitorExit sampleFormat sampleWorldOffline [sampleVisitor] "1705312800042"
          sampleEnv).thrown
        = some "TypeError: MongoDBService.updateVisitor is not a function" ∧
      (markVisitorExit sampleFormat sampleWorldOffline [sampleVisitor] "1705312800042"
          sampleEnv).state.1 = sampleWorldOffline ∧
      (sampleWorldOffline.localStorage.getItem "db_visitors").map
          (fun docs => docs.map (fun d => (d.get "status", d.get "exitTime")))
        = some [(some (.str "visiting"), none)]) ∧
    ((sampleVisitorServer "left" (.str "2024-01-15T09:30:00.000Z")).db.getItem "visitors").map
        (fun docs => docs.map (fun d => (d.get "status", d.get "exitTime")))
      = some [(some (.str "left"), some (.str "2024-01-15T09:30:00.000Z"))] ∧
    ((serve sampleFormat (sampleVisitorServer "left" (.str "2024-01-15T09:30:00.000Z"))
        (exitUpdate "65a4f0c2e1b2c3d4e5f6d001" .null "visiting")
        sampleEnv).2.db.getItem "visitors").map
        (fun docs => docs.map (fun d => (d.get "status", d.get "exitTime")))
      = some [(some (.str "visiting"), some .null)] := by
  refine ⟨⟨by decide, by decide, by decide, by decide⟩, by decide, by decide⟩

theorem visitorSchema_no_clash (others : List Doc) (doc : Doc) :
    ApiIndex.visitorSchema.clashes others doc = false := by
  simp [Schema.clashes, ApiIndex.visitorSchema, reqString, optString, dateNow, dateNull]

theorem visitorActions_spec (visitor : Visitor) (a : Action) (ha : a ∈ visitorActions visitor) :
    visitor.status = "visiting" ∧ a.id = visitor._id ∧ a.call = "markVisitorExit" := by
  unfold visitorActions at ha
  split at ha
  · rename_i hp
    simp only [List.mem_singleton] at ha
    subst ha
    exact ⟨hp, rfl, rfl⟩
  · simp at ha

theorem visitorActions_offered (visitor : Visitor) :
    (visitor.status = "visiting" → visitorActions visitor
      = [{ label := "Mark Exit", call := "markVisitorExit", id := visitor._id,
           status := "left" }]) ∧
    (visitor.status ≠ "visiting" → visitorActions visitor = []) := by
  constructor
  · intro h; simp [visitorActions, h]
  · intro h; simp [visitorActions, h]

theorem exit_stored (db : Store) (id status : String) (exit : Json) (d upd : Doc)
    (docs : List Doc)
    (hf : docs.find? (fun x => x.get "_id" == some (.str id)) = some d)
    (h1 : upd.get "_id" = none) (h2 : upd.get "status" = some (.str status))
    (h3 : upd.get "exitTime" = some exit) :
    (Doc.spread d upd).get "status" = some (.str status) ∧
    (Doc.spread d upd).get "exitTime" = some exit ∧
    (((db.setItem "visitors" (replaceById id (Doc.spread d upd) docs)).getItem "visitors").getD
      []).find? (fun x => x.get "_id" == some (.str id)) = some (Doc.spread d upd) := by
  obtain ⟨s1, s2⟩ := stored_after db "visitors" id status d upd docs hf h1 h2
  refine ⟨s1, ?_, s2⟩
  rw [Doc.get_spread, h3]; rfl

/-- C14 (as amended): `renderVisitorRecords` offers Mark Exit on a visiting visitor and
nothing on any other.  The store does not guard the transition: for a stored visitor,
`PUT /api/visitors/:id` of src/api/index.js with the body `{ exitTime, status }`
(`exitTime` null or a date) answers 200 and stores both, whatever the stored ones were. -/
theorem visitor_exit_unguarded (fmt : IdFormat) (srv : Server) (env : Env)
    (id status : String) (exit : Json) (d : Doc)
    (hmod : srv.module = .apiIndex) (hup : srv.dbUp = true) (hcasts : fmt.casts id = true)
    (hfound : ((srv.db.getItem "visitors").getD []).find?
      (fun x => x.get "_id" == some (.str id)) = some d)
    (hexit : exit = .null ∨ exit = .str env.iso) :
    (∀ (visitor : Visitor) (a : Action), a ∈ visitorActions visitor →
      visitor.status = "visiting" ∧ a.id = visitor._id ∧ a.call = "markVisitorExit") ∧
    (∀ visitor : Visitor,
      (visitor.status = "visiting" → visitorActions visitor
        = [{ label := "Mark Exit", call := "markVisitorExit", id := visitor._id,
             status := "left" }]) ∧
      (visitor.status ≠ "visiting" → visitorActions visitor = [])) ∧
    ∃ doc : Doc,
      (serve fmt srv (exitUpdate id exit status) env).1
        = .json { status := 200, success := true, data := some (.doc doc) } ∧
      doc.get "status" = some (.str status) ∧
      doc.get "exitTime" = some exit ∧
      (((serve fmt srv (exitUpdate id exit status) env).2.db.getItem "visitors").getD []).find?
        (fun x => x.get "_id" == some (.str id)) = some doc := by
  refine ⟨visitorActions_spec, visitorActions_offered, ?_⟩
  have hU := dbFindByIdAndUpdate_found fmt ApiIndex.visitorSchema false _ id
    [("exitTime", exit), ("status", .str status)] env d hcasts (Or.inl rfl) hfound
    (visitorSchema_no_clash _ _)
  have key : ∀ e : Json, e = exit →
      (ApiIndex.visitorSchema.strict [("exitTime", e), ("status", Json.str status)] ++
        (if ApiIndex.visitorSchema.timestamps then [("updatedAt", Json.str env.iso)]
          else [])).get "exitTime" = some exit := by
    intro e he
    subst he
    rfl
  obtain ⟨s1, s2, s3⟩ := exit_stored srv.db id status exit d
    (ApiIndex.visitorSchema.strict [("exitTime", exit), ("status", .str status)] ++
      (if ApiIndex.visitorSchema.timestamps then [("updatedAt", Json.str env.iso)] else []))
    _ hfound (by rfl) (by rfl)
    (by rcases hexit with h | h
        · exact key exit rfl
        · exact key exit rfl)
  refine ⟨_, ?_, s1, s2, ?_⟩
  · simp [serve, exitUpdate, Request.op, schemaOf, apiSchema, hasRoute,
      updateHandler, hmod, hup, hU]
  · simpa [serve, exitUpdate, Request.op, schemaOf, apiSchema, hasRoute,
      updateHandler, hmod, hup, hU] using s3

/-- C14 as amended, for the stored visitor who has left asked back to "visiting". -/
theorem visitor_exit_unguarded_witness :
    (sampleVisitorServer "left" (.str "2024-01-15T09:30:00.000Z")).module = .apiIndex ∧
    (sampleVisitorServer "left" (.str "2024-01-15T09:30:00.000Z")).dbUp = true ∧
    sampleFormat.casts "65a4f0c2e1b2c3d4e5f6d001" = true ∧
    visitorActions sampleVisitor
      = [{ label := "Mark Exit", call := "markVisitorExit", id := "1705312800042",
           status := "left" }] ∧
    ((∀ (visitor : Visitor) (a : Action), a ∈ visitorActions visitor →
      visitor.status = "visiting" ∧ a.id = visitor._id ∧ a.call = "markVisitorExit") ∧
    (∀ visitor : Visitor,
      (visitor.status = "visiting" → visitorActions visitor
        = [{ label := "Mark Exit", call := "markVisitorExit", id := visitor._id,
             status := "left" }]) ∧
      (visitor.status ≠ "visiting" → visitorActions visitor = [])) ∧
    ∃ doc : Doc,
      (serve sampleFormat (sampleVisitorServer "left" (.str "2024-01-15T09:30:00.000Z"))
          (exitUpdate "65a4f0c2e1b2c3d4e5f6d001" .null "visiting") sampleEnv).1
        = .json { status := 200, success := true, data := some (.doc doc) } ∧
      doc.get "status" = some (.str "visiting") ∧
      doc.get "exitTime" = some .null ∧
      (((serve sampleFormat (sampleVisitorServer "left" (.str "2024-01-15T09:30:00.000Z"))
          (exitUpdate "65a4f0c2e1b2c3d4e5f6d001" .null "visiting")
          sampleEnv).2.db.getItem "visitors").getD []).find?
        (fun x => x.get "_id" == some (.str "65a4f0c2e1b2c3d4e5f6d001")) = some doc) :=
  ⟨by decide, by decide, by decide, by decide,
   visitor_exit_unguarded sampleFormat
    (sampleVisitorServer "left" (.str "2024-01-15T09:30:00.000Z")) sampleEnv
    "65a4f0c2e1b2c3d4e5f6d001" "visiting" .null
    (sampleVisitorDoc "65a4f0c2e1b2c3d4e5f6d001" "left" (.str "2024-01-15T09:30:00.000Z"))
    (by decide) (by decide) (by decide) (by decide) (Or.inl rfl)⟩

/-! ## Where the status codes of the specification do hold -/

/-- With no reachable server every request goes to `localStorage`, and there the update
of `updateLeaveStatus` is applied: the sample leave comes back "approved" and
`pendingLeaves` drops from 1 to 0. -/
theorem updateLeaveStatus_local_example :
    pendingLeaves sampleStateLocal.leaveData = 1 ∧
    (updateLeaveStatus sampleFormat sampleWorldLocal sampleStateLocal "1705312800001"
        "approved" sampleEnv "2024-01-15").map
      (fun r => (r.thrown, r.state.2.leaveData.map (fun leave => (leave._id, leave.status)),
        pendingLeaves r.state.2.leaveData))
      = some (none, [("1705312800001", "approved")], 0) := by
  refine ⟨by decide, by decide⟩

/-- In src/server.js a delete whose id casts but matches no document is answered 404 and
changes nothing. -/
theorem server_delete_not_found (fmt : IdFormat) (srv : Server) (endpoint id : String)
    (hm : srv.module = .server) (hup : srv.dbUp = true) (hcasts : fmt.casts id = true)
    (hnone : ((srv.db.getItem endpoint).getD []).find?
      (fun x => x.get "_id" == some (.str id)) = none) :
    deleteHandler fmt srv endpoint id
      = (failure 404 (entityName endpoint ++ " not found"), srv) := by
  simp [deleteHandler, dbFindByIdAndDelete, hm, hup, hcasts, hnone]

/-- In src/server.js the update of a leave checks the id first: an id that is not valid is
answered 400 and changes nothing. -/
theorem server_leave_update_invalid_id (fmt : IdFormat) (srv : Server) (schema : Schema)
    (id : String) (body : Doc) (env : Env) (hm : srv.module = .server)
    (hinvalid : fmt.isValid id = false) :
    updateHandler fmt srv schema "leaves" id body env
      = (failure 400 "Invalid leave ID format", srv) := by
  simp [updateHandler, hm, hinvalid]

/-- In src/api/index.js every error of an update, a delete or a create is answered 400. -/
theorem api_errors_answered_400 (fmt : IdFormat) (srv : Server) (schema : Schema)
    (endpoint id : String) (body : Doc) (env : Env) (hm : srv.module = .apiIndex) :
    ((updateHandler fmt srv schema endpoint id body env).1.success = false →
      (updateHandler fmt srv schema endpoint id body env).1.status = 400) ∧
    ((deleteHandler fmt srv endpoint id).1.success = false →
      (deleteHandler fmt srv endpoint id).1.status = 400) ∧
    ((createHandler srv schema endpoint body env).1.success = false →
      (createHandler srv schema endpoint body env).1.status = 400) := by
  refine ⟨?_, ?_, ?_⟩
  · unfold updateHandler failure
    simp only [hm]
    split <;> simp
  · unfold deleteHandler failure
    simp only [hm]
    split <;> simp
  · unfold createHandler failure
    simp only [hm]
    split <;> simp

/-! ## The local-storage store: updates and creates -/

theorem lookup_of_mem_nodup (l : Doc) (hl : (l.map Prod.fst).Nodup) (kv : String × Json)
    (h : kv ∈ l) : List.lookup kv.1 l = some kv.2 := by
  induction l with
  | nil => simp at h
  | cons x xs ih =>
    obtain ⟨a, b⟩ := x
    simp only [List.map_cons, List.nodup_cons] at hl
    rcases List.mem_cons.mp h with h | h
    · subst h; simp [List.lookup]
    · have hne : kv.1 ≠ a := by
        intro he
        apply hl.1
        rw [← he]
        exact List.mem_map_of_mem Prod.fst h
      have hb : (kv.1 == a) = false := by simpa using hne
      simp only [List.lookup, hb]
      exact ih hl.2 h

theorem lookup_isSome_of_mem (l : Doc) (kv : String × Json) (h : kv ∈ l) :
    (List.lookup kv.1 l).isSome = true := by
  induction l with
  | nil => simp at h
  | cons x xs ih =>
    obtain ⟨a, b⟩ := x
    by_cases hk : kv.1 = a
    · simp [List.lookup, hk]
    · have hb : (kv.1 == a) = false := by simpa using hk
      rcases List.mem_cons.mp h with h | h
      · subst h; simp at hk
      · simp only [List.lookup, hb]
        exact ih h

/-- Spreading the same well-formed object twice is spreading it once. -/
theorem Doc.spread_spread (item data : Doc) (hd : (data.map Prod.fst).Nodup) :
    Doc.spread (Doc.spread item data) data = Doc.spread item data := by
  have h3 : data.filter (fun kv => ((Doc.spread item data).lookup kv.1).isNone) = [] := by
    rw [List.filter_eq_nil_iff]
    intro kv hkv
    have h1 := Doc.get_spread item data kv.1
    unfold Doc.get at h1
    have h2 := lookup_isSome_of_mem data kv hkv
    rw [h1]
    cases hl : List.lookup kv.1 data with
    | none => rw [hl] at h2; simp at h2
    | some v => simp
  have h1 : (item.map (fun kv => (kv.1, (data.lookup kv.1).getD kv.2))).map
      (fun kv => (kv.1, (data.lookup kv.1).getD kv.2))
      = item.map (fun kv => (kv.1, (data.lookup kv.1).getD kv.2)) := by
    rw [List.map_map]
    apply List.map_congr_left
    intro kv _
    simp only [Function.comp_apply]
    cases hl : List.lookup kv.1 data <;> simp
  have h2 : (data.filter (fun kv => (item.lookup kv.1).isNone)).map
      (fun kv => (kv.1, (data.lookup kv.1).getD kv.2))
      = data.filter (fun kv => (item.lookup kv.1).isNone) := by
    conv_rhs => rw [← List.map_id (data.filter (fun kv => (item.lookup kv.1).isNone))]
    apply List.map_congr_left
    intro kv hkv
    have := lookup_of_mem_nodup data hd kv (List.mem_of_mem_filter hkv)
    rw [this]
    rfl
  show (item.map _ ++ data.filter _).map _ ++ data.filter _ = _
  rw [h3, List.append_nil, List.map_append, h1, h2]
  rfl

theorem Store.getItem_setItem_ne (st : Store) (key other : String) (items : List Doc)
    (h : other ≠ key) : (st.setItem key items).getItem other = st.getItem other := by
  have hb : (other == key) = false := by simpa using h
  unfold Store.getItem Store.setItem
  simp only [List.lookup, hb]
  induction st with
  | nil => rfl
  | cons x xs ih =>
    obtain ⟨a, b⟩ := x
    by_cases ha : a = key
    · subst ha
      have hf : (a != a) = false := by simp
      simp only [List.filter, hf, List.lookup, hb]
      exact ih
    · have hf : (a != key) = true := by simpa using ha
      by_cases hoa : other = a
      · subst hoa
        simp [List.filter, hf, List.lookup]
      · have hb2 : (other == a) = false := by simpa using hoa
        simp only [List.filter, hf, List.lookup, hb2]
        exact ih

theorem Store.setItem_setItem (st : Store) (key : String) (a b : List Doc) :
    (st.setItem key a).setItem key b = st.setItem key b := by
  unfold Store.setItem
  simp [List.filter_filter]

theorem put_item_twice (data item : Doc) (hd : (data.map Prod.fst).Nodup) :
    (fun item : Doc => if item.get "_id" = data.get "_id" then Doc.spread item data else item)
      (if item.get "_id" = data.get "_id" then Doc.spread item data else item)
    = (if item.get "_id" = data.get "_id" then Doc.spread item data else item) := by
  by_cases h : item.get "_id" = data.get "_id"
  · have h2 : (Doc.spread item data).get "_id" = data.get "_id" := by
      rw [Doc.get_spread]
      cases hx : data.get "_id" with
      | none => rw [hx] at h; simpa using h
      | some v => rfl
    simp only [h, if_true, h2]
    exact Doc.spread_spread item data hd
  · simp only [h, if_false]

/-- C26: a local-storage `PUT` rewrites the list under its key item by item: the length and
the positions are kept, an item whose `_id` differs from `data._id` is unchanged, an item
whose `_id` equals it gets every property of `data` and keeps its other properties; the
lists under other keys are untouched; and the same `PUT` applied again changes nothing
(`data` being an object, its property names are distinct). -/
theorem localStorage_put_frame (ls : Store) (endpoint : String) (data : Doc) (now later : Nat) :
    (∃ updated : List Doc,
      (localStorageFallback ls endpoint .PUT data now).2.getItem ("db_" ++ endpoint)
        = some updated ∧
      updated.length = ((ls.getItem ("db_" ++ endpoint)).getD []).length ∧
      (∀ (i : Nat) (item : Doc), ((ls.getItem ("db_" ++ endpoint)).getD [])[i]? = some item →
        (item.get "_id" ≠ data.get "_id" → updated[i]? = some item) ∧
        (item.get "_id" = data.get "_id" →
          ∃ merged : Doc, updated[i]? = some merged ∧
            ∀ k, merged.get k = (data.get k).orElse (fun _ => item.get k)))) ∧
    (∀ key, key ≠ "db_" ++ endpoint →
      (localStorageFallback ls endpoint .PUT data now).2.getItem key = ls.getItem key) ∧
    ((data.map Prod.fst).Nodup →
      (localStorageFallback (localStorageFallback ls endpoint .PUT data now).2 endpoint .PUT
          data later).2
        = (localStorageFallback ls endpoint .PUT data now).2) := by
  refine ⟨⟨_, Store.getItem_setItem _ _ _, List.length_map _ _, ?_⟩, ?_, ?_⟩
  · intro i item hi
    constructor
    · intro hne
      rw [List.getElem?_map, hi]
      simp [hne]
    · intro heq
      refine ⟨Doc.spread item data, ?_, fun k => Doc.get_spread item data k⟩
      rw [List.getElem?_map, hi]
      simp [heq]
  · intro key hkey
    exact Store.getItem_setItem_ne _ _ _ _ hkey
  · intro hkeys
    simp only [localStorageFallback, Store.getItem_setItem, Option.getD_some,
      Store.setItem_setItem, List.map_map]
    congr 1
    apply List.map_congr_left
    intro item _
    exact put_item_twice data item hkeys

/-- C26, approving the stored sample leave twice. -/
theorem localStorage_put_frame_witness :
    (sampleApprove.map Prod.fst).Nodup ∧
    ((localStorageFallback sampleWorldLocal.localStorage "leaves" .PUT sampleApprove
        1705312800500).2.getItem "db_leaves").map
        (fun items => items.map (fun d => (d.get "_id", d.get "status", d.get "user")))
      = some [(some (.str "1705312800001"), some (.str "approved"), some (.str "Arun"))] ∧
    (localStorageFallback (localStorageFallback sampleWorldLocal.localStorage "leaves" .PUT
        sampleApprove 1705312800500).2 "leaves" .PUT sampleApprove 1705312800900).2
      = (localStorageFallback sampleWorldLocal.localStorage "leaves" .PUT sampleApprove
        1705312800500).2 :=
  ⟨by decide, by decide,
   (localStorage_put_frame sampleWorldLocal.localStorage "leaves" sampleApprove 1705312800500
    1705312800900).2.2 (by decide)⟩

theorem toDigitsCore_append (fuel : Nat) : ∀ (n : Nat) (ds : List Char),
    Nat.toDigitsCore 10 fuel n ds = Nat.toDigitsCore 10 fuel n [] ++ ds := by
  induction fuel with
  | zero => intro n ds; simp [Nat.toDigitsCore]
  | succ f ih =>
    intro n ds
    simp only [Nat.toDigitsCore]
    split
    · simp
    · rw [ih (n / 10) (Nat.digitChar (n % 10) :: ds), ih (n / 10) [Nat.digitChar (n % 10)]]
      simp

theorem digitChar_value (k : Nat) (hk : k < 10) : (Nat.digitChar k).toNat - 48 = k := by
  interval_cases k <;> decide

theorem digitsValue_append (xs : List Char) (c : Char) :
    digitsValue (xs ++ [c]) = 10 * digitsValue xs + (c.toNat - 48) := by
  simp [digitsValue, List.foldl_append]

theorem digitsValue_toDigitsCore (fuel : Nat) : ∀ n : Nat, n < fuel →
    digitsValue (Nat.toDigitsCore 10 fuel n []) = n := by
  induction fuel with
  | zero => intro n h; omega
  | succ f ih =>
    intro n h
    simp only [Nat.toDigitsCore]
    split
    · rename_i h0
      have : n % 10 = n := by omega
      rw [this]
      have hn : n < 10 := by omega
      simp [digitsValue, digitChar_value n hn]
    · rename_i h0
      rw [toDigitsCore_append, digitsValue_append, ih (n / 10) (by omega),
        digitChar_value (n % 10) (Nat.mod_lt _ (by decide))]
      omega

/-- The decimal text of a number determines the number. -/
theorem toString_nat_injective (a b : Nat) (h : toString a = toString b) : a = b := by
  have h1 : Nat.toDigits 10 a = Nat.toDigits 10 b := by
    have := congrArg String.data h
    simpa [toString, Nat.repr, List.asString] using this
  have ha := digitsValue_toDigitsCore (a + 1) a (Nat.lt_succ_self a)
  have hb := digitsValue_toDigitsCore (b + 1) b (Nat.lt_succ_self b)
  unfold Nat.toDigits at h1
  rw [h1] at ha
  omega


theorem createAll_items (endpoint : String) (reqs : List (Doc × Nat)) : ∀ ls : Store,
    ((createAll ls endpoint reqs).getItem ("db_" ++ endpoint)).getD []
      = (ls.getItem ("db_" ++ endpoint)).getD []
        ++ reqs.map (fun r => Doc.spread r.1 [("_id", .str (toString r.2))]) := by
  induction reqs with
  | nil => intro ls; simp [createAll]
  | cons r rest ih =>
    intro ls
    obtain ⟨data, now⟩ := r
    simp only [createAll]
    rw [ih]
    simp [localStorageFallback, Store.getItem_setItem]

theorem created_id (data : Doc) (now : Nat) :
    (Doc.spread data [("_id", .str (toString now))]).get "_id" = some (.str (toString now)) := by
  rw [Doc.get_spread]; rfl

/-- C27 fails as stated: two creates in the same millisecond get the same `_id`. -/
theorem same_millisecond_same_id :
    (((createAll [] "students" sampleSameMillisecond).getItem "db_students").getD []).map
        (fun d => d.get "_id")
      = [some (.str "1705312800000"), some (.str "1705312800000")] ∧
    ¬ ((((createAll [] "students" sampleSameMillisecond).getItem "db_students").getD []).map
        (fun d => d.get "_id")).Nodup := by
  refine ⟨by decide, by decide⟩

/-- C27 (as amended): creates under one key at pairwise distinct clock readings, none of
whose decimal texts is already an `_id` of the list, keep the `_id` values pairwise
distinct: the list grows by one document per create, whose `_id` is the decimal text of
the clock reading of that create, whatever `_id` the caller supplied. -/
theorem creates_distinct_ids (ls : Store) (endpoint : String) (reqs : List (Doc × Nat))
    (hstart : (((ls.getItem ("db_" ++ endpoint)).getD []).map (fun d => d.get "_id")).Nodup)
    (hclock : (reqs.map Prod.snd).Nodup)
    (hfresh : ∀ r ∈ reqs, ∀ item ∈ (ls.getItem ("db_" ++ endpoint)).getD [],
      item.get "_id" ≠ some (.str (toString r.2))) :
    ∃ created : List Doc,
      ((createAll ls endpoint reqs).getItem ("db_" ++ endpoint)).getD []
        = (ls.getItem ("db_" ++ endpoint)).getD [] ++ created ∧
      created.map (fun d => d.get "_id") = reqs.map (fun r => some (.str (toString r.2))) ∧
      ((((createAll ls endpoint reqs).getItem ("db_" ++ endpoint)).getD []).map
        (fun d => d.get "_id")).Nodup := by
  have hids : (reqs.map (fun r => Doc.spread r.1 [("_id", .str (toString r.2))])).map
      (fun d => d.get "_id") = reqs.map (fun r => some (.str (toString r.2))) := by
    rw [List.map_map]
    apply List.map_congr_left
    intro r _
    exact created_id r.1 r.2
  refine ⟨_, createAll_items endpoint reqs ls, hids, ?_⟩
  rw [createAll_items, List.map_append, hids]
  refine List.Nodup.append hstart ?_ ?_
  · have : reqs.map (fun r => some (Json.str (toString r.2)))
        = (reqs.map Prod.snd).map (fun n => some (Json.str (toString n))) := by
      rw [List.map_map]; rfl
    rw [this]
    refine List.Nodup.map ?_ hclock
    intro a b hab
    simp only [Option.some.injEq, Json.str.injEq] at hab
    exact toString_nat_injective a b hab
  · intro x hx hy
    obtain ⟨item, hitem, rfl⟩ := List.mem_map.mp hx
    obtain ⟨r, hr, hreq⟩ := List.mem_map.mp hy
    exact hfresh r hr item hitem hreq.symm

/-- C27 as amended, for two creates one millisecond apart after the stored sample leave. -/
theorem creates_distinct_ids_witness :
    (((sampleWorldLocal.localStorage.getItem ("db_" ++ "leaves")).getD []).map
      (fun d => d.get "_id")).Nodup ∧
    (sampleTwoCreates.map Prod.snd).Nodup ∧
    (∀ r ∈ sampleTwoCreates,
      ∀ item ∈ (sampleWorldLocal.localStorage.getItem ("db_" ++ "leaves")).getD [],
      item.get "_id" ≠ some (.str (toString r.2))) ∧
    ∃ created : List Doc,
      ((createAll sampleWorldLocal.localStorage "leaves" sampleTwoCreates).getItem
          ("db_" ++ "leaves")).getD []
        = (sampleWorldLocal.localStorage.getItem ("db_" ++ "leaves")).getD [] ++ created ∧
      created.map (fun d => d.get "_id")
        = sampleTwoCreates.map (fun r => some (.str (toString r.2))) ∧
      ((((createAll sampleWorldLocal.localStorage "leaves" sampleTwoCreates).getItem
          ("db_" ++ "leaves")).getD []).map (fun d => d.get "_id")).Nodup :=
  ⟨by decide, by decide, by decide,
   creates_distinct_ids sampleWorldLocal.localStorage "leaves" sampleTwoCreates
    (by decide) (by decide) (by decide)⟩

/-! ## Deleting a student, vacating a room -/

/-- C22 fails on the code: with a reachable server holding the student, the `DELETE` that
`deleteStudent` sends goes to `/api/students` (no id in the path), matches no route and
falls back to `localStorage`; the reload reads the server, where the student still is. -/
theorem deleteStudent_not_reflected :
    (serve sampleFormat (sampleServer .server "pending" "pending") sampleClientDelete
      sampleEnv).1 = .json (failure 404 "Endpoint not found") ∧
    (serve sampleFormat (sampleServer .apiIndex "pending" "pending") sampleClientDelete
      sampleEnv).1 = .other 404 ∧
    (deleteStudent sampleFormat sampleWorldOnline sampleStateStudents
        "65a4f0c2e1b2c3d4e5f6c001" true sampleEnv "2024-01-15").map
      (fun r => (r.1.server, r.2.studentData.map (fun student => student._id)))
      = some (sampleWorldOnline.server, ["65a4f0c2e1b2c3d4e5f6c001"]) ∧
    (deleteStudent sampleFormat sampleWorldApi sampleStateStudents
        "65a4f0c2e1b2c3d4e5f6c001" true sampleEnv "2024-01-15").map
      (fun r => (r.1.server, r.2.studentData.map (fun student => student._id)))
      = some (sampleWorldApi.server, ["65a4f0c2e1b2c3d4e5f6c001"]) := by
  refine ⟨by decide, by decide, by decide, by decide⟩

/-- With no reachable server the delete is applied to `localStorage`: the student is gone
from the next read and the other one is kept. -/
theorem deleteStudent_local_example :
    (deleteStudent sampleFormat sampleWorldStudents sampleStateTwoStudents "1705312800011" true
        sampleEnv "2024-01-15").map
      (fun r => (r.1.localStorage.getItem "db_students", r.2.studentData))
      = some (some [sampleStudentDoc "1705312800012" "R4"],
          [Student.ofDoc (sampleStudentDoc "1705312800012" "R4")]) := by
  decide

/-- C28 fails on the code: `MongoDBService` defines no `updateRoomAllocation`, so a
confirmed `vacateRoom` rejects with a TypeError after marking its in-memory record; the
stored allocation is still "occupied" and `updateStats` is not reached. -/
theorem vacateRoom_throws :
    updateMethods.lookup "updateRoomAllocation" = none ∧
    sampleStateRooms.roomAllocations.map (fun a => (a._id, a.status))
      = [("1705312800077", "occupied")] ∧
    (vacateRoom sampleFormat sampleWorldRooms sampleStateRooms "1705312800077" true sampleEnv
        "2024-01-15").map (fun r => (r.thrown, r.state.1, r.state.2.dom))
      = some (some "TypeError: MongoDBService.updateRoomAllocation is not a function",
          sampleWorldRooms, sampleStateRooms.dom) ∧
    (sampleWorldRooms.localStorage.getItem "db_room-allocations").map
        (fun docs => docs.map (fun d => (d.get "_id", d.get "status")))
      = some [(some (.str "1705312800077"), some (.str "occupied"))] := by
  refine ⟨by decide, by decide, by decide, by decide⟩

/-! ## Updates by id -/

theorem lookup_filter_key (p : String → Bool) (l : Doc) (k : String) :
    List.lookup k (l.filter (fun kv => p kv.1)) = if p k then List.lookup k l else none := by
  induction l with
  | nil => simp
  | cons x xs ih =>
    obtain ⟨a, b⟩ := x
    by_cases hk : k = a
    · subst hk
      by_cases hp : p k = true
      · simp [List.filter, hp, List.lookup]
      · have hp' : p k = false := by simpa using hp
        simp only [List.filter, hp', List.lookup]
        rw [ih]; simp [hp']
    · have hb : (k == a) = false := by simpa using hk
      by_cases hp : p a = true
      · simp only [List.filter, hp, List.lookup, hb]
        exact ih
      · have hp' : p a = false := by simpa using hp
        simp only [List.filter, hp', List.lookup, hb]
        exact ih

/-- The properties written by an update: those of the updates that are paths of the
schema, then `updatedAt` when the schema has timestamps. -/
theorem written_get (schema : Schema) (updates : Doc) (env : Env) (k : String)
    (hk : k ≠ "updatedAt") :
    (schema.strict updates ++
        (if schema.timestamps then [("updatedAt", Json.str env.iso)] else [])).get k
      = if schema.paths.any (fun p => p.name == k) then updates.get k else none := by
  have hb : (k == "updatedAt") = false := by simpa using hk
  unfold Doc.get Schema.strict
  rw [List.lookup_append, lookup_filter_key (fun key => schema.paths.any (fun p => p.name == key))]
  have hs : List.lookup k (if schema.timestamps then [("updatedAt", Json.str env.iso)] else [])
      = none := by
    split <;> simp [List.lookup, hb]
  rw [hs]
  split <;> simp

/-- C21 fails as stated: the local-storage update answers `{ modifiedCount: 1 }`, not the
updated document, and answers the same success when no stored item has the `_id`. -/
theorem localStorage_update_reply :
    (localStorageFallback sampleWorldLocal.localStorage "leaves" .PUT sampleApprove
        1705312800500).1
      = { success := true, data := some (.doc [("modifiedCount", .num 1)]) } ∧
    localStorageFallback sampleWorldLocal.localStorage "leaves" .PUT sampleApproveNobody
        1705312800500
      = ({ success := true, data := some (.doc [("modifiedCount", .num 1)]) },
         sampleWorldLocal.localStorage) := by
  refine ⟨by decide, by decide⟩

theorem module_cases (m : RouteModule) : m = .server ∨ m = .apiIndex := by
  cases m
  · exact Or.inl rfl
  · exact Or.inr rfl

theorem stampUpdates_id (endpoint : String) (body : Doc) (env : Env)
    (hbody : body.get "_id" = none) : (stampUpdates endpoint body env).get "_id" = none := by
  unfold stampUpdates
  split
  · rw [Doc.get_spread, hbody]; rfl
  · split
    · rw [Doc.get_spread, hbody]; rfl
    · exact hbody

theorem routeUpdates_id (m : RouteModule) (endpoint : String) (body : Doc) (env : Env)
    (hbody : body.get "_id" = none) : (routeUpdates m endpoint body env).get "_id" = none := by
  cases m
  · exact stampUpdates_id endpoint body env hbody
  · exact hbody

/-- The answer of an update route when the document is found and the store accepts the
updates: the merged document, stored in place of the old one. -/
theorem update_found (fmt : IdFormat) (srv : Server) (endpoint id : String) (body : Doc)
    (env : Env) (schema : Schema) (d : Doc)
    (hroute : hasRoute srv.module endpoint .update = true)
    (hschema : schemaOf srv.module endpoint = some schema)
    (hup : srv.dbUp = true) (hvalid : fmt.isValid id = true) (hcasts : fmt.casts id = true)
    (hvalidators : srv.module = .server → schema.paths.all
      (fun p => match (schema.strict (routeUpdates srv.module endpoint body env)).get p.name with
        | some v => p.validates (some v)
        | none => true) = true)
    (hfound : ((srv.db.getItem endpoint).getD []).find?
      (fun x => x.get "_id" == some (.str id)) = some d)
    (hclash : schema.clashes (removeById id ((srv.db.getItem endpoint).getD []))
      (schema.strict (routeUpdates srv.module endpoint body env)) = false) :
    serve fmt srv (putRequest endpoint id body) env
      = (.json { status := 200, success := true,
                 data := some (.doc (Doc.spread d
                  (schema.strict (routeUpdates srv.module endpoint body env) ++
                    (if schema.timestamps then [("updatedAt", Json.str env.iso)] else [])))) },
         { srv with db := srv.db.setItem endpoint (replaceById id (Doc.spread d
            (schema.strict (routeUpdates srv.module endpoint body env) ++
              (if schema.timestamps then [("updatedAt", Json.str env.iso)] else [])))
            ((srv.db.getItem endpoint).getD [])) }) := by
  rcases module_cases srv.module with hm | hm
  · rw [hm] at hroute hschema hclash
    have hv := hvalidators hm
    rw [hm] at hv
    simp only [routeUpdates] at hv hclash
    have hU := dbFindByIdAndUpdate_found fmt schema true _ id
      (stampUpdates endpoint body env) env d hcasts (Or.inr hv) hfound hclash
    simp [serve, putRequest, Request.op, hschema, hroute, updateHandler, hm, hvalid, hup, hU,
      routeUpdates]
  · rw [hm] at hroute hschema hclash
    simp only [routeUpdates] at hclash
    have hU := dbFindByIdAndUpdate_found fmt schema false _ id body env d hcasts (Or.inl rfl)
      hfound hclash
    simp [serve, putRequest, Request.op, hschema, hroute, updateHandler, hm, hup, hU,
      routeUpdates]

theorem update_not_found (fmt : IdFormat) (srv : Server) (endpoint id : String) (body : Doc)
    (env : Env) (schema : Schema)
    (hm : srv.module = .server)
    (hroute : hasRoute srv.module endpoint .update = true)
    (hschema : schemaOf srv.module endpoint = some schema)
    (hup : srv.dbUp = true) (hvalid : fmt.isValid id = true) (hcasts : fmt.casts id = true)
    (hvalidators : schema.paths.all
      (fun p => match (schema.strict (routeUpdates srv.module endpoint body env)).get p.name with
        | some v => p.validates (some v)
        | none => true) = true)
    (hnone : ((srv.db.getItem endpoint).getD []).find?
      (fun x => x.get "_id" == some (.str id)) = none) :
    serve fmt srv (putRequest endpoint id body) env
      = (.json (failure 404 (entityName endpoint ++ " not found")), srv) := by
  rw [hm] at hroute hschema hvalidators
  simp only [routeUpdates] at hvalidators
  have hU : dbFindByIdAndUpdate fmt schema true ((srv.db.getItem endpoint).getD []) id
      (stampUpdates endpoint body env) env = .ok (none, (srv.db.getItem endpoint).getD []) := by
    unfold dbFindByIdAndUpdate
    simp [hcasts, hnone]
    simpa using hvalidators
  simp [serve, putRequest, Request.op, hschema, hroute, updateHandler, hm, hvalid, hup, hU]

/-- C21 (as amended): for a well-formed id and updates that the store accepts, the update
routes of both modules answer a found document with the updated document, stored in place
of the old one: `updatedAt` apart, every property that is a path of the schema has the
value the updates give it, if they give one, and every other property keeps its old value;
when no document has the id, src/server.js answers 404 and changes nothing.  The
local-storage update answers `{ success: true, data: { modifiedCount: 1 } }` whatever it
found. -/
theorem update_merges (fmt : IdFormat) (srv : Server) (endpoint id : String) (body : Doc)
    (env : Env) (schema : Schema)
    (hroute : hasRoute srv.module endpoint .update = true)
    (hschema : schemaOf srv.module endpoint = some schema)
    (hup : srv.dbUp = true) (hvalid : fmt.isValid id = true) (hcasts : fmt.casts id = true)
    (hbody : body.get "_id" = none)
    (hvalidators : srv.module = .server → schema.paths.all
      (fun p => match (schema.strict (routeUpdates srv.module endpoint body env)).get p.name with
        | some v => p.validates (some v)
        | none => true) = true) :
    (∀ d : Doc,
      ((srv.db.getItem endpoint).getD []).find?
        (fun x => x.get "_id" == some (.str id)) = some d →
      schema.clashes (removeById id ((srv.db.getItem endpoint).getD []))
        (schema.strict (routeUpdates srv.module endpoint body env)) = false →
      ∃ doc : Doc,
        (serve fmt srv (putRequest endpoint id body) env).1
          = .json { status := 200, success := true, data := some (.doc doc) } ∧
        (((serve fmt srv (putRequest endpoint id body) env).2.db.getItem endpoint).getD []).find?
          (fun x => x.get "_id" == some (.str id)) = some doc ∧
        (∀ k, k ≠ "updatedAt" →
          doc.get k = if schema.paths.any (fun p => p.name == k)
            then ((routeUpdates srv.module endpoint body env).get k).orElse (fun _ => d.get k)
            else d.get k)) ∧
    (((srv.db.getItem endpoint).getD []).find?
        (fun x => x.get "_id" == some (.str id)) = none →
      srv.module = .server →
      serve fmt srv (putRequest endpoint id body) env
        = (.json (failure 404 (entityName endpoint ++ " not found")), srv)) ∧
    (∀ (ls : Store) (key : String) (data : Doc) (now : Nat),
      (localStorageFallback ls key .PUT data now).1
        = { success := true, data := some (.doc [("modifiedCount", .num 1)]) }) := by
  refine ⟨?_, ?_, fun _ _ _ _ => rfl⟩
  · intro d hfound hclash
    have h := update_found fmt srv endpoint id body env schema d hroute hschema hup hvalid
      hcasts hvalidators hfound hclash
    have hget : ∀ k, k ≠ "updatedAt" →
        (Doc.spread d (schema.strict (routeUpdates srv.module endpoint body env) ++
          (if schema.timestamps then [("updatedAt", Json.str env.iso)] else []))).get k
        = if schema.paths.any (fun p => p.name == k)
            then ((routeUpdates srv.module endpoint body env).get k).orElse (fun _ => d.get k)
            else d.get k := by
      intro k hk
      rw [Doc.get_spread, written_get schema _ env k hk]
      split <;> simp
    refine ⟨_, by rw [h], ?_, hget⟩
    rw [h]
    simp only [Store.getItem_setItem, Option.getD_some]
    apply find_replaceById id _ d _ hfound
    rw [hget "_id" (by decide), routeUpdates_id srv.module endpoint body env hbody]
    have := id_of_find id d _ hfound
    split <;> simpa using this
  · intro hnone hm
    exact update_not_found fmt srv endpoint id body env schema hm hroute hschema hup hvalid
      hcasts (hvalidators hm) hnone

/-- C21 as amended, for a change of room and phone of the stored sample student in
src/server.js. -/
theorem update_merges_witness :
    hasRoute (sampleServer .server "pending" "pending").module "students" .update = true ∧
    schemaOf (sampleServer .server "pending" "pending").module "students"
      = some ServerJs.studentSchema ∧
    (sampleServer .server "pending" "pending").dbUp = true ∧
    sampleFormat.isValid "65a4f0c2e1b2c3d4e5f6c001" = true ∧
    sampleFormat.casts "65a4f0c2e1b2c3d4e5f6c001" = true ∧
    sampleStudentUpdate.get "_id" = none ∧
    (serve sampleFormat (sampleServer .server "pending" "pending")
        (putRequest "students" "65a4f0c2e1b2c3d4e5f6c001" sampleStudentUpdate) sampleEnv).1
      = .json { status := 200, success := true,
                data := some (.doc [("_id", .str "65a4f0c2e1b2c3d4e5f6c001"),
                  ("name", .str "Nila"), ("roll", .str "R3"),
                  ("email", .str "R3@drngpit.ac.in"), ("room", .str "105"),
                  ("department", .str "ECE"), ("phone", .str "9000000001"),
                  ("date", .str "2024-01-03T09:00:00.000Z")]) } ∧
    ∃ doc : Doc,
      (serve sampleFormat (sampleServer .server "pending" "pending")
          (putRequest "students" "65a4f0c2e1b2c3d4e5f6c001" sampleStudentUpdate) sampleEnv).1
        = .json { status := 200, success := true, data := some (.doc doc) } ∧
      (((serve sampleFormat (sampleServer .server "pending" "pending")
          (putRequest "students" "65a4f0c2e1b2c3d4e5f6c001" sampleStudentUpdate)
          sampleEnv).2.db.getItem "students").getD []).find?
        (fun x => x.get "_id" == some (.str "65a4f0c2e1b2c3d4e5f6c001")) = some doc ∧
      (∀ k, k ≠ "updatedAt" →
        doc.get k = if ServerJs.studentSchema.paths.any (fun p => p.name == k)
          then ((routeUpdates (sampleServer .server "pending" "pending").module "students"
            sampleStudentUpdate sampleEnv).get k).orElse
              (fun _ => (sampleStudentDoc "65a4f0c2e1b2c3d4e5f6c001" "R3").get k)
          else (sampleStudentDoc "65a4f0c2e1b2c3d4e5f6c001" "R3").get k) :=
  ⟨by decide, by decide, by decide, by decide, by decide, by decide, by decide,
   (update_merges sampleFormat (sampleServer .server "pending" "pending") "students"
    "65a4f0c2e1b2c3d4e5f6c001" sampleStudentUpdate sampleEnv ServerJs.studentSchema
    (by decide) (by decide) (by decide) (by decide) (by decide) (by decide)
    (fun _ => by decide)).1 (sampleStudentDoc "65a4f0c2e1b2c3d4e5f6c001" "R3")
    (by decide) (by decide)⟩

/-! ## Room occupancy and the mean rating -/

theorem occupancy_fract (k : Nat) : Int.fract ((100 * (k : ℚ)) / 30) ≠ 1 / 2 := by
  intro h
  rw [Int.fract] at h
  have h2 : (200 : ℚ) * k = 60 * ⌊(100 * (k : ℚ)) / 30⌋ + 30 := by linarith
  have h3 : (200 : ℤ) * k = 60 * ⌊(100 * (k : ℚ)) / 30⌋ + 30 := by exact_mod_cast h2
  omega

/-- C24: `100 * k / 30` is never halfway between two integers, so rounding it half up (as
`Math.round` does), half away from zero or half to even gives the same integer, and that
integer is the `roomOccupancy` that `updateStats` computes from `k` occupied allocations. -/
theorem rounding_mode_unobservable :
    (∀ k : Nat, Int.fract ((100 * (k : ℚ)) / 30) ≠ 1 / 2 ∧
      halfAwayFromZero ((100 * (k : ℚ)) / 30) = halfUp ((100 * (k : ℚ)) / 30) ∧
      halfToEven ((100 * (k : ℚ)) / 30) = halfUp ((100 * (k : ℚ)) / 30)) ∧
    (∀ roomAllocations : List RoomAllocation, roomAllocations.length < 2 ^ 32 →
      ∃ r : Nat, roomOccupancy roomAllocations = some r ∧
        (r : ℤ) = halfUp ((100 * (occupiedRooms roomAllocations : ℚ)) / 30) ∧
        (r : ℤ) = halfAwayFromZero ((100 * (occupiedRooms roomAllocations : ℚ)) / 30) ∧
        (r : ℤ) = halfToEven ((100 * (occupiedRooms roomAllocations : ℚ)) / 30)) := by
  have hmodes : ∀ k : Nat, Int.fract ((100 * (k : ℚ)) / 30) ≠ 1 / 2 ∧
      halfAwayFromZero ((100 * (k : ℚ)) / 30) = halfUp ((100 * (k : ℚ)) / 30) ∧
      halfToEven ((100 * (k : ℚ)) / 30) = halfUp ((100 * (k : ℚ)) / 30) := by
    intro k
    have hf := occupancy_fract k
    have h0 : (0 : ℚ) ≤ (100 * (k : ℚ)) / 30 := by positivity
    refine ⟨hf, ?_, ?_⟩
    · simp [halfAwayFromZero, halfUp, h0]
    · simp only [halfToEven, halfUp, hf, if_false]
  refine ⟨hmodes, ?_⟩
  intro roomAllocations hlen
  have hle : occupiedRooms roomAllocations ≤ roomAllocations.length :=
    List.length_filter_le _ _
  obtain ⟨n1, n2⟩ := percent_nearest (occupiedRooms roomAllocations) 30 (by norm_num)
    (by omega)
  have n3 : 2 * (100 * occupiedRooms roomAllocations)
      < 2 * 30 * mathRound (jsMul (roundDouble (occupiedRooms roomAllocations) 30)
          (JsNum.ofNat 100)) + 30 := by omega
  have hr := round_of_nearest (100 * occupiedRooms roomAllocations) 30 _ (by norm_num) n1 n3
  have hup : ((mathRound (jsMul (roundDouble (occupiedRooms roomAllocations) 30)
      (JsNum.ofNat 100)) : Nat) : ℤ)
      = halfUp ((100 * (occupiedRooms roomAllocations : ℚ)) / 30) := by
    rw [hr, round_eq, halfUp]
    push_cast
    rfl
  obtain ⟨-, ha, he⟩ := hmodes (occupiedRooms roomAllocations)
  exact ⟨_, roomOccupancy_eq roomAllocations, hup, by rw [ha, hup], by rw [he, hup]⟩

/-- C24, at the sample snapshot (15 occupied rooms, 50 per cent). -/
theorem rounding_mode_unobservable_witness :
    sampleState.roomAllocations.length < 2 ^ 32 ∧
    roomOccupancy sampleState.roomAllocations = some 50 ∧
    ∃ r : Nat, roomOccupancy sampleState.roomAllocations = some r ∧
      (r : ℤ) = halfUp ((100 * (occupiedRooms sampleState.roomAllocations : ℚ)) / 30) ∧
      (r : ℤ)
        = halfAwayFromZero ((100 * (occupiedRooms sampleState.roomAllocations : ℚ)) / 30) ∧
      (r : ℤ) = halfToEven ((100 * (occupiedRooms sampleState.roomAllocations : ℚ)) / 30) :=
  ⟨by decide, by decide,
   rounding_mode_unobservable.2 sampleState.roomAllocations (by decide)⟩

/-- C25: the `roomOccupancy` computed by `updateStats` is non-negative, and it is at most
100 exactly when at most 30 allocations are "occupied": nothing caps it, 31 occupied
allocations give 103 and 45 give 150.  (A JavaScript array holds fewer than `2 ^ 32`
elements.) -/
theorem roomOccupancy_uncapped (roomAllocations : List RoomAllocation)
    (hlen : roomAllocations.length < 2 ^ 32) :
    ∃ r : Nat, roomOccupancy roomAllocations = some r ∧ (0 : ℤ) ≤ (r : ℤ) ∧
      (r ≤ 100 ↔ occupiedRooms roomAllocations ≤ 30) ∧
      (occupiedRooms roomAllocations = 31 → r = 103) ∧
      (occupiedRooms roomAllocations = 45 → r = 150) := by
  have hle : occupiedRooms roomAllocations ≤ roomAllocations.length :=
    List.length_filter_le _ _
  obtain ⟨n1, n2⟩ := percent_nearest (occupiedRooms roomAllocations) 30 (by norm_num)
    (by omega)
  refine ⟨_, roomOccupancy_eq roomAllocations, by positivity, ?_, ?_, ?_⟩
  · constructor <;> intro h <;> omega
  · intro h; omega
  · intro h; omega

/-- C25, for 31 occupied allocations. -/
theorem roomOccupancy_uncapped_witness :
    ((List.range 31).map (sampleRoomOf "occupied")).length < 2 ^ 32 ∧
    ∃ r : Nat, roomOccupancy ((List.range 31).map (sampleRoomOf "occupied")) = some r ∧
      (0 : ℤ) ≤ (r : ℤ) ∧
      (r ≤ 100 ↔ occupiedRooms ((List.range 31).map (sampleRoomOf "occupied")) ≤ 30) ∧
      (occupiedRooms ((List.range 31).map (sampleRoomOf "occupied")) = 31 → r = 103) ∧
      (occupiedRooms ((List.range 31).map (sampleRoomOf "occupied")) = 45 → r = 150) :=
  ⟨by decide, roomOccupancy_uncapped ((List.range 31).map (sampleRoomOf "occupied"))
    (by decide)⟩

/-- Rounding keeps a quotient between two integers that bound it: integers below `2 ^ 53`
are binary64 values. -/
theorem roundDouble_bounded (n d lo hi : Nat) (hd : 0 < d) (hhi53 : hi < 2 ^ 53)
    (hlo : lo * d ≤ n) (hhi : n ≤ hi * d) :
    0 < (roundDouble n d).den ∧ lo * (roundDouble n d).den ≤ (roundDouble n d).num ∧
      (roundDouble n d).num ≤ hi * (roundDouble n d).den := by
  by_cases hn : n = 0
  · subst hn
    have : lo = 0 := by
      rcases Nat.eq_zero_or_pos lo with h | h
      · exact h
      · have := Nat.mul_pos h hd; omega
    subst this
    simp [roundDouble]
  · have hn0 : 0 < n := Nat.pos_of_ne_zero hn
    have hs : n < 2 ^ 53 * d := by
      calc n ≤ hi * d := hhi
        _ < 2 ^ 53 * d := Nat.mul_lt_mul_of_pos_right hhi53 hd
    have hdn := scaling_small n d hn0 hd hs
    obtain ⟨r1, r2⟩ := roundHalfEven_spec (n * 2 ^ (scaling n d).1) (d * 2 ^ (scaling n d).2)
      (by positivity)
    unfold roundDouble
    simp only [hn, if_false]
    simp only [hdn, pow_zero, mul_one] at r1 r2 ⊢
    generalize roundHalfEven (n * 2 ^ (scaling n d).1) d = R at *
    generalize (scaling n d).1 = u at *
    have hU : 0 < 2 ^ u := by positivity
    have a1 : lo * 2 ^ u * d ≤ n * 2 ^ u := by nlinarith
    have a2 : n * 2 ^ u ≤ hi * 2 ^ u * d := by nlinarith
    refine ⟨hU, ?_, ?_⟩
    · by_contra hc
      have : R + 1 ≤ lo * 2 ^ u := by omega
      have : (R + 1) * d ≤ lo * 2 ^ u * d := Nat.mul_le_mul_right d this
      nlinarith
    · by_contra hc
      have : hi * 2 ^ u + 1 ≤ R := by omega
      have : (hi * 2 ^ u + 1) * d ≤ R * d := Nat.mul_le_mul_right d this
      nlinarith

/-- The bounds of a Number between two integers, on its numerator and denominator. -/
theorem val_bounds_iff (x : JsNum) (lo hi : Nat) (hx : 0 < x.den) :
    ((lo : ℚ) ≤ x.val ∧ x.val ≤ (hi : ℚ)) ↔ (lo * x.den ≤ x.num ∧ x.num ≤ hi * x.den) := by
  have hq : (0 : ℚ) < x.den := by exact_mod_cast hx
  unfold JsNum.val
  rw [le_div_iff₀ hq, div_le_iff₀ hq]
  constructor
  · rintro ⟨a, b⟩; exact ⟨by exact_mod_cast a, by exact_mod_cast b⟩
  · rintro ⟨a, b⟩; exact ⟨by exact_mod_cast a, by exact_mod_cast b⟩

/-- Adding ratings between `lo` and `hi` from the left keeps the running sum of `a`
ratings between `a * lo` and `a * hi`. -/
theorem foldl_jsPlus_bounded (lo hi : Nat) : ∀ (l : List Feedback) (a : Nat) (x : JsNum),
    (∀ f ∈ l, ∃ y : JsNum, f.foodRating = .num y ∧ 0 < y.den ∧
      lo * y.den ≤ y.num ∧ y.num ≤ hi * y.den) →
    (a + l.length) * hi < 2 ^ 53 →
    0 < x.den → a * lo * x.den ≤ x.num → x.num ≤ a * hi * x.den →
    ∃ z : JsNum, l.foldl (fun sum feedback => jsPlus sum feedback.foodRating) (.num x)
        = .num z ∧ 0 < z.den ∧
      (a + l.length) * lo * z.den ≤ z.num ∧ z.num ≤ (a + l.length) * hi * z.den := by
  intro l
  induction l with
  | nil =>
    intro a x _ _ hx h1 h2
    exact ⟨x, rfl, hx, by simpa using h1, by simpa using h2⟩
  | cons f l ih =>
    intro a x hl hbig hx h1 h2
    obtain ⟨y, hy, hyd, hy1, hy2⟩ := hl f (List.mem_cons_self _ _)
    have hlen : a + (f :: l).length = (a + 1) + l.length := by
      simp only [List.length_cons]; omega
    rw [hlen] at hbig ⊢
    have hstep : jsPlus (.num x) f.foodRating = .num (jsAdd x y) := by rw [hy]; rfl
    have hsmall : (a + 1) * hi < 2 ^ 53 := by
      have : (a + 1) * hi ≤ (a + 1 + l.length) * hi := Nat.mul_le_mul_right _ (by omega)
      omega
    obtain ⟨b0, b1, b2⟩ := roundDouble_bounded (x.num * y.den + y.num * x.den)
      (x.den * y.den) ((a + 1) * lo) ((a + 1) * hi) (Nat.mul_pos hx hyd) hsmall
      (by nlinarith) (by nlinarith)
    obtain ⟨z, hz, hzd, hz1, hz2⟩ := ih (a + 1) (jsAdd x y)
      (fun g hg => hl g (List.mem_cons_of_mem _ hg)) hbig b0 b1 b2
    exact ⟨z, by rw [List.foldl_cons, hstep, hz], hzd, hz1, hz2⟩

/-- The mean of ratings between two integers lies between them. -/
theorem meanRating_bounded (l : List Feedback) (lo hi : Nat) (hne : l ≠ [])
    (hl : ∀ f ∈ l, ∃ y : JsNum, f.foodRating = .num y ∧ 0 < y.den ∧
      (lo : ℚ) ≤ y.val ∧ y.val ≤ (hi : ℚ))
    (hbig : hi * l.length < 2 ^ 53) :
    ∃ m : JsNum, meanRating l = some (.num m) ∧ (lo : ℚ) ≤ m.val ∧ m.val ≤ (hi : ℚ) := by
  have hpos : 0 < l.length := List.length_pos.mpr hne
  have hl' : ∀ f ∈ l, ∃ y : JsNum, f.foodRating = .num y ∧ 0 < y.den ∧
      lo * y.den ≤ y.num ∧ y.num ≤ hi * y.den := by
    intro f hf
    obtain ⟨y, e, hd, hb⟩ := hl f hf
    exact ⟨y, e, hd, (val_bounds_iff y lo hi hd).mp hb⟩
  obtain ⟨z, hz, hzd, hz1, hz2⟩ := foldl_jsPlus_bounded lo hi l 0 (JsNum.ofNat 0) hl'
    (by rw [Nat.zero_add, Nat.mul_comm]; exact hbig) (by decide) (by simp [JsNum.ofNat])
    (by simp [JsNum.ofNat])
  rw [Nat.zero_add] at hz1 hz2
  have hhi53 : hi < 2 ^ 53 := by
    have : hi * 1 ≤ hi * l.length := Nat.mul_le_mul_left _ hpos
    omega
  obtain ⟨b0, b1⟩ := roundDouble_bounded (z.num * 1) (z.den * l.length) lo hi
    (Nat.mul_pos hzd hpos) hhi53 (by nlinarith) (by nlinarith)
  refine ⟨roundDouble (z.num * 1) (z.den * l.length), ?_,
    (val_bounds_iff _ lo hi b0).mpr b1⟩
  have hlen : l.length ≠ 0 := by omega
  unfold meanRating ratingSum
  rw [hz]
  simp [Operand.div, jsDiv, JsNum.ofNat, hlen]

/-- The mean of whole-number ratings lies between two integers that bound them. -/
theorem meanRating_whole_bounded (l : List Feedback) (ratings : List Nat) (lo hi : Nat)
    (hne : l ≠ [])
    (hwhole : l.map (fun feedback => feedback.foodRating)
      = ratings.map (fun k => Operand.num (JsNum.ofNat k)))
    (hsum : ratings.sum < 2 ^ 53) (hb : ∀ k ∈ ratings, lo ≤ k ∧ k ≤ hi) :
    ∃ m : JsNum, meanRating l = some (.num m) ∧ (lo : ℚ) ≤ m.val ∧ m.val ≤ (hi : ℚ) := by
  have hpos : 0 < l.length := List.length_pos.mpr hne
  have hlen : ratings.length = l.length := by
    have := congrArg List.length hwhole
    simpa using this.symm
  have hbounds : lo * ratings.length ≤ ratings.sum ∧ ratings.sum ≤ hi * ratings.length := by
    clear hwhole hsum hlen
    induction ratings with
    | nil => simp
    | cons k ks ih =>
      have hk := hb k (List.mem_cons_self _ _)
      have hks := ih (fun j hj => hb j (List.mem_cons_of_mem _ hj))
      simp only [List.sum_cons, List.length_cons]
      constructor <;> nlinarith [hk.1, hk.2, hks.1, hks.2]
  rw [hlen] at hbounds
  -- the greatest rating is itself at most the sum; a bound above it can be lowered to it
  let hi' := min hi ratings.sum
  have hhi' : ratings.sum ≤ hi' * l.length := by
    rcases Nat.le_total hi ratings.sum with h | h
    · have : hi' = hi := Nat.min_eq_left h
      rw [this]; exact hbounds.2
    · have : hi' = ratings.sum := Nat.min_eq_right h
      rw [this]; nlinarith
  have hhi53 : hi' < 2 ^ 53 := lt_of_le_of_lt (Nat.min_le_right _ _) hsum
  obtain ⟨b0, b1, b2⟩ := roundDouble_bounded ratings.sum l.length lo hi' hpos hhi53
    hbounds.1 hhi'
  refine ⟨_, meanRating_nat l ratings hwhole hsum hne, ?_⟩
  have b3 : (roundDouble ratings.sum l.length).num
      ≤ hi * (roundDouble ratings.sum l.length).den :=
    le_trans b2 (Nat.mul_le_mul_right _ (Nat.min_le_left _ _))
  exact (val_bounds_iff _ lo hi b0).mpr ⟨b1, b3⟩

/-- C30 fails as stated: three ratings of 1.4 (the Number 6305039478318694 / 2 ^ 52) have the
mean 6305039478318693 / 2 ^ 52, which is below each of them: the sum 1.4 + 1.4 + 1.4 is
rounded to 4.199999999999999. -/
theorem meanRating_below_least :
    (∀ f ∈ sampleFeedbackSame,
      f.foodRating = .num ⟨6305039478318694, 4503599627370496⟩) ∧
    (1 : ℚ) ≤ JsNum.val ⟨6305039478318694, 4503599627370496⟩ ∧
    JsNum.val ⟨6305039478318694, 4503599627370496⟩ ≤ 5 ∧
    meanRating sampleFeedbackSame = some (.num ⟨6305039478318693, 4503599627370496⟩) ∧
    JsNum.val ⟨6305039478318693, 4503599627370496⟩
      < JsNum.val ⟨6305039478318694, 4503599627370496⟩ := by
  refine ⟨by decide, ?_, ?_, by decide, ?_⟩ <;> norm_num [JsNum.val]

/-- C30 (as amended): for a non-empty Feedback list `updateStats` computes a mean
`foodRating`; it lies between any two integers that bound every rating (so in `[1, 5]`
when every rating does), and between the least and the greatest rating when the ratings
are whole numbers.  (The bounds are on sizes for which JavaScript integers are exact:
the upper bound times the length, or the sum of the whole numbers, is below `2 ^ 53`.) -/
theorem meanRating_between (feedbackData : List Feedback) (h : feedbackData ≠ []) :
    ∃ m : Operand, meanRating feedbackData = some m ∧
      (∀ lo hi : Nat, hi * feedbackData.length < 2 ^ 53 →
        (∀ f ∈ feedbackData, ∃ x : JsNum, f.foodRating = .num x ∧ 0 < x.den ∧
          (lo : ℚ) ≤ x.val ∧ x.val ≤ (hi : ℚ)) →
        ∃ y : JsNum, m = .num y ∧ (lo : ℚ) ≤ y.val ∧ y.val ≤ (hi : ℚ)) ∧
      (feedbackData.length < 2 ^ 50 →
        (∀ f ∈ feedbackData, ∃ x : JsNum, f.foodRating = .num x ∧ 0 < x.den ∧
          (1 : ℚ) ≤ x.val ∧ x.val ≤ 5) →
        ∃ y : JsNum, m = .num y ∧ (1 : ℚ) ≤ y.val ∧ y.val ≤ 5) ∧
      (∀ ratings : List Nat,
        feedbackData.map (fun feedback => feedback.foodRating)
          = ratings.map (fun k => Operand.num (JsNum.ofNat k)) →
        ratings.sum < 2 ^ 53 →
        ∀ lo hi : Nat, (∀ k ∈ ratings, lo ≤ k ∧ k ≤ hi) →
          ∃ y : JsNum, m = .num y ∧ (lo : ℚ) ≤ y.val ∧ y.val ≤ (hi : ℚ)) := by
  obtain ⟨m, hm⟩ := meanRating_total feedbackData h
  have key : ∀ lo hi : Nat, hi * feedbackData.length < 2 ^ 53 →
      (∀ f ∈ feedbackData, ∃ x : JsNum, f.foodRating = .num x ∧ 0 < x.den ∧
        (lo : ℚ) ≤ x.val ∧ x.val ≤ (hi : ℚ)) →
      ∃ y : JsNum, m = .num y ∧ (lo : ℚ) ≤ y.val ∧ y.val ≤ (hi : ℚ) := by
    intro lo hi hbig hb
    obtain ⟨y, hy, hb⟩ := meanRating_bounded feedbackData lo hi h hb hbig
    rw [hm] at hy
    exact ⟨y, Option.some.inj hy, hb⟩
  refine ⟨m, hm, key, ?_, ?_⟩
  · intro hlen hb
    have := key 1 5 (by omega) (by simpa using hb)
    simpa using this
  · intro ratings hwhole hsum lo hi hb
    obtain ⟨y, hy, hb⟩ := meanRating_whole_bounded feedbackData ratings lo hi h hwhole hsum hb
    rw [hm] at hy
    exact ⟨y, Option.some.inj hy, hb⟩

/-- C30 (as amended), at the sample snapshot (ratings 5 and 3, mean 4). -/
theorem meanRating_between_witness :
    sampleState.feedbackData ≠ [] ∧
    meanRating sampleState.feedbackData = some (.num (roundDouble 8 2)) ∧
    ∃ m : Operand, meanRating sampleState.feedbackData = some m ∧
      (∀ lo hi : Nat, hi * sampleState.feedbackData.length < 2 ^ 53 →
        (∀ f ∈ sampleState.feedbackData, ∃ x : JsNum, f.foodRating = .num x ∧ 0 < x.den ∧
          (lo : ℚ) ≤ x.val ∧ x.val ≤ (hi : ℚ)) →
        ∃ y : JsNum, m = .num y ∧ (lo : ℚ) ≤ y.val ∧ y.val ≤ (hi : ℚ)) ∧
      (sampleState.feedbackData.length < 2 ^ 50 →
        (∀ f ∈ sampleState.feedbackData, ∃ x : JsNum, f.foodRating = .num x ∧ 0 < x.den ∧
          (1 : ℚ) ≤ x.val ∧ x.val ≤ 5) →
        ∃ y : JsNum, m = .num y ∧ (1 : ℚ) ≤ y.val ∧ y.val ≤ 5) ∧
      (∀ ratings : List Nat,
        sampleState.feedbackData.map (fun feedback => feedback.foodRating)
          = ratings.map (fun k => Operand.num (JsNum.ofNat k)) →
        ratings.sum < 2 ^ 53 →
        ∀ lo hi : Nat, (∀ k ∈ ratings, lo ≤ k ∧ k ≤ hi) →
          ∃ y : JsNum, m = .num y ∧ (lo : ℚ) ≤ y.val ∧ y.val ≤ (hi : ℚ)) :=
  ⟨by decide, by decide, meanRating_between sampleState.feedbackData (by decide)⟩

/-! ## Login -/

theorem handleLogin_proceeds (toLowerCase : JsString → JsString) (email password : JsString)
    (hostelType : Option String) (hostelName : String) :
    handleLogin toLowerCase email password hostelType hostelName = .proceeds ↔
      ((hostelType.getD "" ≠ "" ∧ hostelName ≠ "") ∧
        endsWith email (codeUnits "@drngpit.ac.in") = true ∧
        password = toLowerCase (substring0 email 7)) := by
  unfold handleLogin
  by_cases h1 : hostelType.getD "" = "" ∨ hostelName = ""
  · simp only [h1, if_true]
    constructor
    · intro h; cases h
    · rintro ⟨⟨a, b⟩, -, -⟩
      rcases h1 with h | h
      · exact absurd h a
      · exact absurd h b
  · have hsel : hostelType.getD "" ≠ "" ∧ hostelName ≠ "" :=
      ⟨fun h => h1 (Or.inl h), fun h => h1 (Or.inr h)⟩
    simp only [h1, if_false]
    by_cases he : endsWith email (codeUnits "@drngpit.ac.in") = true
    · by_cases hp : password = toLowerCase (substring0 email 7)
      · simp [he, hp, hsel]
      · simp [he, hp]
    · simp [he]

/-- C23: `handleLogin` gets past its checks only when the email ends with "@drngpit.ac.in"
and the password is the lower case of the first 7 code units of the email, and, once a
hostel is selected, exactly then; so for an email at most one password is accepted. -/
theorem login_password_derived (toLowerCase : JsString → JsString) (email : JsString)
    (hostelType : Option String) (hostelName : String) :
    (∀ password : JsString,
      handleLogin toLowerCase email password hostelType hostelName = .proceeds →
        endsWith email (codeUnits "@drngpit.ac.in") = true ∧
          password = toLowerCase (substring0 email 7)) ∧
    (hostelType.getD "" ≠ "" ∧ hostelName ≠ "" →
      ∀ password : JsString,
        handleLogin toLowerCase email password hostelType hostelName = .proceeds ↔
          (endsWith email (codeUnits "@drngpit.ac.in") = true ∧
            password = toLowerCase (substring0 email 7))) ∧
    (∀ p q : JsString,
      handleLogin toLowerCase email p hostelType hostelName = .proceeds →
      handleLogin toLowerCase email q hostelType hostelName = .proceeds → p = q) := by
  refine ⟨?_, ?_, ?_⟩
  · intro password h
    exact ((handleLogin_proceeds toLowerCase email password hostelType hostelName).mp h).2
  · intro hsel password
    rw [handleLogin_proceeds]
    exact ⟨fun h => h.2, fun h => ⟨hsel, h⟩⟩
  · intro p q hp hq
    rw [((handleLogin_proceeds toLowerCase email p hostelType hostelName).mp hp).2.2,
      ((handleLogin_proceeds toLowerCase email q hostelType hostelName).mp hq).2.2]

/-- C23, for the email "22CS101@drngpit.ac.in", whose password is "22cs101". -/
theorem login_password_derived_witness :
    ((some "boys" : Option String).getD "" ≠ "" ∧ "Marutham Hostel" ≠ "") ∧
    handleLogin asciiLower (codeUnits "22CS101@drngpit.ac.in") (codeUnits "22cs101")
      (some "boys") "Marutham Hostel" = .proceeds ∧
    handleLogin asciiLower (codeUnits "22CS101@drngpit.ac.in") (codeUnits "22CS101")
      (some "boys") "Marutham Hostel" = .invalidPassword ∧
    handleLogin asciiLower (codeUnits "22cs101@gmail.com") (codeUnits "22cs101")
      (some "boys") "Marutham Hostel" = .useCollegeEmail ∧
    (∀ password : JsString,
      handleLogin asciiLower (codeUnits "22CS101@drngpit.ac.in") password (some "boys")
          "Marutham Hostel" = .proceeds ↔
        (endsWith (codeUnits "22CS101@drngpit.ac.in") (codeUnits "@drngpit.ac.in") = true ∧
          password = asciiLower (substring0 (codeUnits "22CS101@drngpit.ac.in") 7))) :=
  ⟨by decide, by decide, by decide, by decide,
   (login_password_derived asciiLower (codeUnits "22CS101@drngpit.ac.in") (some "boys")
    "Marutham Hostel").2.1 (by decide)⟩

/-! ## Recent activity -/

theorem insertSorted_perm {α : Type} (cmp : α → α → Int) (a : α) (l : List α) :
    (insertSorted cmp a l).Perm (a :: l) := by
  induction l with
  | nil => exact List.Perm.refl _
  | cons b l ih =>
    unfold insertSorted
    split
    · exact List.Perm.refl _
    · exact (List.Perm.cons b ih).trans (List.Perm.swap a b l)

theorem sortBy_perm {α : Type} (cmp : α → α → Int) (l : List α) : (sortBy cmp l).Perm l := by
  induction l with
  | nil => exact List.Perm.refl _
  | cons a l ih =>
    unfold sortBy
    exact (insertSorted_perm cmp a _).trans (List.Perm.cons a ih)

theorem insertSorted_sorted {α : Type} (cmp : α → α → Int) (k : α → Int) (a : α) (l : List α)
    (h : ∀ b ∈ l, (cmp a b ≤ 0 ↔ k b ≤ k a))
    (hl : l.Pairwise (fun x y => k y ≤ k x)) :
    (insertSorted cmp a l).Pairwise (fun x y => k y ≤ k x) := by
  induction l with
  | nil => simp [insertSorted]
  | cons b l ih =>
    unfold insertSorted
    have hb := h b (List.mem_cons_self _ _)
    rw [List.pairwise_cons] at hl
    split
    · rename_i hc
      have hba : k b ≤ k a := hb.mp hc
      rw [List.pairwise_cons]
      refine ⟨?_, List.pairwise_cons.mpr hl⟩
      intro x hx
      rcases List.mem_cons.mp hx with rfl | hx
      · exact hba
      · exact le_trans (hl.1 x hx) hba
    · rename_i hc
      have hab : k a ≤ k b := by
        by_contra hn
        exact hc (hb.mpr (by omega))
      rw [List.pairwise_cons]
      refine ⟨?_, ih (fun x hx => h x (List.mem_cons_of_mem _ hx)) hl.2⟩
      intro x hx
      rcases List.mem_cons.mp ((insertSorted_perm cmp a l).subset hx) with rfl | hx
      · exact hab
      · exact hl.1 x hx

theorem sortBy_sorted {α : Type} (cmp : α → α → Int) (k : α → Int) (l : List α)
    (h : ∀ a ∈ l, ∀ b ∈ l, (cmp a b ≤ 0 ↔ k b ≤ k a)) :
    (sortBy cmp l).Pairwise (fun x y => k y ≤ k x) := by
  induction l with
  | nil => simp [sortBy]
  | cons a l ih =>
    unfold sortBy
    apply insertSorted_sorted cmp k a
    · intro b hb
      exact h a (List.mem_cons_self _ _) b
        (List.mem_cons_of_mem _ ((sortBy_perm cmp l).subset hb))
    · exact ih (fun x hx y hy => h x (List.mem_cons_of_mem _ hx) y (List.mem_cons_of_mem _ hy))

theorem newerFirst_valid (dateOf : String → Option Int) (a b : Activity)
    (ha : (dateOf a.date).isSome) (hb : (dateOf b.date).isSome) :
    (newerFirst dateOf a b ≤ 0 ↔ Activity.time dateOf b ≤ Activity.time dateOf a) := by
  unfold newerFirst Activity.time
  cases h1 : dateOf a.date with
  | none => rw [h1] at ha; simp at ha
  | some ta =>
    cases h2 : dateOf b.date with
    | none => rw [h2] at hb; simp at hb
    | some tb => simp only [Option.getD_some]; omega

theorem countP_candidates (feedbackData : List Feedback) (leaveData : List Leave)
    (reportData : List Report) :
    (recentCandidates feedbackData leaveData reportData).countP (fun a => a.type == "feedback")
      ≤ 3 ∧
    (recentCandidates feedbackData leaveData reportData).countP (fun a => a.type == "leave")
      ≤ 3 ∧
    (recentCandidates feedbackData leaveData reportData).countP (fun a => a.type == "report")
      ≤ 3 := by
  have hf : ((feedbackData.take 3).map Activity.ofFeedback).length ≤ 3 := by
    rw [List.length_map, List.length_take]; omega
  have hl : ((leaveData.take 3).map Activity.ofLeave).length ≤ 3 := by
    rw [List.length_map, List.length_take]; omega
  have hr : ((reportData.take 3).map Activity.ofReport).length ≤ 3 := by
    rw [List.length_map, List.length_take]; omega
  have zf : ∀ (p : Activity → Bool) (l : List Feedback),
      (∀ x, p (Activity.ofFeedback x) = false) → (l.map Activity.ofFeedback).countP p = 0 := by
    intro p l hp
    rw [List.countP_eq_zero]
    intro a ha
    obtain ⟨x, -, rfl⟩ := List.mem_map.mp ha
    simp [hp x]
  have zl : ∀ (p : Activity → Bool) (l : List Leave),
      (∀ x, p (Activity.ofLeave x) = false) → (l.map Activity.ofLeave).countP p = 0 := by
    intro p l hp
    rw [List.countP_eq_zero]
    intro a ha
    obtain ⟨x, -, rfl⟩ := List.mem_map.mp ha
    simp [hp x]
  have zr : ∀ (p : Activity → Bool) (l : List Report),
      (∀ x, p (Activity.ofReport x) = false) → (l.map Activity.ofReport).countP p = 0 := by
    intro p l hp
    rw [List.countP_eq_zero]
    intro a ha
    obtain ⟨x, -, rfl⟩ := List.mem_map.mp ha
    simp [hp x]
  unfold recentCandidates
  simp only [List.countP_append]
  refine ⟨?_, ?_, ?_⟩
  · rw [zl _ _ (fun _ => rfl), zr _ _ (fun _ => rfl)]
    have := List.countP_le_length (fun a : Activity => a.type == "feedback")
      (l := (feedbackData.take 3).map Activity.ofFeedback)
    omega
  · rw [zf _ _ (fun _ => rfl), zr _ _ (fun _ => rfl)]
    have := List.countP_le_length (fun a : Activity => a.type == "leave")
      (l := (leaveData.take 3).map Activity.ofLeave)
    omega
  · rw [zf _ _ (fun _ => rfl), zl _ _ (fun _ => rfl)]
    have := List.countP_le_length (fun a : Activity => a.type == "report")
      (l := (reportData.take 3).map Activity.ofReport)
    omega

/-- C29 fails as stated: with a leave whose date is not a date between a feedback and a
later report, every comparison with the leave is `NaN`, nothing is moved, and the feedback
is displayed before the report, which is newer. -/
theorem recentActivity_oldest_first :
    sampleDateOf "not a date" = none ∧
    (renderRecentActivity sampleDateOf [sampleFeedbackOf "f1" 5] [sampleLeaveUndated]
        [sampleReportLater]).map (fun a => (a.type, a.date, sampleDateOf a.date))
      = [("feedback", "2024-01-15T12:30:00.000Z", some 20240115123000000),
         ("leave", "not a date", none),
         ("report", "2024-01-16T10:00:00.000Z", some 20240116100000000)] := by
  refine ⟨by decide, by decide⟩

/-- C29 (as amended): `renderRecentActivity` displays at most 5 entries, each made from one of the
first three elements of `feedbackData`, `leaveData` or `reportData` (at most 3 of each
kind), and what it leaves out are the other candidates.  When the dates of the candidates
are dates (`new Date(date)` is not an Invalid Date), the entries are displayed newest
first, and no candidate left out is newer than a displayed one. -/
theorem recentActivity_newest (dateOf : String → Option Int) (feedbackData : List Feedback)
    (leaveData : List Leave) (reportData : List Report) :
    (renderRecentActivity dateOf feedbackData leaveData reportData).length ≤ 5 ∧
    (∀ a ∈ renderRecentActivity dateOf feedbackData leaveData reportData,
      (∃ feedback ∈ feedbackData.take 3, a = Activity.ofFeedback feedback) ∨
      (∃ leave ∈ leaveData.take 3, a = Activity.ofLeave leave) ∨
      (∃ report ∈ reportData.take 3, a = Activity.ofReport report)) ∧
    ((renderRecentActivity dateOf feedbackData leaveData reportData).countP
        (fun a => a.type == "feedback") ≤ 3 ∧
      (renderRecentActivity dateOf feedbackData leaveData reportData).countP
        (fun a => a.type == "leave") ≤ 3 ∧
      (renderRecentActivity dateOf feedbackData leaveData reportData).countP
        (fun a => a.type == "report") ≤ 3) ∧
    (∃ rest : List Activity,
      (renderRecentActivity dateOf feedbackData leaveData reportData ++ rest).Perm
        (recentCandidates feedbackData leaveData reportData) ∧
      (rest = [] ∨ (renderRecentActivity dateOf feedbackData leaveData reportData).length = 5) ∧
      ((∀ a ∈ recentCandidates feedbackData leaveData reportData,
          (dateOf a.date).isSome = true) →
        (renderRecentActivity dateOf feedbackData leaveData reportData).Pairwise
          (fun a b => Activity.time dateOf b ≤ Activity.time dateOf a) ∧
        ∀ a ∈ renderRecentActivity dateOf feedbackData leaveData reportData, ∀ b ∈ rest,
          Activity.time dateOf b ≤ Activity.time dateOf a)) := by
  have hperm := sortBy_perm (newerFirst dateOf)
    (recentCandidates feedbackData leaveData reportData)
  have hsub : (renderRecentActivity dateOf feedbackData leaveData reportData).Sublist
      (sortBy (newerFirst dateOf) (recentCandidates feedbackData leaveData reportData)) :=
    List.take_sublist _ _
  have hsplit : renderRecentActivity dateOf feedbackData leaveData reportData
      ++ (sortBy (newerFirst dateOf) (recentCandidates feedbackData leaveData reportData)).drop 5
      = sortBy (newerFirst dateOf) (recentCandidates feedbackData leaveData reportData) :=
    List.take_append_drop _ _
  obtain ⟨c1, c2, c3⟩ := countP_candidates feedbackData leaveData reportData
  refine ⟨?_, ?_, ⟨?_, ?_, ?_⟩, ?_⟩
  · unfold renderRecentActivity
    rw [List.length_take]
    omega
  · intro a ha
    have hmem := hperm.subset (hsub.subset ha)
    unfold recentCandidates at hmem
    rcases List.mem_append.mp hmem with h | h
    · rcases List.mem_append.mp h with h | h
      · obtain ⟨x, hx, rfl⟩ := List.mem_map.mp h
        exact Or.inl ⟨x, hx, rfl⟩
      · obtain ⟨x, hx, rfl⟩ := List.mem_map.mp h
        exact Or.inr (Or.inl ⟨x, hx, rfl⟩)
    · obtain ⟨x, hx, rfl⟩ := List.mem_map.mp h
      exact Or.inr (Or.inr ⟨x, hx, rfl⟩)
  · exact le_trans (hsub.countP_le _) (by rw [hperm.countP_eq]; exact c1)
  · exact le_trans (hsub.countP_le _) (by rw [hperm.countP_eq]; exact c2)
  · exact le_trans (hsub.countP_le _) (by rw [hperm.countP_eq]; exact c3)
  · refine ⟨(sortBy (newerFirst dateOf)
      (recentCandidates feedbackData leaveData reportData)).drop 5, ?_, ?_, ?_⟩
    · rw [hsplit]; exact hperm
    · by_cases hlen : (sortBy (newerFirst dateOf)
          (recentCandidates feedbackData leaveData reportData)).length ≤ 5
      · exact Or.inl (List.drop_eq_nil_of_le hlen)
      · right
        unfold renderRecentActivity
        rw [List.length_take]
        omega
    · intro hdates
      have hsorted := sortBy_sorted (newerFirst dateOf) (Activity.time dateOf)
        (recentCandidates feedbackData leaveData reportData)
        (fun a ha b hb => newerFirst_valid dateOf a b (hdates a ha) (hdates b hb))
      refine ⟨hsorted.sublist hsub, ?_⟩
      rw [← hsplit, List.pairwise_append] at hsorted
      exact hsorted.2.2

/-- C29 as amended, at the sample snapshot: two feedbacks, three leaves and one report give six
candidates, of which the oldest leave is left out. -/
theorem recentActivity_newest_witness :
    (∀ a ∈ recentCandidates sampleState.feedbackData sampleState.leaveData
        sampleState.reportData, (sampleDateOf a.date).isSome = true) ∧
    (renderRecentActivity sampleDateOf sampleState.feedbackData sampleState.leaveData
        sampleState.reportData).map (fun a => (a.type, a.date))
      = [("feedback", "2024-01-15T12:30:00.000Z"), ("feedback", "2024-01-15T12:30:00.000Z"),
         ("report", "2024-01-15T10:00:00.000Z"), ("leave", "2024-01-15T09:00:00.000Z"),
         ("leave", "2024-01-15T08:00:00.000Z")] ∧
    ∃ rest : List Activity,
      (renderRecentActivity sampleDateOf sampleState.feedbackData sampleState.leaveData
          sampleState.reportData ++ rest).Perm
        (recentCandidates sampleState.feedbackData sampleState.leaveData
          sampleState.reportData) ∧
      (renderRecentActivity sampleDateOf sampleState.feedbackData sampleState.leaveData
          sampleState.reportData).Pairwise
        (fun a b => Activity.time sampleDateOf b ≤ Activity.time sampleDateOf a) ∧
      ∀ a ∈ renderRecentActivity sampleDateOf sampleState.feedbackData sampleState.leaveData
          sampleState.reportData, ∀ b ∈ rest,
        Activity.time sampleDateOf b ≤ Activity.time sampleDateOf a := by
  refine ⟨by decide, by decide, ?_⟩
  obtain ⟨rest, h1, -, h3⟩ := (recentActivity_newest sampleDateOf sampleState.feedbackData
    sampleState.leaveData sampleState.reportData).2.2.2
  exact ⟨rest, h1, (h3 (by decide)).1, (h3 (by decide)).2⟩

end SmartHostel
